import Mathlib

/-!
A shallow embedding of the RipTide_compiler passes:

* the graph store and pass-through resolver of `CustomDataflowGraph.cpp`
  (`getOrAdd`, `wireValueToNode`, `addNode`, `addEdge`, `removeNode`,
  `findNodeForValue`),
* the v0.8 `DataflowGraph::run` builder pipeline that uses this store,
* the older self-contained v0.7 `DataflowGraph.cpp` pass (branch pass,
  entry-stream creation, its own `getOrAdd`/`wireValueToNode` variants),
* the `EnforceMemOrderPass` memory-token transform,
* the DOT printers of both generations (node-suppression predicates).

LLVM values are modelled as finite trees: each value carries a numeric
identity `vid` (standing for the C++ pointer identity) and instructions
carry their operand values as subterms, in LLVM operand order.  Basic-block
operands of branch instructions are kept as successor ids in the
instruction kind (they are inert in every modelled routine: they are never
looked up in the value map and are not instructions, so the operand
recursion of `wireValueToNode` stops at them).  Node input/output edge
lists are represented once, as the graph's edge list (the C++ keeps the
per-node lists exactly synchronized with it; spec invariant I2).
-/

namespace RipTide

/-- Operator taxonomy of `CustomDataflowGraph.h` / `DataflowGraph.cpp`. -/
inductive DataflowOperatorType where
  | Unknown
  | FunctionInput
  | FunctionOutput
  | Constant
  | BasicBinaryOp
  | Load
  | Store
  | TrueSteer
  | FalseSteer
  | Merge
  | Carry
  | Invariant
  | Order
  | Stream
deriving DecidableEq, Repr

/-- Binary opcodes distinguished by the Pass-1 symbol switch. -/
inductive Opcode where
  | add | fadd | sub | mul | udiv
  | otherOp (name : String)
deriving DecidableEq, Repr

/-- Integer-compare predicates distinguished by the Pass-1 symbol switch. -/
inductive IPred where
  | eq | ne | slt | sle | sgt | sge
  | otherPred (name : String)
deriving DecidableEq, Repr

/-- Cast flavours: v0.7 treats only zext/sext transparently, the
refactored store treats every `CastInst` transparently. -/
inductive CastKind where
  | zext | sext
  | otherCast (name : String)
deriving DecidableEq, Repr

/-- Instruction kinds; operand values live in the enclosing
`Value.inst`'s operand list, in LLVM operand order:
`store` = [value, pointer]; `call` = args ++ [callee];
`gep` = pointer :: indices; `phi` = incoming values (blocks aside);
`condbr` = [condition] (block operands as successor ids);
`select` = [cond, trueval, falseval]; `cast` = [operand]. -/
inductive InstKind where
  | binop (op : Opcode)
  | icmp (p : IPred)
  | fcmp (p : String)
  | load
  | store
  | phi (bbs : List Nat)
  | call
  | ret
  | br (succ : Nat)
  | condbr (tsucc fsucc : Nat)
  | select
  | gep
  | cast (ck : CastKind)
deriving DecidableEq, Repr

/-- An LLVM value: identity (`vid` models pointer identity) plus payload;
instructions carry their operand values as subterms. -/
inductive Value where
  | arg (vid : Nat) (name : String)
  | constInt (vid : Nat) (lit : Int)
  | funcSym (vid : Nat) (name : String)
  | inst (vid : Nat) (k : InstKind) (ops : List Value)

/-- The identity of a value (models the C++ `llvm::Value*`). -/
def Value.vid : Value → Nat
  | .arg v _ => v
  | .constInt v _ => v
  | .funcSym v _ => v
  | .inst v _ _ => v

/-- `isa<Function>(V)`. -/
def Value.isFunction : Value → Bool
  | .funcSym _ _ => true
  | _ => false

/-- `isa<BranchInst>(V)` (conditional or not). -/
def Value.isBranch : Value → Bool
  | .inst _ (.br _) _ => true
  | .inst _ (.condbr _ _) _ => true
  | _ => false

/-- `isa<SelectInst>(V)`. -/
def Value.isSelect : Value → Bool
  | .inst _ .select _ => true
  | _ => false

/-- `isa<GetElementPtrInst>(V)`. -/
def Value.isGEP : Value → Bool
  | .inst _ .gep _ => true
  | _ => false

/-- `isa<CastInst>(V)` (any cast flavour). -/
def Value.isCast : Value → Bool
  | .inst _ (.cast _) _ => true
  | _ => false

/-- `isa<ZExtInst>(V) || isa<SExtInst>(V)` (the only casts v0.7 unwraps). -/
def Value.isZExtOrSExt : Value → Bool
  | .inst _ (.cast .zext) _ => true
  | .inst _ (.cast .sext) _ => true
  | _ => false

/-- `isa<Argument>(V)`. -/
def Value.isArgument : Value → Bool
  | .arg _ _ => true
  | _ => false

/-- `isa<Constant>(V)`: integer literals and function symbols
(an `llvm::Function` is a `Constant`). -/
def Value.isConstant : Value → Bool
  | .constInt _ _ => true
  | .funcSym _ _ => true
  | _ => false

/-- `isa<Instruction>(V)`. -/
def Value.isInstruction : Value → Bool
  | .inst _ _ _ => true
  | _ => false

/-- `isa<PHINode>(V)`. -/
def Value.isPhi : Value → Bool
  | .inst _ (.phi _) _ => true
  | _ => false

/-- Direct operand identities of a value (empty for non-instructions). -/
def Value.opVids : Value → List Nat
  | .inst _ _ ops => ops.map Value.vid
  | _ => []

/-- A node of the custom dataflow graph (`DataflowNode`): identity,
operator kind, weak back-reference to the originating IR value (its vid),
label and operator symbol.  The `Inputs`/`Outputs` edge lists are
represented by the graph's edge list (spec invariant I2). -/
structure DataflowNode where
  nid : Nat
  ty : DataflowOperatorType
  originalValue : Option Nat
  label : String
  opSymbol : String
deriving DecidableEq, Repr

/-- The graph store (`CustomDataflowGraph`): nodes and edges in insertion
order, the value-to-node map, and the supply of fresh node identities. -/
structure CustomDataflowGraph where
  nodes : List DataflowNode
  edges : List (Nat × Nat)
  valueToNodeMap : List (Nat × Nat)
  nextId : Nat
deriving DecidableEq, Repr

namespace CustomDataflowGraph

/-- The empty graph. -/
def empty : CustomDataflowGraph := ⟨[], [], [], 0⟩

/-- `std::map` insert-or-assign for the value map. -/
def mapInsert (m : List (Nat × Nat)) (k v : Nat) : List (Nat × Nat) :=
  match m with
  | [] => [(k, v)]
  | p :: rest => if p.1 == k then (k, v) :: rest else p :: mapInsert rest k v

/-- `findNodeForValue`: pure lookup of a value id in the map. -/
def findNodeForValue (g : CustomDataflowGraph) (vid : Nat) : Option Nat :=
  (g.valueToNodeMap.find? (fun p => p.1 == vid)).map (·.2)

/-- The operator kind of the node with identity `nid` (`n->Type` in C++;
the default is never consulted when the map only holds live nodes). -/
def nodeTyD (g : CustomDataflowGraph) (nid : Nat) : DataflowOperatorType :=
  ((g.nodes.find? (fun nd => nd.nid == nid)).map (·.ty)).getD .Unknown

/-- `addNode(type, originalValue, label)`: always creates a fresh node and,
when an originating value is given, binds the value→node mapping. -/
def addNode (g : CustomDataflowGraph) (ty : DataflowOperatorType)
    (orig : Option Nat) (label : String) : CustomDataflowGraph × Nat :=
  let n : DataflowNode := ⟨g.nextId, ty, orig, label, ""⟩
  let g' := { g with nodes := g.nodes ++ [n], nextId := g.nextId + 1 }
  match orig with
  | some v => ({ g' with valueToNodeMap := mapInsert g'.valueToNodeMap v n.nid }, n.nid)
  | none => (g', n.nid)

/-- `addEdge(src, dst)`: null endpoints are a warned no-op; duplicate
edges (same endpoints) are suppressed. -/
def addEdge (g : CustomDataflowGraph) (src dst : Option Nat) : CustomDataflowGraph :=
  match src, dst with
  | some s, some d =>
      if (s, d) ∈ g.edges then g
      else { g with edges := g.edges ++ [(s, d)] }
  | _, _ => g

/-- Remove the first map binding whose node is `nid`
(`removeNode` erases the single matching `ValueToNodeMap` entry). -/
def removeFirstBinding : List (Nat × Nat) → Nat → List (Nat × Nat)
  | [], _ => []
  | p :: rest, nid => if p.2 == nid then rest else p :: removeFirstBinding rest nid

/-- `removeNode(n)`: null is a warned no-op; otherwise unlink every
adjacent edge, remove the node, and erase its value-map entry. -/
def removeNode (g : CustomDataflowGraph) (n : Option Nat) : CustomDataflowGraph :=
  match n with
  | none => g
  | some nid =>
      { g with
        edges := g.edges.filter (fun e => e.1 != nid && e.2 != nid),
        nodes := g.nodes.filter (fun nd => nd.nid != nid),
        valueToNodeMap := removeFirstBinding g.valueToNodeMap nid }

/-- `getOrAdd(V)` of `CustomDataflowGraph.cpp`: null-safe; never
materializes functions, branches, selects, GEPs or casts; returns the
existing node else creates one, tagging arguments `FunctionInput` and
constants `Constant` (instructions start `Unknown`). -/
def getOrAdd (g : CustomDataflowGraph) (V : Option Value) :
    CustomDataflowGraph × Option Nat :=
  match V with
  | none => (g, none)
  | some v =>
      if v.isFunction then (g, none)
      else if v.isBranch || v.isSelect then (g, none)
      else if v.isGEP || v.isCast then (g, none)
      else
        match findNodeForValue g v.vid with
        | some n => (g, some n)
        | none =>
            let ty :=
              if v.isArgument then DataflowOperatorType.FunctionInput
              else if v.isConstant then DataflowOperatorType.Constant
              else DataflowOperatorType.Unknown
            let r := addNode g ty (some v.vid) ""
            (r.1, some r.2)

mutual

/-- `wireValueToNode(V, destN)` body of `CustomDataflowGraph.cpp` for
non-null arguments: unwrap GEPs (pointer operand then every index) and
any cast (sole operand) transparently; else connect a mapped node of
non-`Unknown` kind directly; else unwrap the operands of instructions. -/
def wireV (g : CustomDataflowGraph) (v : Value) (d : Nat) : CustomDataflowGraph :=
  match v with
  | .inst _ .gep ops =>
      match ops with
      | base :: idxs => wireVList (wireV g base d) idxs d
      | [] => g
  | .inst _ (.cast _) ops =>
      match ops with
      | op0 :: _ => wireV g op0 d
      | [] => g
  | .inst vid _ ops =>
      match findNodeForValue g vid with
      | some srcN =>
          if nodeTyD g srcN != .Unknown then addEdge g (some srcN) (some d)
          else wireVList g ops d
      | none => wireVList g ops d
  | .arg vid _ =>
      match findNodeForValue g vid with
      | some srcN =>
          if nodeTyD g srcN != .Unknown then addEdge g (some srcN) (some d) else g
      | none => g
  | .constInt vid _ =>
      match findNodeForValue g vid with
      | some srcN =>
          if nodeTyD g srcN != .Unknown then addEdge g (some srcN) (some d) else g
      | none => g
  | .funcSym vid _ =>
      match findNodeForValue g vid with
      | some srcN =>
          if nodeTyD g srcN != .Unknown then addEdge g (some srcN) (some d) else g
      | none => g

/-- The operand loop `for (Value *op : I->operand_values()) wireValueToNode(op, destN)`. -/
def wireVList (g : CustomDataflowGraph) (vs : List Value) (d : Nat) : CustomDataflowGraph :=
  match vs with
  | [] => g
  | v :: rest => wireVList (wireV g v d) rest d

end

/-- `wireValueToNode(V, destN)` with the null guards. -/
def wireValueToNode (g : CustomDataflowGraph) (V : Option Value) (destN : Option Nat) :
    CustomDataflowGraph :=
  match V, destN with
  | some v, some d => wireV g v d
  | _, _ => g

/-- Add an edge from every listed source node to `d`, in order. -/
def addEdgesList (g : CustomDataflowGraph) (srcs : List Nat) (d : Nat) :
    CustomDataflowGraph :=
  srcs.foldl (fun h s => addEdge h (some s) (some d)) g

end CustomDataflowGraph

mutual

/-- Written from the specification of the pass-through resolver: the list of
source nodes that `wire_value_to_node(V, D)` connects to D, given the value
map (`fnd`) and the node kinds (`tyOf`) as lookup functions.  Address
arithmetic contributes its base pointer's and every index operand's sources;
a cast contributes its sole operand's sources; otherwise a mapped node of
non-`Unknown` kind is the single source and the recursion stops; otherwise
an instruction contributes its operands' sources, and a non-instruction
contributes nothing. -/
def specWireSources (fnd : Nat → Option Nat) (tyOf : Nat → DataflowOperatorType)
    (v : Value) : List Nat :=
  match v with
  | .inst _ .gep ops =>
      match ops with
      | base :: idxs => specWireSources fnd tyOf base ++ specWireSourcesList fnd tyOf idxs
      | [] => []
  | .inst _ (.cast _) ops =>
      match ops with
      | op0 :: _ => specWireSources fnd tyOf op0
      | [] => []
  | .inst vid _ ops =>
      match fnd vid with
      | some srcN =>
          if tyOf srcN != .Unknown then [srcN]
          else specWireSourcesList fnd tyOf ops
      | none => specWireSourcesList fnd tyOf ops
  | .arg vid _ =>
      match fnd vid with
      | some srcN => if tyOf srcN != .Unknown then [srcN] else []
      | none => []
  | .constInt vid _ =>
      match fnd vid with
      | some srcN => if tyOf srcN != .Unknown then [srcN] else []
      | none => []
  | .funcSym vid _ =>
      match fnd vid with
      | some srcN => if tyOf srcN != .Unknown then [srcN] else []
      | none => []

/-- Sources named by a list of operands, concatenated in order. -/
def specWireSourcesList (fnd : Nat → Option Nat) (tyOf : Nat → DataflowOperatorType)
    (vs : List Value) : List Nat :=
  match vs with
  | [] => []
  | v :: rest => specWireSources fnd tyOf v ++ specWireSourcesList fnd tyOf rest

end

/-! ### IR functions, blocks, and analysis inputs -/

/-- A basic block: identity and instructions in order (terminator last). -/
structure Block where
  bid : Nat
  insts : List Value

/-- A function body: arguments and basic blocks (entry block first). -/
structure Func where
  fargs : List Value
  blocks : List Block

/-- All instructions of the function in block order. -/
def Func.allInsts (F : Func) : List Value := (F.blocks.map Block.insts).flatten

/-- `V->users()` restricted to instructions: every instruction that has an
operand with identity `vid`. -/
def Func.usersOf (F : Func) (vid : Nat) : List Value :=
  F.allInsts.filter (fun i => i.opVids.contains vid)

/-- The terminator of a block (its last instruction). -/
def Block.terminator (b : Block) : Option Value := b.insts.getLast?

/-- Look a block up by identity. -/
def Func.findBlock (F : Func) (bid : Nat) : Option Block :=
  F.blocks.find? (fun b => b.bid == bid)

/-- CFG successors of a block, read off its terminator. -/
def Func.successorsOf (F : Func) (bid : Nat) : List Nat :=
  match (F.findBlock bid).bind Block.terminator with
  | some (.inst _ (.br s) _) => [s]
  | some (.inst _ (.condbr t f) _) => [t, f]
  | _ => []

/-- CFG predecessors of a block. -/
def Func.predsOf (F : Func) (bid : Nat) : List Nat :=
  (F.blocks.filter (fun b => (F.successorsOf b.bid).contains bid)).map Block.bid

/-- `BB->getSinglePredecessor()`. -/
def Func.singlePredOf (F : Func) (bid : Nat) : Option Nat :=
  match F.predsOf bid with
  | [p] => some p
  | _ => none

/-- Result of LLVM's loop analysis for one natural loop, provided as an
analysis input to the builder (the builder only consumes it): header,
member blocks, `getLoopPredecessor()` and `getExitingBlock()`. -/
structure LoopData where
  header : Nat
  blks : List Nat
  loopPred : Option Nat
  exiting : Option Nat

/-- `LoopInfo`: the set of natural loops. -/
abbrev LoopInfo := List LoopData

/-- `LI.getLoopFor(BB)`. -/
def getLoopFor (LI : LoopInfo) (bid : Nat) : Option LoopData :=
  LI.find? (fun L => L.blks.contains bid)

/-- Substring containment, as `StringRef::contains`. -/
def strHasSub (s pat : String) : Bool :=
  let cs := s.data
  let ps := pat.data
  (List.range (cs.length + 1)).any fun i => (cs.drop i).take ps.length == ps

/-- Is `i` a conditional branch? -/
def Value.isCondBr : Value → Bool
  | .inst _ (.condbr _ _) _ => true
  | _ => false

/-- Is `i` a return instruction? -/
def Value.isRet : Value → Bool
  | .inst _ .ret _ => true
  | _ => false

/-- Is `i` an integer or float comparison? -/
def Value.isCmp : Value → Bool
  | .inst _ (.icmp _) _ => true
  | .inst _ (.fcmp _) _ => true
  | _ => false

/-- Direct operand values of `i` (empty for non-instructions). -/
def Value.opsOf : Value → List Value
  | .inst _ _ ops => ops
  | _ => []

/-- `CI->getCalledFunction()`-style callee access: the last operand of a
call (LLVM stores the callee as the final operand). -/
def Value.calleeOf : Value → Option Value
  | .inst _ .call ops => ops.getLast?
  | _ => none

/-- Is `i` a call whose resolved callee name contains `pat`? -/
def Value.isCallTo (i : Value) (pat : String) : Bool :=
  match i.calleeOf with
  | some (.funcSym _ nm) => strHasSub nm pat
  | _ => false

/-- Incoming (value, block) pairs of a phi. -/
def Value.phiIncoming : Value → List (Value × Nat)
  | .inst _ (.phi bbs) ops => ops.zip bbs
  | _ => []

namespace CustomDataflowGraph

/-- Assign a node's operator kind (`n->Type = t`). -/
def setNodeTy (g : CustomDataflowGraph) (nid : Nat) (t : DataflowOperatorType) :
    CustomDataflowGraph :=
  { g with nodes := g.nodes.map fun nd => if nd.nid == nid then { nd with ty := t } else nd }

/-- Assign a node's label (`n->Label = s`). -/
def setNodeLabel (g : CustomDataflowGraph) (nid : Nat) (s : String) :
    CustomDataflowGraph :=
  { g with nodes := g.nodes.map fun nd => if nd.nid == nid then { nd with label := s } else nd }

/-- Assign a node's operator symbol (`n->OpSymbol = s`). -/
def setNodeOpSym (g : CustomDataflowGraph) (nid : Nat) (s : String) :
    CustomDataflowGraph :=
  { g with nodes := g.nodes.map fun nd => if nd.nid == nid then { nd with opSymbol := s } else nd }

/-- Read a node's label (`n->Label`). -/
def nodeLabelD (g : CustomDataflowGraph) (nid : Nat) : String :=
  ((g.nodes.find? (fun nd => nd.nid == nid)).map (·.label)).getD ""

end CustomDataflowGraph

/-! ### The v0.8 `DataflowGraph::run` pipeline (refactored pass using the
`CustomDataflowGraph` store; `part_002` second file, plugin version v0.8) -/

namespace Run08

open CustomDataflowGraph

/-- `Instruction::getOpcodeName` for the modelled binary opcodes. -/
def Opcode.name : Opcode → String
  | .add => "add"
  | .fadd => "fadd"
  | .sub => "sub"
  | .mul => "mul"
  | .udiv => "udiv"
  | .otherOp n => n

/-- The Pass-1 symbol switch for binary opcodes (default: the opcode name). -/
def Opcode.sym : Opcode → String
  | .add => "+"
  | .fadd => "+"
  | .sub => "-"
  | .mul => "*"
  | .udiv => "/"
  | .otherOp n => n

/-- The Pass-1 symbol switch for integer predicates
(default: the predicate name). -/
def IPred.sym : IPred → String
  | .eq => "=="
  | .ne => "!="
  | .slt => "<"
  | .sle => "<="
  | .sgt => ">"
  | .sge => ">="
  | .otherPred n => n

/-- Pass 1 skips selects, GEPs, conditional branches, casts and returns:
these are handled specially or by `wireValueToNode`. -/
def pass1Skip (i : Value) : Bool :=
  i.isSelect || i.isGEP || i.isCondBr || i.isCast || i.isRet

/-- Pass-1 classification: operator kind, label and symbol for one
instruction (`Unknown` and empty strings mean "leave as is"). -/
def classifyOp (i : Value) : DataflowOperatorType × String × String :=
  match i with
  | .inst _ (.binop op) _ => (.BasicBinaryOp, Opcode.name op, Opcode.sym op)
  | .inst _ .call ops =>
      match ops.getLast? with
      | some (.funcSym _ nm) =>
          if strHasSub nm "lso.load" then (.Load, "ld", "")
          else if strHasSub nm "lso.store" then (.Store, "st", "")
          else (.Unknown, "call", "")
      | _ => (.Unknown, "", "")
  | .inst _ (.icmp p) _ => (.BasicBinaryOp, "icmp", IPred.sym p)
  | .inst _ (.fcmp p) _ => (.BasicBinaryOp, "", p)
  | .inst _ (.phi _) _ => (.Merge, "M", "")
  | _ => (.Unknown, "", "")

/-- One Pass-1 step: get-or-add the instruction's node, then update its
kind (when classified), its label (when non-empty) and its symbol. -/
def pass1Step (g : CustomDataflowGraph) (i : Value) : CustomDataflowGraph :=
  if pass1Skip i then g
  else
    let c := classifyOp i
    let r := getOrAdd g (some i)
    match r.2 with
    | none => r.1
    | some n =>
        let g1 := if c.1 != DataflowOperatorType.Unknown then setNodeTy r.1 n c.1 else r.1
        let g2 := if c.2.1 != "" then setNodeLabel g1 n c.2.1 else g1
        setNodeOpSym g2 n c.2.2

/-- Pass 1: create nodes for all relevant instructions. -/
def pass1 (F : Func) (g : CustomDataflowGraph) : CustomDataflowGraph :=
  F.allInsts.foldl pass1Step g

/-- The argument pass: get-or-add each argument; when its label is still
empty, force `FunctionInput` and a printed label. -/
def argStep (g : CustomDataflowGraph) (a : Value) : CustomDataflowGraph :=
  let r := getOrAdd g (some a)
  match r.2 with
  | none => r.1
  | some n =>
      if nodeLabelD r.1 n == "" then
        let lab := match a with
          | .arg _ nm => nm
          | _ => ""
        setNodeLabel (setNodeTy r.1 n .FunctionInput) n lab
      else r.1

/-- Add nodes for every function argument. -/
def argsPass (F : Func) (g : CustomDataflowGraph) : CustomDataflowGraph :=
  F.fargs.foldl argStep g

/-- Add nodes for every constant (and argument) operand of every
instruction. -/
def constsPass (F : Func) (g : CustomDataflowGraph) : CustomDataflowGraph :=
  F.allInsts.foldl
    (fun g i =>
      i.opsOf.foldl
        (fun h op =>
          let h1 := if op.isConstant then (getOrAdd h (some op)).1 else h
          if op.isArgument then (getOrAdd h1 (some op)).1 else h1)
        g)
    g

/-- `createSteers(G, Cond, TrueVal, FalseVal)` of the v0.8 pass: type the
condition's node `BasicBinaryOp`, create a `TrueSteer`/`FalseSteer` pair,
wire the condition into both and the optional data values into each.
(When `getOrAdd` refuses the condition the C++ dereferences null; we skip
the type update in that never-exercised case.) -/
def createSteers (g : CustomDataflowGraph) (cond : Value) (tv fv : Option Value) :
    CustomDataflowGraph × Nat × Nat :=
  let r := getOrAdd g (some cond)
  let g1 := match r.2 with
    | some cn => setNodeTy r.1 cn .BasicBinaryOp
    | none => r.1
  let a1 := addNode g1 .TrueSteer none "T"
  let a2 := addNode a1.1 .FalseSteer none "F"
  let tS := a1.2
  let fS := a2.2
  let g4 := wireValueToNode a2.1 (some cond) (some tS)
  let g5 := wireValueToNode g4 (some cond) (some fS)
  let g6 := match tv with
    | some t => wireValueToNode g5 (some t) (some tS)
    | none => g5
  let g7 := match fv with
    | some f => wireValueToNode g6 (some f) (some fS)
    | none => g6
  (g7, tS, fS)

/-- Convert one select to a T/F steer pair and re-wire its users. -/
def selectStep (F : Func) (g : CustomDataflowGraph) (i : Value) : CustomDataflowGraph :=
  match i with
  | .inst vid .select [c, tv, fv] =>
      let r := createSteers g c (some tv) (some fv)
      (F.usersOf vid).foldl
        (fun h u =>
          match findNodeForValue h u.vid with
          | some dest => addEdge (addEdge h (some r.2.1) (some dest)) (some r.2.2) (some dest)
          | none => h)
        r.1
  | _ => g

/-- Convert every select instruction to steers. -/
def selectsPass (F : Func) (g : CustomDataflowGraph) : CustomDataflowGraph :=
  F.allInsts.foldl (selectStep F) g

/-- Pass-2 treatment of a single instruction: lso.load/lso.store call
wiring (store continues), raw load/store wiring (store continues), GEP and
cast pass-through to users (both continue), constant-operand edges, then
generic definition→use edges with the steer/phi exclusions. -/
def pass2Step (F : Func) (g : CustomDataflowGraph) (i : Value) : CustomDataflowGraph :=
  if i.isCallTo "lso.store" then
    -- wire pointer and value operands into the store node, then continue
    match i, findNodeForValue g i.vid with
    | .inst _ .call ops, some storeNode =>
        let h := wireValueToNode g (ops.get? 0) (some storeNode)
        wireValueToNode h (ops.get? 1) (some storeNode)
    | _, _ => g
  else
    let g :=
      if i.isCallTo "lso.load" then
        -- wire address and token operands into the load node (no continue)
        match i, findNodeForValue g i.vid with
        | .inst _ .call ops, some loadNode =>
            let h := wireValueToNode g (ops.get? 0) (some loadNode)
            wireValueToNode h (ops.get? 1) (some loadNode)
        | _, _ => g
      else g
    -- raw LoadInst: wire the address operand (no continue)
    let g := match i with
      | .inst vid .load (ptr :: _) =>
          match findNodeForValue g vid with
          | some loadNode => wireValueToNode g (some ptr) (some loadNode)
          | none => g
      | _ => g
    match i with
    | .inst vid .store (v0 :: p0 :: _) =>
        -- raw StoreInst: wire value and pointer, then continue
        (match findNodeForValue g vid with
         | some storeNode =>
             wireValueToNode (wireValueToNode g (some v0) (some storeNode)) (some p0)
               (some storeNode)
         | none => g)
    | .inst vid .gep (base :: idxs) =>
        -- GEP pass-through: wire its operands into each user, then continue
        (F.usersOf vid).foldl
          (fun h u =>
            match findNodeForValue h u.vid with
            | some dest =>
                let h1 := wireValueToNode h (some base) (some dest)
                idxs.foldl (fun h2 ix => wireValueToNode h2 (some ix) (some dest)) h1
            | none => h)
          g
    | .inst vid (.cast _) (op0 :: _) =>
        -- cast pass-through: wire its operand into each user, then continue
        (F.usersOf vid).foldl
          (fun h u =>
            match findNodeForValue h u.vid with
            | some dest => wireValueToNode h (some op0) (some dest)
            | none => h)
          g
    | _ =>
        -- wire every constant operand into I (calls iterate all operands,
        -- the callee included; `getOrAdd` refuses function symbols)
        let g := match findNodeForValue g i.vid with
          | some instN =>
              i.opsOf.foldl
                (fun h op =>
                  if op.isConstant then
                    let r := getOrAdd h (some op)
                    addEdge r.1 r.2 (some instN)
                  else h)
                g
          | none => g
        -- skip control ops entirely
        if i.isBranch || i.isPhi || i.isSelect || i.isRet then g
        else
          match findNodeForValue g i.vid with
          | none => g
          | some sourceNode =>
              (F.usersOf i.vid).foldl
                (fun h u =>
                  match findNodeForValue h u.vid with
                  | some destNode =>
                      let isSteerSource := i.isCmp
                      let isSteerDest :=
                        nodeTyD h destNode == DataflowOperatorType.TrueSteer ||
                        nodeTyD h destNode == DataflowOperatorType.FalseSteer
                      let isPHIDest := u.isPhi
                      if !isPHIDest && (!isSteerSource || !isSteerDest) then
                        addEdge h (some sourceNode) (some destNode)
                      else h
                  | none => h)
                g

/-- Pass 2: data-dependency edges and special-instruction wiring. -/
def pass2 (F : Func) (g : CustomDataflowGraph) : CustomDataflowGraph :=
  F.allInsts.foldl (pass2Step F) g

/-- State threaded through Pass 3: the graph, the branch→steers map
(keyed by the branch instruction's identity) and the recorded
`const_duplicate` value. -/
structure Pass3State where
  g : CustomDataflowGraph
  branchSteers : List (Nat × Nat × Nat)
  constDup : Option Value

/-- The loop-carried test of Pass 3: the block's loop exists, the block is
its header, and some incoming block lies inside the loop. -/
def isLoopCarriedChk (LI : LoopInfo) (bid : Nat) (PN : Value) : Option LoopData :=
  match getLoopFor LI bid with
  | some L =>
      if L.header == bid && (PN.phiIncoming.any fun p => L.blks.contains p.2) then some L
      else none
  | none => none

/-- The Pass-3 search for the loop's governing condition: the condition of
the conditional terminator of the single predecessor of
`L->getLoopPredecessor()`, else the condition of the exiting block's
conditional terminator. -/
def findLoopCondition (F : Func) (L : LoopData) : Option Value :=
  let viaPre : Option Value :=
    match L.loopPred with
    | some ph =>
        match F.singlePredOf ph with
        | some pph =>
            match (F.findBlock pph).bind Block.terminator with
            | some (.inst _ (.condbr _ _) (c :: _)) => some c
            | _ => none
        | none => none
    | none => none
  match viaPre with
  | some c => some c
  | none =>
      match L.exiting with
      | some ex =>
          match (F.findBlock ex).bind Block.terminator with
          | some (.inst _ (.condbr _ _) (c :: _)) => some c
          | _ => none
      | none => none

/-- The Pass-3 scan over the carry's incoming values: at the first
constant incoming value, add an edge from the phi node to the condition's
node and, when the condition is an integer compare, record its second
operand as `const_duplicate`; then stop. -/
def constDupScan (g : CustomDataflowGraph) (incomings : List Value) (lc : Value)
    (cd : Option Value) (phiNode : Nat) : CustomDataflowGraph × Option Value :=
  match incomings with
  | [] => (g, cd)
  | iv :: rest =>
      if iv.isConstant then
        let g' := addEdge g (some phiNode) (findNodeForValue g lc.vid)
        let cd' := match lc with
          | .inst _ (.icmp _) (_ :: rhs :: _) => some rhs
          | _ => cd
        (g', cd')
      else constDupScan g rest lc cd phiNode

/-- One incoming value of a non-loop-carried phi (the body of the Pass-3
Merge loop): incomings arriving through a conditional branch are routed
through that branch's on-demand steer pair (memoized per branch in the
`BranchSteers` map), other incomings are wired directly. -/
def mergeIncomingStep (F : Func) (bid phiNode : Nat)
    (acc : CustomDataflowGraph × List (Nat × Nat × Nat)) (p : Value × Nat) :
    CustomDataflowGraph × List (Nat × Nat × Nat) :=
  match (F.findBlock p.2).bind Block.terminator with
  | some (.inst bvid (.condbr t _f) (c :: _)) =>
      let steersAcc :=
        match acc.2.find? (fun q => q.1 == bvid) with
        | some q => (acc.1, q.2.1, q.2.2, acc.2)
        | none =>
            let cr := createSteers acc.1 c none none
            (cr.1, cr.2.1, cr.2.2, (bvid, cr.2.1, cr.2.2) :: acc.2)
      let h := steersAcc.1
      let steerNode := if t == bid then steersAcc.2.1 else steersAcc.2.2.1
      let h1 := addEdge (wireValueToNode h (some p.1) (some steerNode))
        (some steerNode) (some phiNode)
      (h1, steersAcc.2.2.2)
  | some (.inst _ (.br _) _) =>
      (wireValueToNode acc.1 (some p.1) (some phiNode), acc.2)
  | _ =>
      (wireValueToNode acc.1 (some p.1) (some phiNode), acc.2)

/-- The Pass-3 user loop body: add an edge from the phi's node to every
user that already has a node. -/
def userWireStep (phiNode : Nat) (h : CustomDataflowGraph) (u : Value) :
    CustomDataflowGraph :=
  match findNodeForValue h u.vid with
  | some dest => addEdge h (some phiNode) (some dest)
  | none => h

/-- Pass-3 treatment of one phi node `PN` in block `bid`: re-tag Carry and
wire the loop decider and incomings, or keep Merge and route incomings via
on-demand branch steers; finally wire the node to its users. -/
def processPhi (F : Func) (LI : LoopInfo) (st : Pass3State) (bid : Nat) (PN : Value) :
    Pass3State :=
  match findNodeForValue st.g PN.vid with
  | none => st
  | some phiNode =>
      let st1 : Pass3State :=
        match isLoopCarriedChk LI bid PN with
        | some L =>
            -- loop-carried: re-tag the node as a Carry
            let g := setNodeOpSym (setNodeLabel (setNodeTy st.g phiNode .Carry) phiNode "C")
              phiNode ""
            let lc? := findLoopCondition F L
            let r : CustomDataflowGraph × Option Value :=
              match lc? with
              | some lc =>
                  let g1 := wireValueToNode g (some lc) (some phiNode)
                  constDupScan g1 (PN.phiIncoming.map Prod.fst) lc st.constDup phiNode
              | none => (g, st.constDup)
            -- wire A (initial) and B (carried) inputs
            let g2 := (PN.phiIncoming.map Prod.fst).foldl
              (fun h iv => wireValueToNode h (some iv) (some phiNode)) r.1
            { g := g2, branchSteers := st.branchSteers, constDup := r.2 }
        | none =>
            -- standard Merge
            let g := setNodeLabel (setNodeTy st.g phiNode .Merge) phiNode "M"
            let r := PN.phiIncoming.foldl (mergeIncomingStep F bid phiNode)
              (g, st.branchSteers)
            { g := r.1, branchSteers := r.2, constDup := st.constDup }
      -- wire outputs from the Merge/Carry node to its users
      let g3 := (F.usersOf PN.vid).foldl (userWireStep phiNode) st1.g
      { st1 with g := g3 }

/-- Pass 3: process every phi node, in block order. -/
def pass3 (F : Func) (LI : LoopInfo) (g : CustomDataflowGraph) : Pass3State :=
  F.blocks.foldl
    (fun st b =>
      b.insts.foldl
        (fun st i => if i.isPhi then processPhi F LI st b.bid i else st)
        st)
    { g := g, branchSteers := [], constDup := none }

/-- Pass 4: wire every function argument into each of its users. -/
def pass4 (F : Func) (g : CustomDataflowGraph) : CustomDataflowGraph :=
  F.fargs.foldl
    (fun g a =>
      match findNodeForValue g a.vid with
      | none => g
      | some _ =>
          (F.usersOf a.vid).foldl
            (fun h u =>
              let r := getOrAdd h (some u)
              wireValueToNode r.1 (some a) r.2)
            g)
    g

/-- `addMemDepEdges` of `CustomDataflowGraph.cpp`: the store→load hookup
is commented out in the source, so the graph is left unchanged. -/
def addMemDepEdges (g : CustomDataflowGraph) : CustomDataflowGraph := g

/-- The pipeline state right after Pass 3 (passes 1–3 from the empty
graph). -/
def runPass3State (F : Func) (LI : LoopInfo) : Pass3State :=
  pass3 F LI (pass2 F (selectsPass F (constsPass F (argsPass F
    (pass1 F CustomDataflowGraph.empty)))))

/-- The graph right before the final `removeNode` call: passes 1–4 plus
the placeholder memory-dependency pass. -/
def runBeforeRemoval (F : Func) (LI : LoopInfo) : CustomDataflowGraph :=
  addMemDepEdges (pass4 F (runPass3State F LI).g)

/-- The complete v0.8 `DataflowGraph::run` on one function: passes 1–4,
the placeholder memory-dependency pass, then removal of the recorded
`const_duplicate`'s node (a null lookup is a warned no-op). -/
def run (F : Func) (LI : LoopInfo) : CustomDataflowGraph :=
  match (runPass3State F LI).constDup with
  | some v => removeNode (runBeforeRemoval F LI) (findNodeForValue (runBeforeRemoval F LI) v.vid)
  | none => removeNode (runBeforeRemoval F LI) none

end Run08

/-! ### The self-contained v0.7 pass (`compiler/DataflowGraph.cpp`):
its own `getOrAdd`/`wireValueToNode` variants (only GEP/zext/sext are
transparent), the lazily created function-entry Stream, and the up-front
branch pass. -/

namespace V7

open CustomDataflowGraph

/-- Insert-or-assign for the `BranchSteers` map (keyed by the branch
instruction's identity; values are the steer pair). -/
def assocInsert (m : List (Nat × Nat × Nat)) (k : Nat) (v : Nat × Nat) :
    List (Nat × Nat × Nat) :=
  match m with
  | [] => [(k, v.1, v.2)]
  | p :: rest => if p.1 == k then (k, v.1, v.2) :: rest else p :: assocInsert rest k v

/-- `getOrAdd(V)` of `compiler/DataflowGraph.cpp`: refuses conditional
branches, GEPs, zext and sext (the null test follows those dyn_casts in
the source); otherwise as the store version. -/
def getOrAddV7 (g : CustomDataflowGraph) (V : Option Value) :
    CustomDataflowGraph × Option Nat :=
  match V with
  | none => (g, none)
  | some v =>
      if v.isCondBr then (g, none)
      else if v.isGEP || v.isZExtOrSExt then (g, none)
      else
        match findNodeForValue g v.vid with
        | some n => (g, some n)
        | none =>
            let ty :=
              if v.isArgument then DataflowOperatorType.FunctionInput
              else if v.isConstant then DataflowOperatorType.Constant
              else DataflowOperatorType.Unknown
            let r := addNode g ty (some v.vid) ""
            (r.1, some r.2)

mutual

/-- `wireValueToNode(V, destN)` body of `compiler/DataflowGraph.cpp` for
non-null arguments: unwraps GEPs and zero/sign extensions transparently
(other casts take the generic instruction path); else connects a mapped
node of non-`Unknown` kind directly; else unwraps instruction operands. -/
def wireV7 (g : CustomDataflowGraph) (v : Value) (d : Nat) : CustomDataflowGraph :=
  match v with
  | .inst _ .gep ops =>
      match ops with
      | base :: idxs => wireV7List (wireV7 g base d) idxs d
      | [] => g
  | .inst _ (.cast .zext) ops =>
      match ops with
      | op0 :: _ => wireV7 g op0 d
      | [] => g
  | .inst _ (.cast .sext) ops =>
      match ops with
      | op0 :: _ => wireV7 g op0 d
      | [] => g
  | .inst vid _ ops =>
      match findNodeForValue g vid with
      | some srcN =>
          if nodeTyD g srcN != .Unknown then addEdge g (some srcN) (some d)
          else wireV7List g ops d
      | none => wireV7List g ops d
  | .arg vid _ =>
      match findNodeForValue g vid with
      | some srcN =>
          if nodeTyD g srcN != .Unknown then addEdge g (some srcN) (some d) else g
      | none => g
  | .constInt vid _ =>
      match findNodeForValue g vid with
      | some srcN =>
          if nodeTyD g srcN != .Unknown then addEdge g (some srcN) (some d) else g
      | none => g
  | .funcSym vid _ =>
      match findNodeForValue g vid with
      | some srcN =>
          if nodeTyD g srcN != .Unknown then addEdge g (some srcN) (some d) else g
      | none => g

/-- Operand loop of the v0.7 resolver. -/
def wireV7List (g : CustomDataflowGraph) (vs : List Value) (d : Nat) : CustomDataflowGraph :=
  match vs with
  | [] => g
  | v :: rest => wireV7List (wireV7 g v d) rest d

end

/-- The v0.7 resolver with the null guards. -/
def wireValueToNodeV7 (g : CustomDataflowGraph) (V : Option Value) (destN : Option Nat) :
    CustomDataflowGraph :=
  match V, destN with
  | some v, some d => wireV7 g v d
  | _, _ => g

/-- The sentinel `ValueToNodeMap` key the v0.7 pass fabricates for the
function-entry stream (`reinterpret_cast<const Value*>("_entry_stream")`);
no real IR value may carry this identity. -/
def entryStreamKey : Nat := 1000000000

/-- `getOrCreateFuncEntryStream`: return the stream node if the sentinel
key is mapped, else create a `Stream` node labelled `STR` and tie it to
the sentinel key. -/
def getOrCreateFuncEntryStream (g : CustomDataflowGraph) : CustomDataflowGraph × Nat :=
  match findNodeForValue g entryStreamKey with
  | some n => (g, n)
  | none =>
      let a := addNode g .Stream none "STR"
      ({ a.1 with valueToNodeMap := mapInsert a.1.valueToNodeMap entryStreamKey a.2 }, a.2)

/-- `createSteers` of the v0.7 pass (same body as v0.8, built on the v0.7
`getOrAdd`/`wireValueToNode`). -/
def createSteersV7 (g : CustomDataflowGraph) (cond : Value) (tv fv : Option Value) :
    CustomDataflowGraph × Nat × Nat :=
  let r := getOrAddV7 g (some cond)
  let g1 := match r.2 with
    | some cn => setNodeTy r.1 cn .BasicBinaryOp
    | none => r.1
  let a1 := addNode g1 .TrueSteer none "T"
  let a2 := addNode a1.1 .FalseSteer none "F"
  let tS := a1.2
  let fS := a2.2
  let g4 := wireValueToNodeV7 a2.1 (some cond) (some tS)
  let g5 := wireValueToNodeV7 g4 (some cond) (some fS)
  let g6 := match tv with
    | some t => wireValueToNodeV7 g5 (some t) (some tS)
    | none => g5
  let g7 := match fv with
    | some f => wireValueToNodeV7 g6 (some f) (some fS)
    | none => g6
  (g7, tS, fS)

/-- `skipPassThroughs`: the first instruction of a block that is not a
GEP, zext or sext (the phi skip is commented out in the source). -/
def skipPassThroughsV7 (b : Block) : Option Value :=
  b.insts.find? (fun i => !(i.isGEP || i.isZExtOrSExt))

/-- Wire a steer node `sN` into the first non-pass-through instruction of
the successor block `sb` (missing block or all-pass-through block is a
no-op). -/
def succWire (F : Func) (g : CustomDataflowGraph) (sb : Nat) (sN : Nat) :
    CustomDataflowGraph :=
  match F.findBlock sb with
  | some b =>
      match skipPassThroughsV7 b with
      | some realI =>
          let r := getOrAddV7 g (some realI)
          addEdge r.1 (some sN) r.2
      | none => g
  | none => g

/-- One step of the v0.7 branch pass: for a conditional branch, create its
steer pair, record it in `BranchSteers`, hook the entry stream into both
steers, and wire each steer to the first non-pass-through instruction of
its successor. -/
def branchStep (F : Func) (acc : CustomDataflowGraph × List (Nat × Nat × Nat))
    (i : Value) : CustomDataflowGraph × List (Nat × Nat × Nat) :=
  match i with
  | .inst bvid (.condbr t f) (c :: _) =>
      let cr := createSteersV7 acc.1 c none none
      let tS := cr.2.1
      let fS := cr.2.2
      let bs := assocInsert acc.2 bvid (tS, fS)
      let r1 := getOrCreateFuncEntryStream cr.1
      let g := addEdge r1.1 (some r1.2) (some tS)
      let g := addEdge g (some r1.2) (some fS)
      let g := succWire F g t tS
      let g := succWire F g f fS
      (g, bs)
  | _ => acc

/-- Pass 1.3 of the v0.7 pass: handle all conditional branches up front,
starting from an empty `BranchSteers` map. -/
def branchPass (F : Func) (g0 : CustomDataflowGraph) :
    CustomDataflowGraph × List (Nat × Nat × Nat) :=
  F.allInsts.foldl (branchStep F) (g0, [])

end V7

/-! ### The memory-ordering transform (`EnforceMemOrderPass.cpp`).

Token SSA values are `cTrue` (the entry constant `i1 1`) or `ref id`
(the result of the instruction with that identity — a token phi or an
`lso.store` call).  Replacement calls keep the identity of the replaced
instruction: the C++ creates a fresh call and `replaceAllUsesWith`s the
old value, so textually the call result takes over the old result's
place; identity reuse models exactly that. -/

namespace Mem

/-- `SyncScope` of an atomic instruction. -/
inductive SyncScopeK where
  | system
  | otherScope (name : String)
deriving DecidableEq, Repr

/-- Atomic memory ordering. -/
inductive AtomicOrdering where
  | seqCst
  | otherOrdering (name : String)
deriving DecidableEq, Repr

/-- A token SSA value: the constant `i1 1`, or the result of a token
phi / `lso.store` call. -/
inductive TokVal where
  | cTrue
  | ref (instId : Nat)
deriving DecidableEq, Repr

/-- Instructions as seen by the memory-order transform.  `load`/`store`
carry their operands as value ids and the element type's printed name
(which selects the intrinsic); the transformed forms are the `lso.*`
calls; `tokenPhi` is the block-head token φ. -/
inductive MInst where
  | load (id : Nat) (ptr : Nat) (valTy : String)
  | store (id : Nat) (ptr : Nat) (val : Nat) (valTy : String)
  | cmpxchg (id : Nat) (scope : SyncScopeK) (succOrd failOrd : AtomicOrdering)
  | rmw (id : Nat) (scope : SyncScopeK) (ord : AtomicOrdering)
  | lsoLoadCall (id : Nat) (valTy : String) (ptr : Nat) (tok : TokVal)
  | lsoStoreCall (id : Nat) (valTy : String) (ptr : Nat) (val : Nat)
  | tokenPhi (id : Nat) (incoming : List (TokVal × Nat))
  | otherInst (id : Nat)
deriving DecidableEq, Repr

/-- The `MemInsts` collection test: raw loads, raw stores, and atomics
(the `lso.*` calls and phis are ordinary calls/phis and are not
collected). -/
def MInst.isMemInst : MInst → Bool
  | .load _ _ _ => true
  | .store _ _ _ _ => true
  | .cmpxchg _ _ _ _ => true
  | .rmw _ _ _ => true
  | _ => false

/-- A basic block for the memory pass: identity, CFG successors (the pass
never edits terminators) and instructions. -/
structure MBlock where
  bid : Nat
  succs : List Nat
  insts : List MInst
deriving DecidableEq, Repr

/-- A function for the memory pass; `nextVid` supplies fresh identities
for the phis the pass creates. -/
structure MFunc where
  isDecl : Bool
  blocks : List MBlock
  nextVid : Nat
deriving DecidableEq, Repr

/-- CFG predecessors of a block. -/
def MFunc.predsOf (F : MFunc) (bid : Nat) : List Nat :=
  (F.blocks.filter (fun b => b.succs.contains bid)).map MBlock.bid

/-- The entry block's identity (the function's first block). -/
def MFunc.entryBid (F : MFunc) : Nat :=
  (F.blocks.head?.map MBlock.bid).getD 0

/-- Phase A: insert an (as yet incomplete) token phi at the head of every
non-entry block that has predecessors; returns the new function and the
`TokenPHIs` map of this run. -/
def phaseA (F : MFunc) : MFunc × List (Nat × Nat) :=
  let r := F.blocks.foldl
    (fun (acc : List MBlock × List (Nat × Nat) × Nat) b =>
      if b.bid == F.entryBid then (acc.1 ++ [b], acc.2.1, acc.2.2)
      else if (F.predsOf b.bid).isEmpty then (acc.1 ++ [b], acc.2.1, acc.2.2)
      else
        let phiId := acc.2.2
        (acc.1 ++ [{ b with insts := MInst.tokenPhi phiId [] :: b.insts }],
         acc.2.1 ++ [(b.bid, phiId)], phiId + 1))
    ([], [], F.nextVid)
  ({ F with blocks := r.1, nextVid := r.2.2 }, r.2.1)

/-- The per-block replacement walk over `MemInsts` (net effect of the
builder-insert-then-erase loop): each raw load becomes
`lso.load.T(ptr, current)` and leaves `current` unchanged; each raw store
becomes `lso.store.T(ptr, val)` whose token becomes the new `current`;
atomics are clamped to seq_cst at system scope and leave `current`
unchanged; everything else is untouched.  (`CurrentToken` and
`LastTokenProducedInBlock` stay equal throughout in the source, so a
single `cur` suffices; the returned token is the block's out-token.) -/
def processInsts (cur : TokVal) : List MInst → List MInst × TokVal
  | [] => ([], cur)
  | i :: rest =>
      match i with
      | .load id ptr ty =>
          let r := processInsts cur rest
          (MInst.lsoLoadCall id ty ptr cur :: r.1, r.2)
      | .store id ptr val ty =>
          let r := processInsts (TokVal.ref id) rest
          (MInst.lsoStoreCall id ty ptr val :: r.1, r.2)
      | .cmpxchg id _ _ _ =>
          let r := processInsts cur rest
          (MInst.cmpxchg id .system .seqCst .seqCst :: r.1, r.2)
      | .rmw id _ _ =>
          let r := processInsts cur rest
          (MInst.rmw id .system .seqCst :: r.1, r.2)
      | other =>
          let r := processInsts cur rest
          (other :: r.1, r.2)

/-- Phase B: the starting token of a block is the constant `true` in the
entry block and the block's token phi otherwise (a missing phi for a
reachable non-entry block is a fatal logic error asserted in the source).
Returns the rewritten function and `LastProducedTokenInBlock`. -/
def phaseB (F1 : MFunc) (tokenPhis : List (Nat × Nat)) :
    MFunc × List (Nat × TokVal) :=
  let r := F1.blocks.foldl
    (fun (acc : List MBlock × List (Nat × TokVal)) b =>
      let start :=
        if b.bid == F1.entryBid then TokVal.cTrue
        else
          match tokenPhis.find? (fun p => p.1 == b.bid) with
          | some p => TokVal.ref p.2
          | none => TokVal.cTrue
      let pr := processInsts start b.insts
      (acc.1 ++ [{ b with insts := pr.1 }], acc.2 ++ [(b.bid, pr.2)]))
    ([], [])
  ({ F1 with blocks := r.1 }, r.2)

/-- Phase C: fill every token phi created by this run with
`(pred's out-token, pred)` for each predecessor. -/
def phaseC (F2 : MFunc) (tokenPhis : List (Nat × Nat))
    (outToks : List (Nat × TokVal)) : MFunc :=
  { F2 with
    blocks := F2.blocks.map fun b =>
      { b with
        insts := b.insts.map fun i =>
          match i with
          | .tokenPhi pid inc =>
              if tokenPhis.contains (b.bid, pid) then
                MInst.tokenPhi pid
                  ((F2.predsOf b.bid).map fun p =>
                    (((outToks.find? (fun q => q.1 == p)).map (·.2)).getD TokVal.cTrue, p))
              else MInst.tokenPhi pid inc
          | _ => i } }

/-- `EnforceMemOrderPass::run`: skip declarations; otherwise create the
token phis, rewrite each block, then fill the phis. -/
def run (F : MFunc) : MFunc :=
  if F.isDecl then F
  else
    let a := phaseA F
    let b := phaseB a.1 a.2
    phaseC b.1 a.2 b.2

/-- Written from the claim: the token available before position `k` of a
block that starts with token `start` — every store's returned token
becomes the new current; loads and atomics leave it unchanged. -/
def specTokenBefore (start : TokVal) (insts : List MInst) (k : Nat) : TokVal :=
  (insts.take k).foldl
    (fun cur i =>
      match i with
      | .store id _ _ _ => TokVal.ref id
      | _ => cur)
    start

end Mem

/-! ### The DOT printers' node-suppression predicates. -/

namespace CustomDataflowGraph

/-- The `Outputs` list of a node (edges leaving it). -/
def outputsOf (g : CustomDataflowGraph) (nid : Nat) : List (Nat × Nat) :=
  g.edges.filter (fun e => e.1 == nid)

/-- The `Inputs` list of a node (edges entering it). -/
def inputsOf (g : CustomDataflowGraph) (nid : Nat) : List (Nat × Nat) :=
  g.edges.filter (fun e => e.2 == nid)

/-- Nodes written by `printCustomDFGToFile` of `CustomDataflowGraph.cpp`
(`part_000`): any node with no outputs is skipped. -/
def printedNodesP000 (g : CustomDataflowGraph) : List DataflowNode :=
  g.nodes.filter (fun nd => !(outputsOf g nd.nid).isEmpty)

/-- `shouldIncludeEmptyNode` of the v0.7 printer. -/
def shouldIncludeEmptyNode (nd : DataflowNode) : Bool :=
  nd.ty == DataflowOperatorType.FunctionInput ||
  nd.ty == DataflowOperatorType.FunctionOutput ||
  nd.ty == DataflowOperatorType.Merge

/-- Nodes written by the v0.7 printer (`compiler/DataflowGraph.cpp`): the
first test skips exactly the nodes with neither inputs nor outputs; the
second, excepting test repeats that condition and is therefore never
reached with a different outcome. -/
def printedNodesV7 (g : CustomDataflowGraph) : List DataflowNode :=
  g.nodes.filter (fun nd =>
    if (inputsOf g nd.nid).isEmpty && (outputsOf g nd.nid).isEmpty then false
    else if (inputsOf g nd.nid).isEmpty && (outputsOf g nd.nid).isEmpty &&
        !shouldIncludeEmptyNode nd then false
    else true)

end CustomDataflowGraph

/-! ### Specification-side definitions (written from the claims' words,
to be compared with the source translations). -/

/-- The literal of an integer constant. -/
def Value.litOf : Value → Option Int
  | .constInt _ l => some l
  | _ => none

/-- The value kinds `getOrAdd` never materializes: function symbols,
branches, selects, address arithmetic, casts. -/
def refusedByGetOrAdd (v : Value) : Bool :=
  v.isFunction || v.isBranch || v.isSelect || v.isGEP || v.isCast

/-- Written from the claim: a phi in block `bid` is loop-carried when the
block lies in a loop `L`, it is `L`'s header, and some incoming edge
originates from a block contained in `L`. -/
def claimLoopCarried (LI : LoopInfo) (bid : Nat) (PN : Value) : Bool :=
  match getLoopFor LI bid with
  | some L => L.header == bid && (PN.phiIncoming.any fun p => L.blks.contains p.2)
  | none => false

/-- The condition of the conditional branch entering block `bid` (the
conditional terminator of its single predecessor). -/
def enteringCondOf (F : Func) (bid : Nat) : Option Value :=
  match F.singlePredOf bid with
  | some p =>
      match (F.findBlock p).bind Block.terminator with
      | some (.inst _ (.condbr _ _) (c :: _)) => some c
      | _ => none
  | none => none

/-- The condition of the loop's exiting block's conditional branch. -/
def exitingCondOf (F : Func) (L : LoopData) : Option Value :=
  match L.exiting with
  | some ex =>
      match (F.findBlock ex).bind Block.terminator with
      | some (.inst _ (.condbr _ _) (c :: _)) => some c
      | _ => none
  | none => none

/-- Written from the claim: the decider wired into a Carry — prefer the
condition of the conditional branch entering the preheader when one
exists, otherwise the condition of the exiting block's conditional
branch. -/
def claimDecider (F : Func) (L : LoopData) : Option Value :=
  match L.loopPred.bind (enteringCondOf F) with
  | some c => some c
  | none => exitingCondOf F L

/-- Written from the claim for the memory transform: how one instruction
is rewritten given the token `tok` current at its position. -/
def specTransformInst (tok : Mem.TokVal) : Mem.MInst → Mem.MInst
  | .load id ptr ty => .lsoLoadCall id ty ptr tok
  | .store id ptr val ty => .lsoStoreCall id ty ptr val
  | .cmpxchg id _ _ _ => .cmpxchg id .system .seqCst .seqCst
  | .rmw id _ _ => .rmw id .system .seqCst
  | i => i

/-- `w` is the identity of an instruction in `l` that Pass 1 of the v0.8
builder classifies with a concrete operator kind. -/
def classifiedIn (l : List Value) (w : Nat) : Bool :=
  l.any fun i =>
    i.vid == w && !Run08.pass1Skip i &&
    (Run08.classifyOp i).1 != DataflowOperatorType.Unknown

/-- `vid` belongs to an instruction that Pass 1 of the v0.8 builder
classifies with a concrete operator kind. -/
def classifiedVid (F : Func) (vid : Nat) : Bool :=
  classifiedIn F.allInsts vid

/-- Graph-store coherence: every node's originating value is mapped back
to that node (holds for every graph the v0.8 builder constructs, since
nodes with an origin are created only through `getOrAdd`). -/
def Coherent (g : CustomDataflowGraph) : Prop :=
  ∀ nd ∈ g.nodes, ∀ w, nd.originalValue = some w →
    CustomDataflowGraph.findNodeForValue g w = some nd.nid

/-- `w` is secured in `g`: it is bound in the value map and every node
originating from it has a concrete operator kind. -/
def SecuredVid (g : CustomDataflowGraph) (w : Nat) : Prop :=
  CustomDataflowGraph.findNodeForValue g w ≠ none ∧
  ∀ nd ∈ g.nodes, nd.originalValue = some w →
    nd.ty ≠ DataflowOperatorType.Unknown

/-- The builder invariant: coherence plus security of every identity
satisfying `Q`. -/
def InvQ (Q : Nat → Prop) (g : CustomDataflowGraph) : Prop :=
  Coherent g ∧ ∀ w, Q w → SecuredVid g w

/-- For the Pass-3 theorems: every incoming path of the phi that comes
through a conditional branch has a condition already mapped to a node
other than the phi's own node. -/
def condNodeOkay (F : Func) (g : CustomDataflowGraph) (phiNode : Nat) (bid' : Nat) : Bool :=
  match (F.findBlock bid').bind Block.terminator with
  | some (.inst _ (.condbr _ _) (c :: _)) =>
      match CustomDataflowGraph.findNodeForValue g c.vid with
      | some cn => cn != phiNode
      | none => false
  | _ => true

/-- A usable branch condition for the v0.7 branch pass: not itself refused
by `getOrAdd`/unwrapped by the resolver, and distinct from the stream
sentinel. -/
def condOkV7 (c : Value) : Bool :=
  !(c.isCondBr || c.isGEP || c.isZExtOrSExt) && c.vid != V7.entryStreamKey

/-- Every conditional branch of `F` has a usable condition operand. -/
def branchCondsOk (F : Func) : Bool :=
  F.allInsts.all fun i =>
    match i with
    | .inst _ (.condbr _ _) (c :: _) => condOkV7 c
    | .inst _ (.condbr _ _) [] => false
    | _ => true

/-- The identities of the conditional branches of `F`. -/
def condBrVids (F : Func) : List Nat :=
  (F.allInsts.filter Value.isCondBr).map Value.vid

/-! ### Concrete example inputs used by witnesses and counterexamples. -/

/-- A function symbol that is not an lso intrinsic. -/
def fooSym : Value := .funcSym 100 "foo"

/-- `call @foo()`. -/
def callFoo : Value := .inst 10 .call [fooSym]

/-- A bare return. -/
def retV : Value := .inst 11 .ret []

/-- `{ entry: call @foo(); ret }` — exercises the non-intrinsic-call path
of Pass 1. -/
def Fcall : Func := ⟨[], [⟨0, [callFoo, retV]⟩]⟩

/-- Constant `0`, the loop counter's initial value. -/
def const0 : Value := .constInt 30 0

/-- Constant `1`, the increment. -/
def const1 : Value := .constInt 31 1

/-- Constant `10`, the loop bound (the comparison's second operand). -/
def const10 : Value := .constInt 32 10

/-- Back-reference to the loop phi (identity only; operand recursion
stops at its typed node, as in the cyclic LLVM use graph). -/
def phiStub : Value := .inst 20 (.phi [0, 1]) []

/-- `%i.next = add %i, 1`. -/
def addFull : Value := .inst 21 (.binop .add) [phiStub, const1]

/-- `%i = phi [0, entry], [%i.next, loop]`. -/
def phiFull : Value := .inst 20 (.phi [0, 1]) [const0, addFull]

/-- Back-reference to the add. -/
def addStub2 : Value := .inst 21 (.binop .add) []

/-- `%cmp = icmp slt %i.next, 10`. -/
def icmpFull : Value := .inst 22 (.icmp .slt) [addStub2, const10]

/-- `br %cmp, loop, exit`. -/
def condbrL : Value := .inst 23 (.condbr 1 2) [icmpFull]

/-- `br loop` from the entry block. -/
def brEntry : Value := .inst 25 (.br 1) []

/-- The exit return. -/
def retL : Value := .inst 24 .ret []

/-- A counted loop `for (i = 0; ...; i++) while i.next < 10`, with the
induction phi in the header block 1. -/
def Floop : Func :=
  ⟨[], [⟨0, [brEntry]⟩, ⟨1, [phiFull, addFull, icmpFull, condbrL]⟩, ⟨2, [retL]⟩]⟩

/-- Loop info for `Floop`: header 1, members {1}, loop predecessor 0,
exiting block 1. -/
def LIloop : LoopInfo := [⟨1, [1], some 0, some 1⟩]

/-- The graph state entering Pass 3 for `Floop`. -/
def FloopPrePass3 : CustomDataflowGraph :=
  Run08.pass2 Floop (Run08.selectsPass Floop (Run08.constsPass Floop
    (Run08.argsPass Floop (Run08.pass1 Floop CustomDataflowGraph.empty))))

/-- The Pass-3 state at `Floop`'s (sole) phi. -/
def FloopSt0 : Run08.Pass3State := ⟨FloopPrePass3, [], none⟩

/-- The comparison's node as built for `Floop` (checked by evaluation). -/
def ndIcmpFloop : DataflowNode := ⟨2, .BasicBinaryOp, some 22, "icmp", "<"⟩

/-- A store-then-load two-block function for the memory transform. -/
def FMem : Mem.MFunc :=
  ⟨false,
   [⟨0, [1], [Mem.MInst.store 10 1 2 "i32"]⟩,
    ⟨1, [], [Mem.MInst.load 11 1 "i32"]⟩],
   12⟩

/-- Is an instruction a token phi? -/
def Mem.MInst.isTokenPhi : Mem.MInst → Bool
  | .tokenPhi _ _ => true
  | _ => false

/-- `%c = icmp slt %a, 0` for the v0.7 branch-pass example. -/
def icmpB : Value := .inst 40 (.icmp .slt) [.arg 50 "a", .constInt 41 0]

/-- `br %c, 1, 2`. -/
def condbrB : Value := .inst 42 (.condbr 1 2) [icmpB]

/-- A single conditional branch over an argument comparison. -/
def FbrA : Func :=
  ⟨[.arg 50 "a"],
   [⟨0, [icmpB, condbrB]⟩, ⟨1, [.inst 43 .ret []]⟩, ⟨2, [.inst 44 .ret []]⟩]⟩

/-- A graph holding a single `Merge` node with no edges. -/
def gMergeOnly : CustomDataflowGraph :=
  ⟨[⟨0, .Merge, none, "M", ""⟩], [], [], 1⟩

/-- A graph with an input feeding a store: the store has an incoming edge
but no outgoing edge. -/
def gStoreSink : CustomDataflowGraph :=
  ⟨[⟨0, .FunctionInput, none, "a", ""⟩, ⟨1, .Store, none, "st", ""⟩], [(0, 1)], [], 2⟩

/-- `g'` keeps, relative to `g`, the operator kind and label of the node
with identity `n`, the value map, and the presence of a node with that
identity.  Used to track a phi's node through the rest of Pass 3. -/
@[reducible] def TracksAt (n : Nat) (g g' : CustomDataflowGraph) : Prop :=
  CustomDataflowGraph.nodeTyD g' n = CustomDataflowGraph.nodeTyD g n ∧
  CustomDataflowGraph.nodeLabelD g' n = CustomDataflowGraph.nodeLabelD g n ∧
  g'.valueToNodeMap = g.valueToNodeMap ∧
  (∃ nd ∈ g'.nodes, nd.nid = n)

namespace V7

/-- Node identity `m` is never the image of a real (non-sentinel) value in
the map — in particular it can never be re-typed by a later
`createSteers`, whose `setNodeTy` target always comes from `getOrAdd` on a
real value. -/
@[reducible] def ProtectedId (g : CustomDataflowGraph) (m : Nat) : Prop :=
  ∀ p ∈ g.valueToNodeMap, p.1 ≠ entryStreamKey → p.2 ≠ m

/-- `g'` extends `g` in the sense of the v0.7 branch pass: the id supply
grows, edges and value bindings persist, the kind of a bounded protected
node persists, new bindings are fresh or the stream sentinel, and the
id-supply bounds are maintained. -/
@[reducible] def Extends (g g' : CustomDataflowGraph) : Prop :=
  g.nextId ≤ g'.nextId ∧
  (∀ e ∈ g.edges, e ∈ g'.edges) ∧
  (∀ w n, CustomDataflowGraph.findNodeForValue g w = some n →
    CustomDataflowGraph.findNodeForValue g' w = some n) ∧
  (∀ m, m < g.nextId → ProtectedId g m →
    CustomDataflowGraph.nodeTyD g' m = CustomDataflowGraph.nodeTyD g m) ∧
  (∀ p ∈ g'.valueToNodeMap,
    p ∈ g.valueToNodeMap ∨ g.nextId ≤ p.2 ∨ p.1 = entryStreamKey) ∧
  ((∀ nd ∈ g.nodes, nd.nid < g.nextId) → ∀ nd ∈ g'.nodes, nd.nid < g'.nextId) ∧
  ((∀ p ∈ g.valueToNodeMap, p.2 < g.nextId ∧ ∃ nd ∈ g.nodes, nd.nid = p.2) →
    ∀ p ∈ g'.valueToNodeMap, p.2 < g'.nextId ∧ ∃ nd ∈ g'.nodes, nd.nid = p.2)

/-- Bookkeeping invariant of the v0.7 branch pass fold: id-supply bounds,
live map bindings, bounded and protected steers, a well-formed stream
node once the sentinel is bound, and pairwise-disjoint steer pairs. -/
@[reducible] def PassInv (acc : CustomDataflowGraph × List (Nat × Nat × Nat)) : Prop :=
  (∀ nd ∈ acc.1.nodes, nd.nid < acc.1.nextId) ∧
  (∀ p ∈ acc.1.valueToNodeMap, p.2 < acc.1.nextId ∧
    ∃ nd ∈ acc.1.nodes, nd.nid = p.2) ∧
  (∀ q ∈ acc.2, q.2.1 < acc.1.nextId ∧ q.2.2 < acc.1.nextId ∧
    ProtectedId acc.1 q.2.1 ∧ ProtectedId acc.1 q.2.2) ∧
  (∀ strm, CustomDataflowGraph.findNodeForValue acc.1 entryStreamKey = some strm →
    strm < acc.1.nextId ∧
    CustomDataflowGraph.nodeTyD acc.1 strm = DataflowOperatorType.Stream ∧
    ProtectedId acc.1 strm) ∧
  (∀ q ∈ acc.2, ∀ q' ∈ acc.2, q.1 ≠ q'.1 →
    q.2.1 ≠ q'.2.1 ∧ q.2.1 ≠ q'.2.2 ∧ q.2.2 ≠ q'.2.1 ∧ q.2.2 ≠ q'.2.2)

/-- The claim's per-branch property, for the conditional branch with
identity `bvid` and condition `c`: the `BranchSteers` map associates one
`TrueSteer`/`FalseSteer` pair with the branch, and each steer has an
incoming edge from the condition's node and from the function-entry
`Stream` node. -/
def BranchDone (g : CustomDataflowGraph) (bs : List (Nat × Nat × Nat))
    (bvid : Nat) (c : Value) : Prop :=
  ∃ tS fS, bs.find? (fun q => q.1 == bvid) = some (bvid, tS, fS) ∧
    tS ≠ fS ∧
    CustomDataflowGraph.nodeTyD g tS = DataflowOperatorType.TrueSteer ∧
    CustomDataflowGraph.nodeTyD g fS = DataflowOperatorType.FalseSteer ∧
    (∃ cn, CustomDataflowGraph.findNodeForValue g c.vid = some cn ∧
      (cn, tS) ∈ g.edges ∧ (cn, fS) ∈ g.edges) ∧
    (∃ strm, CustomDataflowGraph.findNodeForValue g entryStreamKey = some strm ∧
      CustomDataflowGraph.nodeTyD g strm = DataflowOperatorType.Stream ∧
      (strm, tS) ∈ g.edges ∧ (strm, fS) ∈ g.edges)

end V7

/-!
## Theorems

Helper lemmas first, then one theorem (with witness or counterexample
where required) per claim.
-/

namespace CustomDataflowGraph

theorem addEdge_nodes (g : CustomDataflowGraph) (s d : Option Nat) :
    (addEdge g s d).nodes = g.nodes := by
  unfold addEdge
  cases s <;> cases d <;>
    first
      | rfl
      | (dsimp only; split <;> rfl)

theorem addEdge_map (g : CustomDataflowGraph) (s d : Option Nat) :
    (addEdge g s d).valueToNodeMap = g.valueToNodeMap := by
  unfold addEdge
  cases s <;> cases d <;>
    first
      | rfl
      | (dsimp only; split <;> rfl)

theorem addEdge_nextId (g : CustomDataflowGraph) (s d : Option Nat) :
    (addEdge g s d).nextId = g.nextId := by
  unfold addEdge
  cases s <;> cases d <;>
    first
      | rfl
      | (dsimp only; split <;> rfl)

theorem find_congr {g1 g2 : CustomDataflowGraph}
    (h : g1.valueToNodeMap = g2.valueToNodeMap) :
    findNodeForValue g1 = findNodeForValue g2 := by
  funext vid
  unfold findNodeForValue
  rw [h]

theorem nodeTyD_congr {g1 g2 : CustomDataflowGraph} (h : g1.nodes = g2.nodes) :
    nodeTyD g1 = nodeTyD g2 := by
  funext n
  unfold nodeTyD
  rw [h]

theorem mem_addEdge_edges (g : CustomDataflowGraph) (s d : Nat) (e : Nat × Nat) :
    e ∈ (addEdge g (some s) (some d)).edges ↔ e ∈ g.edges ∨ e = (s, d) := by
  unfold addEdge
  dsimp only
  split
  · constructor
    · exact Or.inl
    · rintro (he | rfl)
      · exact he
      · assumption
  · simp [List.mem_append]

theorem addEdgesList_nil (g : CustomDataflowGraph) (d : Nat) :
    addEdgesList g [] d = g := rfl

theorem addEdgesList_cons (g : CustomDataflowGraph) (s : Nat) (srcs : List Nat) (d : Nat) :
    addEdgesList g (s :: srcs) d = addEdgesList (addEdge g (some s) (some d)) srcs d := rfl

theorem addEdgesList_append (g : CustomDataflowGraph) (s1 s2 : List Nat) (d : Nat) :
    addEdgesList g (s1 ++ s2) d = addEdgesList (addEdgesList g s1 d) s2 d := by
  unfold addEdgesList
  exact List.foldl_append ..

theorem addEdgesList_nodes (g : CustomDataflowGraph) (srcs : List Nat) (d : Nat) :
    (addEdgesList g srcs d).nodes = g.nodes := by
  induction srcs generalizing g with
  | nil => rfl
  | cons s rest ih => rw [addEdgesList_cons, ih, addEdge_nodes]

theorem addEdgesList_map (g : CustomDataflowGraph) (srcs : List Nat) (d : Nat) :
    (addEdgesList g srcs d).valueToNodeMap = g.valueToNodeMap := by
  induction srcs generalizing g with
  | nil => rfl
  | cons s rest ih => rw [addEdgesList_cons, ih, addEdge_map]

theorem addEdgesList_nextId (g : CustomDataflowGraph) (srcs : List Nat) (d : Nat) :
    (addEdgesList g srcs d).nextId = g.nextId := by
  induction srcs generalizing g with
  | nil => rfl
  | cons s rest ih => rw [addEdgesList_cons, ih, addEdge_nextId]

theorem mem_addEdgesList_edges (g : CustomDataflowGraph) (srcs : List Nat) (d : Nat)
    (e : Nat × Nat) :
    e ∈ (addEdgesList g srcs d).edges ↔ e ∈ g.edges ∨ ∃ s ∈ srcs, e = (s, d) := by
  induction srcs generalizing g with
  | nil => simp [addEdgesList_nil]
  | cons s rest ih =>
      rw [addEdgesList_cons, ih, mem_addEdge_edges]
      constructor
      · rintro ((he | rfl) | ⟨s', hs', rfl⟩)
        · exact Or.inl he
        · exact Or.inr ⟨s, by simp⟩
        · exact Or.inr ⟨s', by simp [hs']⟩
      · rintro (he | ⟨s', hs', rfl⟩)
        · exact Or.inl (Or.inl he)
        · rcases List.mem_cons.mp hs' with rfl | hs'
          · exact Or.inl (Or.inr rfl)
          · exact Or.inr ⟨s', hs', rfl⟩

mutual

theorem wireV_frame (g : CustomDataflowGraph) (v : Value) (d : Nat) :
    (wireV g v d).nodes = g.nodes ∧ (wireV g v d).valueToNodeMap = g.valueToNodeMap ∧
      (wireV g v d).nextId = g.nextId := by
  cases v with
  | inst vid k ops =>
      cases k
      case gep =>
        cases ops with
        | nil => simp [wireV]
        | cons base idxs =>
            have h1 := wireV_frame g base d
            have h2 := wireVList_frame (wireV g base d) idxs d
            simp only [wireV]
            exact ⟨h2.1.trans h1.1, (h2.2.1).trans h1.2.1, (h2.2.2).trans h1.2.2⟩
      case cast ck =>
        cases ops with
        | nil => simp [wireV]
        | cons op0 rest => simpa [wireV] using wireV_frame g op0 d
      all_goals
        simp only [wireV]
        cases hf : findNodeForValue g vid with
        | some srcN =>
            by_cases hty : (nodeTyD g srcN != DataflowOperatorType.Unknown) = true
            · simp [hty, addEdge_nodes, addEdge_map, addEdge_nextId]
            · simpa [hty] using wireVList_frame g ops d
        | none => exact wireVList_frame g ops d
  | arg vid name =>
      simp only [wireV]
      cases hf : findNodeForValue g vid with
      | some srcN =>
          by_cases hty : (nodeTyD g srcN != DataflowOperatorType.Unknown) = true
          · simp [hty, addEdge_nodes, addEdge_map, addEdge_nextId]
          · simp [hty]
      | none => simp
  | constInt vid lit =>
      simp only [wireV]
      cases hf : findNodeForValue g vid with
      | some srcN =>
          by_cases hty : (nodeTyD g srcN != DataflowOperatorType.Unknown) = true
          · simp [hty, addEdge_nodes, addEdge_map, addEdge_nextId]
          · simp [hty]
      | none => simp
  | funcSym vid name =>
      simp only [wireV]
      cases hf : findNodeForValue g vid with
      | some srcN =>
          by_cases hty : (nodeTyD g srcN != DataflowOperatorType.Unknown) = true
          · simp [hty, addEdge_nodes, addEdge_map, addEdge_nextId]
          · simp [hty]
      | none => simp

theorem wireVList_frame (g : CustomDataflowGraph) (vs : List Value) (d : Nat) :
    (wireVList g vs d).nodes = g.nodes ∧
      (wireVList g vs d).valueToNodeMap = g.valueToNodeMap ∧
      (wireVList g vs d).nextId = g.nextId := by
  cases vs with
  | nil => simp [wireVList]
  | cons v rest =>
      have h1 := wireV_frame g v d
      have h2 := wireVList_frame (wireV g v d) rest d
      simp only [wireVList]
      exact ⟨h2.1.trans h1.1, (h2.2.1).trans h1.2.1, (h2.2.2).trans h1.2.2⟩

end

mutual

theorem wireV_spec (g : CustomDataflowGraph) (v : Value) (d : Nat) :
    wireV g v d = addEdgesList g (specWireSources (findNodeForValue g) (nodeTyD g) v) d := by
  cases v with
  | inst vid k ops =>
      cases k
      case gep =>
        cases ops with
        | nil => simp [wireV, specWireSources, addEdgesList_nil]
        | cons base idxs =>
            have h1 := wireV_spec g base d
            have hmap := (addEdgesList_map g
              (specWireSources (findNodeForValue g) (nodeTyD g) base) d)
            have hnodes := (addEdgesList_nodes g
              (specWireSources (findNodeForValue g) (nodeTyD g) base) d)
            have h2 := wireVList_spec
              (addEdgesList g (specWireSources (findNodeForValue g) (nodeTyD g) base) d)
              idxs d
            simp only [wireV, specWireSources, addEdgesList_append]
            rw [h1, h2, find_congr hmap, nodeTyD_congr hnodes]
      case cast ck =>
        cases ops with
        | nil => simp [wireV, specWireSources, addEdgesList_nil]
        | cons op0 rest => simpa [wireV, specWireSources] using wireV_spec g op0 d
      all_goals
        simp only [wireV, specWireSources]
        cases hf : findNodeForValue g vid with
        | some srcN =>
            by_cases hty : (nodeTyD g srcN != DataflowOperatorType.Unknown) = true
            · simp [hty, addEdgesList_cons, addEdgesList_nil]
            · simpa [hty] using wireVList_spec g ops d
        | none => exact wireVList_spec g ops d
  | arg vid name =>
      simp only [wireV, specWireSources]
      cases hf : findNodeForValue g vid with
      | some srcN =>
          by_cases hty : (nodeTyD g srcN != DataflowOperatorType.Unknown) = true
          · simp [hty, addEdgesList_cons, addEdgesList_nil]
          · simp [hty, addEdgesList_nil]
      | none => simp [addEdgesList_nil]
  | constInt vid lit =>
      simp only [wireV, specWireSources]
      cases hf : findNodeForValue g vid with
      | some srcN =>
          by_cases hty : (nodeTyD g srcN != DataflowOperatorType.Unknown) = true
          · simp [hty, addEdgesList_cons, addEdgesList_nil]
          · simp [hty, addEdgesList_nil]
      | none => simp [addEdgesList_nil]
  | funcSym vid name =>
      simp only [wireV, specWireSources]
      cases hf : findNodeForValue g vid with
      | some srcN =>
          by_cases hty : (nodeTyD g srcN != DataflowOperatorType.Unknown) = true
          · simp [hty, addEdgesList_cons, addEdgesList_nil]
          · simp [hty, addEdgesList_nil]
      | none => simp [addEdgesList_nil]

theorem wireVList_spec (g : CustomDataflowGraph) (vs : List Value) (d : Nat) :
    wireVList g vs d =
      addEdgesList g (specWireSourcesList (findNodeForValue g) (nodeTyD g) vs) d := by
  cases vs with
  | nil => simp [wireVList, specWireSourcesList, addEdgesList_nil]
  | cons v rest =>
      have h1 := wireV_spec g v d
      have hmap := (addEdgesList_map g
        (specWireSources (findNodeForValue g) (nodeTyD g) v) d)
      have hnodes := (addEdgesList_nodes g
        (specWireSources (findNodeForValue g) (nodeTyD g) v) d)
      have h2 := wireVList_spec
        (addEdgesList g (specWireSources (findNodeForValue g) (nodeTyD g) v) d) rest d
      simp only [wireVList, specWireSourcesList, addEdgesList_append]
      rw [h1, h2, find_congr hmap, nodeTyD_congr hnodes]

end

/-- Existing edges persist through the resolver. -/
theorem wireV_edges_mono (g : CustomDataflowGraph) (v : Value) (d : Nat)
    (e : Nat × Nat) (he : e ∈ g.edges) : e ∈ (wireV g v d).edges := by
  rw [wireV_spec]
  exact (mem_addEdgesList_edges ..).mpr (Or.inl he)

/-- Membership in the resolver's output edges. -/
theorem mem_wireV_edges (g : CustomDataflowGraph) (v : Value) (d : Nat) (e : Nat × Nat) :
    e ∈ (wireV g v d).edges ↔
      e ∈ g.edges ∨
        ∃ s ∈ specWireSources (findNodeForValue g) (nodeTyD g) v, e = (s, d) := by
  rw [wireV_spec]
  exact mem_addEdgesList_edges ..

/-- Membership after a map insert-or-assign. -/
theorem mem_mapInsert (m : List (Nat × Nat)) (k val : Nat) (p : Nat × Nat)
    (hp : p ∈ mapInsert m k val) : p ∈ m ∨ p.1 = k := by
  induction m with
  | nil =>
      simp only [mapInsert, List.mem_singleton] at hp
      exact Or.inr (by rw [hp])
  | cons q rest ih =>
      simp only [mapInsert] at hp
      split at hp
      · rcases List.mem_cons.mp hp with rfl | hp'
        · exact Or.inr rfl
        · exact Or.inl (List.mem_cons_of_mem _ hp')
      · rcases List.mem_cons.mp hp with rfl | hp'
        · exact Or.inl (List.mem_cons_self ..)
        · rcases ih hp' with hm | hk
          · exact Or.inl (List.mem_cons_of_mem _ hm)
          · exact Or.inr hk

end CustomDataflowGraph

open CustomDataflowGraph

/-- C1: for non-null `V` and `D`, `wireValueToNode` adds exactly the edges
from the claim's recursively resolved sources to `D`: the base pointer and
index operands for address arithmetic, the sole operand for casts, the
mapped non-`Unknown` node (one edge, recursion stops), else the operands
of instructions; for non-instructions no edge is created. -/
theorem c1_wireValueToNode_resolution (g : CustomDataflowGraph) (v : Value) (d : Nat) :
    wireValueToNode g (some v) (some d) =
      addEdgesList g (specWireSources (findNodeForValue g) (nodeTyD g) v) d ∧
    ∀ e : Nat × Nat,
      e ∈ (wireValueToNode g (some v) (some d)).edges ↔
        e ∈ g.edges ∨
          ∃ s ∈ specWireSources (findNodeForValue g) (nodeTyD g) v, e = (s, d) := by
  exact ⟨wireV_spec g v d, fun e => mem_wireV_edges g v d e⟩

/-- C10: every call to `wireValueToNode` leaves the node set, the
value-to-node map and the identity supply unchanged — it can only add
edges. -/
theorem c10_wireValueToNode_frame (g : CustomDataflowGraph) (V : Option Value)
    (d : Option Nat) :
    (wireValueToNode g V d).nodes = g.nodes ∧
    (wireValueToNode g V d).valueToNodeMap = g.valueToNodeMap ∧
    (wireValueToNode g V d).nextId = g.nextId := by
  cases V with
  | none => exact ⟨rfl, rfl, rfl⟩
  | some v =>
      cases d with
      | none => exact ⟨rfl, rfl, rfl⟩
      | some dd => exact wireV_frame g v dd

/-- C8: `getOrAdd` returns a null result for function symbols, branches,
selects, address arithmetic and casts, leaving the graph unchanged; and it
never adds a node or map binding for such a value (new nodes and bindings
always carry the identity of a non-refused value). -/
theorem c8_getOrAdd_never_materializes (g : CustomDataflowGraph) (v : Value) :
    (refusedByGetOrAdd v = true → getOrAdd g (some v) = (g, none)) ∧
    (∀ nd ∈ (getOrAdd g (some v)).1.nodes,
      nd ∈ g.nodes ∨ (nd.originalValue = some v.vid ∧ refusedByGetOrAdd v = false)) ∧
    (∀ p ∈ (getOrAdd g (some v)).1.valueToNodeMap,
      p ∈ g.valueToNodeMap ∨ (p.1 = v.vid ∧ refusedByGetOrAdd v = false)) := by
  by_cases h1 : v.isFunction = true
  · constructor
    · intro _
      simp [getOrAdd, h1]
    · constructor
      · intro nd hnd
        simp [getOrAdd, h1] at hnd
        exact Or.inl hnd
      · intro p hp
        simp [getOrAdd, h1] at hp
        exact Or.inl hp
  · by_cases h2 : (v.isBranch || v.isSelect) = true
    · constructor
      · intro _
        simp [getOrAdd, h1, h2]
      · constructor
        · intro nd hnd
          simp [getOrAdd, h1, h2] at hnd
          exact Or.inl hnd
        · intro p hp
          simp [getOrAdd, h1, h2] at hp
          exact Or.inl hp
    · by_cases h3 : (v.isGEP || v.isCast) = true
      · constructor
        · intro _
          simp [getOrAdd, h1, h2, h3]
        · constructor
          · intro nd hnd
            simp [getOrAdd, h1, h2, h3] at hnd
            exact Or.inl hnd
          · intro p hp
            simp [getOrAdd, h1, h2, h3] at hp
            exact Or.inl hp
      · have e1 : v.isFunction = false := by simpa using h1
        have e2 : (v.isBranch || v.isSelect) = false := by simpa using h2
        have e3 : (v.isGEP || v.isCast) = false := by simpa using h3
        have e2' := Bool.or_eq_false_iff.mp e2
        have e3' := Bool.or_eq_false_iff.mp e3
        have hrefuse : refusedByGetOrAdd v = false := by
          simp [refusedByGetOrAdd, e1, e2'.1, e2'.2, e3'.1, e3'.2]
        constructor
        · intro habs
          rw [hrefuse] at habs
          cases habs
        · constructor
          · intro nd hnd
            rcases hfind : findNodeForValue g v.vid with _ | n
            · simp only [getOrAdd, e1, e2, e3, hfind, Bool.false_eq_true, if_false,
                addNode] at hnd
              rcases List.mem_append.mp hnd with hm | hm
              · exact Or.inl hm
              · rcases List.mem_singleton.mp hm with rfl
                exact Or.inr ⟨rfl, hrefuse⟩
            · simp only [getOrAdd, e1, e2, e3, hfind, Bool.false_eq_true, if_false] at hnd
              exact Or.inl hnd
          · intro p hp
            rcases hfind : findNodeForValue g v.vid with _ | n
            · simp only [getOrAdd, e1, e2, e3, hfind, Bool.false_eq_true, if_false,
                addNode] at hp
              rcases mem_mapInsert _ _ _ _ hp with hm | hk
              · exact Or.inl hm
              · exact Or.inr ⟨hk, hrefuse⟩
            · simp only [getOrAdd, e1, e2, e3, hfind, Bool.false_eq_true, if_false] at hp
              exact Or.inl hp

/-- Witness for C8 at a select instruction: the refusal and the unchanged
graph, via the theorem. -/
theorem c8_witness :
    getOrAdd gMergeOnly (some (Value.inst 7 .select [])) = (gMergeOnly, none) :=
  (c8_getOrAdd_never_materializes gMergeOnly (Value.inst 7 .select [])).1 (by decide)

/-- Counterexample to C9 as stated: a `Merge` node with no outgoing edges
is suppressed by both printers (the claimed exception does not exist in
`part_000` and is dead code in `DataflowGraph.cpp`), while the v0.7
printer does write a `Store` node that has an incoming edge but no
outgoing edge. -/
theorem c9_counterexample :
    (∃ nd ∈ gMergeOnly.nodes, nd.ty = DataflowOperatorType.Merge) ∧
    printedNodesP000 gMergeOnly = [] ∧
    printedNodesV7 gMergeOnly = [] ∧
    (∃ nd ∈ printedNodesV7 gStoreSink,
      nd.ty = DataflowOperatorType.Store ∧ outputsOf gStoreSink nd.nid = []) := by
  refine ⟨⟨⟨0, .Merge, none, "M", ""⟩, by decide, rfl⟩, rfl, rfl,
    ⟨⟨1, .Store, none, "st", ""⟩, by decide, rfl, rfl⟩⟩

/-- C9 amended: the `part_000` printer writes exactly the nodes with at
least one outgoing edge, with no exception for
`FunctionInput`/`FunctionOutput`/`Merge`; the v0.7 printer writes exactly
the nodes with at least one incident edge (so zero-outgoing nodes with
inputs are written regardless of kind, and kind-based preservation of
isolated nodes never applies). -/
theorem c9_amended (g : CustomDataflowGraph) (nd : DataflowNode) :
    (nd ∈ printedNodesP000 g ↔ nd ∈ g.nodes ∧ outputsOf g nd.nid ≠ []) ∧
    (nd ∈ printedNodesV7 g ↔
      nd ∈ g.nodes ∧ (inputsOf g nd.nid ≠ [] ∨ outputsOf g nd.nid ≠ [])) := by
  constructor
  · unfold printedNodesP000
    rw [List.mem_filter]
    simp [List.isEmpty_iff]
  · unfold printedNodesV7
    rw [List.mem_filter]
    constructor
    · rintro ⟨hmem, hcond⟩
      refine ⟨hmem, ?_⟩
      by_cases hi : inputsOf g nd.nid = []
      · by_cases ho : outputsOf g nd.nid = []
        · simp [hi, ho, List.isEmpty_iff] at hcond
        · exact Or.inr ho
      · exact Or.inl hi
    · rintro ⟨hmem, hcond⟩
      refine ⟨hmem, ?_⟩
      have hA : ((inputsOf g nd.nid).isEmpty && (outputsOf g nd.nid).isEmpty) = false := by
        rcases hcond with hi | ho
        · have hie : (inputsOf g nd.nid).isEmpty = false := by
            cases hI : inputsOf g nd.nid with
            | nil => exact absurd hI hi
            | cons a l => rfl
          simp [hie]
        · have hoe : (outputsOf g nd.nid).isEmpty = false := by
            cases hO : outputsOf g nd.nid with
            | nil => exact absurd hO ho
            | cons a l => rfl
          simp [hoe]
      simp [hA]

namespace Mem

theorem processInsts_length (start : TokVal) (insts : List MInst) :
    (processInsts start insts).1.length = insts.length := by
  induction insts generalizing start with
  | nil => rfl
  | cons i rest ih =>
      cases i <;> simp [processInsts, ih]

theorem processInsts_get (start : TokVal) (insts : List MInst) (k : Nat) :
    (processInsts start insts).1.get? k =
      (insts.get? k).map (fun i => specTransformInst (specTokenBefore start insts k) i) := by
  induction insts generalizing start k with
  | nil => cases k <;> rfl
  | cons i rest ih =>
      cases k with
      | zero =>
          cases i <;> rfl
      | succ k =>
          cases i <;>
            simpa [processInsts, specTokenBefore, List.take_succ_cons] using ih _ k

theorem processInsts_outToken (start : TokVal) (insts : List MInst) :
    (processInsts start insts).2 = specTokenBefore start insts insts.length := by
  induction insts generalizing start with
  | nil => rfl
  | cons i rest ih =>
      cases i <;>
        simpa [processInsts, specTokenBefore, List.take_succ_cons] using ih _

theorem phaseB_blocks (F1 : MFunc) (tps : List (Nat × Nat)) :
    (phaseB F1 tps).1.blocks =
      F1.blocks.map (fun b =>
        { b with
          insts := (processInsts
            (if b.bid == F1.entryBid then TokVal.cTrue
             else
               match tps.find? (fun p => p.1 == b.bid) with
               | some p => TokVal.ref p.2
               | none => TokVal.cTrue) b.insts).1 }) := by
  unfold phaseB
  dsimp only
  suffices h : ∀ (bs : List MBlock) (a1 : List MBlock) (a2 : List (Nat × TokVal)),
      (bs.foldl
        (fun (acc : List MBlock × List (Nat × TokVal)) b =>
          (acc.1 ++ [{ b with
              insts := (processInsts
                (if b.bid == F1.entryBid then TokVal.cTrue
                 else
                   match tps.find? (fun p => p.1 == b.bid) with
                   | some p => TokVal.ref p.2
                   | none => TokVal.cTrue) b.insts).1 }],
           acc.2 ++ [(b.bid,
             (processInsts
                (if b.bid == F1.entryBid then TokVal.cTrue
                 else
                   match tps.find? (fun p => p.1 == b.bid) with
                   | some p => TokVal.ref p.2
                   | none => TokVal.cTrue) b.insts).2)]))
        (a1, a2)).1 =
      a1 ++ bs.map (fun b =>
        { b with
          insts := (processInsts
            (if b.bid == F1.entryBid then TokVal.cTrue
             else
               match tps.find? (fun p => p.1 == b.bid) with
               | some p => TokVal.ref p.2
               | none => TokVal.cTrue) b.insts).1 }) by
    simpa using h F1.blocks [] []
  intro bs
  induction bs with
  | nil => simp
  | cons b rest ih =>
      intro a1 a2
      rw [List.foldl_cons]
      dsimp only
      rw [ih]
      simp

end Mem

/-- C3: the per-block token threading of the memory-order transform —
`current` starts as constant-true in the entry block or as the block's
token phi otherwise; each load becomes `lso.load.T(addr, current)` (its
identity — hence all uses of the old result — taken over by the call) and
leaves `current` unchanged; each store becomes `lso.store.T(addr, val)`
whose returned token becomes the new `current`; atomics are not converted
but clamped to seq_cst at system scope and leave `current` unchanged.
Stated as: every block is rewritten positionally by the claim's
per-instruction transform at the claim's running token, and the block's
out-token is the token after the whole list. -/
theorem c3_token_threading :
    (∀ (start : Mem.TokVal) (insts : List Mem.MInst),
      (Mem.processInsts start insts).1.length = insts.length ∧
      (∀ k : Nat,
        (Mem.processInsts start insts).1.get? k =
          (insts.get? k).map
            (fun i => specTransformInst (Mem.specTokenBefore start insts k) i)) ∧
      (Mem.processInsts start insts).2 =
        Mem.specTokenBefore start insts insts.length) ∧
    (∀ (F1 : Mem.MFunc) (tps : List (Nat × Nat)),
      (Mem.phaseB F1 tps).1.blocks =
        F1.blocks.map (fun b =>
          { b with
            insts := (Mem.processInsts
              (if b.bid == F1.entryBid then Mem.TokVal.cTrue
               else
                 match tps.find? (fun p => p.1 == b.bid) with
                 | some p => Mem.TokVal.ref p.2
                 | none => Mem.TokVal.cTrue) b.insts).1 })) := by
  constructor
  · intro start insts
    exact ⟨Mem.processInsts_length start insts, fun k => Mem.processInsts_get start insts k,
      Mem.processInsts_outToken start insts⟩
  · intro F1 tps
    exact Mem.phaseB_blocks F1 tps

/-- C4 fails on the code: re-running the transform on the already
transformed `FMem` is not a no-op — the second run inserts a fresh
`lso.token.phi` into the non-entry block (phi creation is unconditional,
while `MemInsts` collects only raw loads/stores/atomics), so block 1 ends
up with two token phis and the IR differs. -/
theorem c4_second_run_not_noop :
    Mem.run (Mem.run FMem) ≠ Mem.run FMem ∧
    (∃ b ∈ (Mem.run (Mem.run FMem)).blocks,
      (b.insts.filter Mem.MInst.isTokenPhi).length = 2) := by
  constructor
  · decide
  · refine ⟨⟨1, [],
      [Mem.MInst.tokenPhi 13 [(Mem.TokVal.cTrue, 0)],
       Mem.MInst.tokenPhi 12 [(Mem.TokVal.ref 10, 0)],
       Mem.MInst.lsoLoadCall 11 "i32" 1 (Mem.TokVal.ref 12)]⟩, by decide, by decide⟩

/-- Counterexample to C6 as stated: in the counted loop `Floop` the
Carry's constant incoming value is the literal `0` while the decider
comparison's constant argument is the literal `10`; the literals differ,
yet the builder records the comparison's second operand as
`const_duplicate` (no equality check) and the final `remove_node` deletes
constant `10`'s node, which was present before removal. -/
theorem c6_counterexample :
    ((Run08.runPass3State Floop LIloop).constDup.map Value.vid = some const10.vid ∧
     (Run08.runPass3State Floop LIloop).constDup.map Value.litOf = some (some 10)) ∧
    phiFull.phiIncoming.map (fun p => p.1.vid) = [const0.vid, addFull.vid] ∧
    Value.litOf const0 ≠ Value.litOf const10 ∧
    (∃ nd ∈ (Run08.runBeforeRemoval Floop LIloop).nodes,
      nd.originalValue = some const10.vid) ∧
    (∀ nd ∈ (Run08.run Floop LIloop).nodes, nd.originalValue ≠ some const10.vid) := by
  refine ⟨⟨by decide, by decide⟩, by decide, by decide,
    ⟨⟨5, .Constant, some 32, "", ""⟩, by decide, by decide⟩, by decide⟩

/-- C6 amended: during Carry construction the scan over the incoming
values records the decider comparison's second operand whenever *any*
incoming value is a constant — there is no comparison of literals — and in
that case also adds the edge from the phi node to the decider's node; when
no incoming value is constant nothing is recorded.  (The run then removes
the recorded operand's node after all passes, as exhibited by the
counterexample.) -/
theorem c6_amended (g : CustomDataflowGraph) (incomings : List Value) (lc : Value)
    (cd : Option Value) (phiNode : Nat) :
    (Run08.constDupScan g incomings lc cd phiNode).2 =
      (if incomings.any Value.isConstant then
        match lc with
        | .inst _ (.icmp _) (_ :: rhs :: _) => some rhs
        | _ => cd
       else cd) ∧
    (Run08.constDupScan g incomings lc cd phiNode).1 =
      (if incomings.any Value.isConstant then
        addEdge g (some phiNode) (findNodeForValue g lc.vid)
       else g) := by
  induction incomings with
  | nil => exact ⟨rfl, rfl⟩
  | cons iv rest ih =>
      by_cases hc : iv.isConstant = true
      · simp [Run08.constDupScan, hc]
      · have hc' : iv.isConstant = false := by simpa using hc
        simpa [Run08.constDupScan, hc', List.any_cons] using ih

/-- Counterexample to C7 as stated: built for `Fcall` (a call to the
plain function `@foo`), the final graph still holds a node of kind
`Unknown` — the call's node is never refined. -/
theorem c7_counterexample :
    ∃ nd ∈ (Run08.run Fcall []).nodes, nd.ty = DataflowOperatorType.Unknown :=
  ⟨⟨0, .Unknown, some 10, "call", ""⟩, by decide, rfl⟩

namespace CustomDataflowGraph

theorem invQ_of_same_shape {g g' : CustomDataflowGraph} (Q : Nat → Prop)
    (hn : g'.nodes = g.nodes) (hm : g'.valueToNodeMap = g.valueToNodeMap)
    (h : InvQ Q g) : InvQ Q g' := by
  obtain ⟨hc, hq⟩ := h
  constructor
  · intro nd hnd w hw
    rw [find_congr hm]
    exact hc nd (hn ▸ hnd) w hw
  · intro w hw
    refine ⟨?_, ?_⟩
    · rw [find_congr hm]
      exact (hq w hw).1
    · intro nd hnd ho
      exact (hq w hw).2 nd (hn ▸ hnd) ho

theorem inv_addEdge (Q : Nat → Prop) (g : CustomDataflowGraph) (s d : Option Nat)
    (h : InvQ Q g) : InvQ Q (addEdge g s d) :=
  invQ_of_same_shape Q (addEdge_nodes g s d) (addEdge_map g s d) h

theorem inv_wire (Q : Nat → Prop) (g : CustomDataflowGraph) (V : Option Value)
    (d : Option Nat) (h : InvQ Q g) : InvQ Q (wireValueToNode g V d) := by
  cases V with
  | none => exact h
  | some v =>
      cases d with
      | none => exact h
      | some dd => exact invQ_of_same_shape Q (wireV_frame g v dd).1 (wireV_frame g v dd).2.1 h

theorem mem_setNodeTy_nodes {g : CustomDataflowGraph} {n : Nat}
    {t : DataflowOperatorType} {nd' : DataflowNode}
    (h : nd' ∈ (setNodeTy g n t).nodes) :
    ∃ nd ∈ g.nodes, nd' = (if nd.nid == n then { nd with ty := t } else nd) := by
  rcases List.mem_map.mp h with ⟨nd, hnd, hmk⟩
  exact ⟨nd, hnd, hmk.symm⟩

theorem inv_setNodeTy (Q : Nat → Prop) (g : CustomDataflowGraph) (n : Nat)
    (t : DataflowOperatorType) (ht : t ≠ .Unknown) (h : InvQ Q g) :
    InvQ Q (setNodeTy g n t) := by
  obtain ⟨hc, hq⟩ := h
  have hm : (setNodeTy g n t).valueToNodeMap = g.valueToNodeMap := rfl
  constructor
  · intro nd' hnd' w hw
    rcases mem_setNodeTy_nodes hnd' with ⟨nd, hnd, rfl⟩
    rw [find_congr hm]
    revert hw
    split <;> intro hw <;> exact hc nd hnd w hw
  · intro w hw
    refine ⟨?_, ?_⟩
    · rw [find_congr hm]
      exact (hq w hw).1
    · intro nd' hnd' ho
      rcases mem_setNodeTy_nodes hnd' with ⟨nd, hnd, rfl⟩
      revert ho
      split
      · intro _
        exact ht
      · intro ho
        exact (hq w hw).2 nd hnd ho

theorem mem_setNodeLabel_nodes {g : CustomDataflowGraph} {n : Nat} {s : String}
    {nd' : DataflowNode} (h : nd' ∈ (setNodeLabel g n s).nodes) :
    ∃ nd ∈ g.nodes, nd' = (if nd.nid == n then { nd with label := s } else nd) := by
  rcases List.mem_map.mp h with ⟨nd, hnd, hmk⟩
  exact ⟨nd, hnd, hmk.symm⟩

theorem inv_setNodeLabel (Q : Nat → Prop) (g : CustomDataflowGraph) (n : Nat)
    (s : String) (h : InvQ Q g) : InvQ Q (setNodeLabel g n s) := by
  obtain ⟨hc, hq⟩ := h
  have hm : (setNodeLabel g n s).valueToNodeMap = g.valueToNodeMap := rfl
  constructor
  · intro nd' hnd' w hw
    rcases mem_setNodeLabel_nodes hnd' with ⟨nd, hnd, rfl⟩
    rw [find_congr hm]
    revert hw
    split <;> intro hw <;> exact hc nd hnd w hw
  · intro w hw
    refine ⟨?_, ?_⟩
    · rw [find_congr hm]
      exact (hq w hw).1
    · intro nd' hnd' ho
      rcases mem_setNodeLabel_nodes hnd' with ⟨nd, hnd, rfl⟩
      revert ho
      split
      · intro ho
        exact (hq w hw).2 nd hnd ho
      · intro ho
        exact (hq w hw).2 nd hnd ho

theorem mem_setNodeOpSym_nodes {g : CustomDataflowGraph} {n : Nat} {s : String}
    {nd' : DataflowNode} (h : nd' ∈ (setNodeOpSym g n s).nodes) :
    ∃ nd ∈ g.nodes, nd' = (if nd.nid == n then { nd with opSymbol := s } else nd) := by
  rcases List.mem_map.mp h with ⟨nd, hnd, hmk⟩
  exact ⟨nd, hnd, hmk.symm⟩

theorem inv_setNodeOpSym (Q : Nat → Prop) (g : CustomDataflowGraph) (n : Nat)
    (s : String) (h : InvQ Q g) : InvQ Q (setNodeOpSym g n s) := by
  obtain ⟨hc, hq⟩ := h
  have hm : (setNodeOpSym g n s).valueToNodeMap = g.valueToNodeMap := rfl
  constructor
  · intro nd' hnd' w hw
    rcases mem_setNodeOpSym_nodes hnd' with ⟨nd, hnd, rfl⟩
    rw [find_congr hm]
    revert hw
    split <;> intro hw <;> exact hc nd hnd w hw
  · intro w hw
    refine ⟨?_, ?_⟩
    · rw [find_congr hm]
      exact (hq w hw).1
    · intro nd' hnd' ho
      rcases mem_setNodeOpSym_nodes hnd' with ⟨nd, hnd, rfl⟩
      revert ho
      split
      · intro ho
        exact (hq w hw).2 nd hnd ho
      · intro ho
        exact (hq w hw).2 nd hnd ho

theorem findNodeForValue_eq_none_iff (g : CustomDataflowGraph) (w : Nat) :
    findNodeForValue g w = none ↔
      g.valueToNodeMap.find? (fun p => p.1 == w) = none := by
  unfold findNodeForValue
  cases g.valueToNodeMap.find? (fun p => p.1 == w) <;> simp

theorem mapInsert_of_not_found (m : List (Nat × Nat)) (k val : Nat)
    (h : m.find? (fun p => p.1 == k) = none) :
    mapInsert m k val = m ++ [(k, val)] := by
  induction m with
  | nil => rfl
  | cons q rest ih =>
      rw [List.find?_cons] at h
      rcases hq : (q.1 == k) with _ | _
      · rw [hq] at h
        simp only [mapInsert, hq, cond_false]
        rw [ih h]
        rfl
      · rw [hq] at h
        cases h

/-- The two possible outcomes of `getOrAdd` on the graph: unchanged, or a
fresh node (some kind `t`) appended together with its binding. -/
theorem getOrAdd_graph_cases (g : CustomDataflowGraph) (v : Value) :
    (getOrAdd g (some v)).1 = g ∨
    (findNodeForValue g v.vid = none ∧
     ∃ t, (getOrAdd g (some v)).1 =
       { g with
         nodes := g.nodes ++ [⟨g.nextId, t, some v.vid, "", ""⟩],
         valueToNodeMap := mapInsert g.valueToNodeMap v.vid g.nextId,
         nextId := g.nextId + 1 }) := by
  by_cases h1 : v.isFunction = true
  · left
    simp [getOrAdd, h1]
  · by_cases h2 : (v.isBranch || v.isSelect) = true
    · left
      simp [getOrAdd, h1, h2]
    · by_cases h3 : (v.isGEP || v.isCast) = true
      · left
        simp [getOrAdd, h1, h2, h3]
      · rcases hfind : findNodeForValue g v.vid with _ | n
        · right
          refine ⟨rfl, ?_, ?_⟩
          · exact if v.isArgument then .FunctionInput
              else if v.isConstant then .Constant else .Unknown
          · simp [getOrAdd, h1, h2, h3, hfind, addNode]
        · left
          simp [getOrAdd, h1, h2, h3, hfind]

theorem find_after_create (g : CustomDataflowGraph) (v : Value) (t : DataflowOperatorType)
    (hfind : findNodeForValue g v.vid = none) (w : Nat) :
    findNodeForValue
      { g with
        nodes := g.nodes ++ [⟨g.nextId, t, some v.vid, "", ""⟩],
        valueToNodeMap := mapInsert g.valueToNodeMap v.vid g.nextId,
        nextId := g.nextId + 1 } w =
      (if w = v.vid then some g.nextId else findNodeForValue g w) := by
  have hins := mapInsert_of_not_found g.valueToNodeMap v.vid g.nextId
    ((findNodeForValue_eq_none_iff g v.vid).mp hfind)
  unfold findNodeForValue
  dsimp only
  rw [hins, List.find?_append]
  by_cases hw : w = v.vid
  · subst hw
    rw [(findNodeForValue_eq_none_iff g v.vid).mp hfind]
    simp
  · have : ((v.vid == w) : Bool) = false := by
      simp [Ne.symm hw]
    rcases hx : g.valueToNodeMap.find? (fun p => p.1 == w) with _ | p
    · simp [hw, List.find?, this]
    · simp [hw, hx]

theorem inv_getOrAdd (Q : Nat → Prop) (g : CustomDataflowGraph) (V : Option Value)
    (h : InvQ Q g) : InvQ Q (getOrAdd g V).1 := by
  obtain ⟨hc, hq⟩ := h
  cases V with
  | none => exact ⟨hc, hq⟩
  | some v =>
      rcases getOrAdd_graph_cases g v with heq | ⟨hfind, t, heq⟩
      · rw [heq]
        exact ⟨hc, hq⟩
      · rw [heq]
        constructor
        · intro nd hnd w hw
          rw [find_after_create g v t hfind w]
          rcases List.mem_append.mp hnd with hm' | hm'
          · have hold := hc nd hm' w hw
            have hne : w ≠ v.vid := by
              intro hwv
              rw [hwv, hfind] at hold
              cases hold
            simp [hne, hold]
          · rcases List.mem_singleton.mp hm' with rfl
            have : w = v.vid := by
              simpa using hw.symm
            simp [this]
        · intro w hwq
          have hs := hq w hwq
          have hne : w ≠ v.vid := by
            intro hwv
            exact hs.1 (hwv ▸ hfind)
          refine ⟨?_, ?_⟩
          · rw [find_after_create g v t hfind w]
            simp only [hne, if_false]
            exact hs.1
          · intro nd hnd ho
            rcases List.mem_append.mp hnd with hm' | hm'
            · exact hs.2 nd hm' ho
            · rcases List.mem_singleton.mp hm' with rfl
              exact absurd (show w = v.vid by simpa using ho.symm) hne

theorem secured_setNodeLabel (g : CustomDataflowGraph) (n : Nat) (s : String) (w : Nat)
    (h : SecuredVid g w) : SecuredVid (setNodeLabel g n s) w := by
  refine ⟨h.1, ?_⟩
  intro nd' hnd' ho
  rcases mem_setNodeLabel_nodes hnd' with ⟨nd, hnd, rfl⟩
  revert ho
  split <;> intro ho <;> exact h.2 nd hnd ho

theorem secured_setNodeOpSym (g : CustomDataflowGraph) (n : Nat) (s : String) (w : Nat)
    (h : SecuredVid g w) : SecuredVid (setNodeOpSym g n s) w := by
  refine ⟨h.1, ?_⟩
  intro nd' hnd' ho
  rcases mem_setNodeOpSym_nodes hnd' with ⟨nd, hnd, rfl⟩
  revert ho
  split <;> intro ho <;> exact h.2 nd hnd ho

theorem secured_after_setTy (g : CustomDataflowGraph) (n : Nat)
    (t : DataflowOperatorType) (w : Nat)
    (hfind : findNodeForValue g w = some n)
    (huniq : ∀ nd ∈ g.nodes, nd.originalValue = some w → nd.nid = n)
    (ht : t ≠ .Unknown) : SecuredVid (setNodeTy g n t) w := by
  constructor
  · have hmap : (setNodeTy g n t).valueToNodeMap = g.valueToNodeMap := rfl
    rw [find_congr hmap, hfind]
    intro hx
    cases hx
  · intro nd' hnd' ho
    rcases mem_setNodeTy_nodes hnd' with ⟨nd, hnd, rfl⟩
    revert ho
    split
    · intro _
      exact ht
    · next hbeq =>
        intro ho
        exact absurd (by simp [huniq nd hnd ho]) hbeq

theorem getOrAdd_found_or_created (g : CustomDataflowGraph) (v : Value)
    (h1 : v.isFunction = false) (h2 : (v.isBranch || v.isSelect) = false)
    (h3 : (v.isGEP || v.isCast) = false) :
    (∃ n, findNodeForValue g v.vid = some n ∧ getOrAdd g (some v) = (g, some n)) ∨
    (findNodeForValue g v.vid = none ∧
     ∃ t, getOrAdd g (some v) =
       ({ g with
          nodes := g.nodes ++ [⟨g.nextId, t, some v.vid, "", ""⟩],
          valueToNodeMap := mapInsert g.valueToNodeMap v.vid g.nextId,
          nextId := g.nextId + 1 }, some g.nextId)) := by
  rcases hfind : findNodeForValue g v.vid with _ | n
  · right
    refine ⟨rfl, ?_, ?_⟩
    · exact if v.isArgument then .FunctionInput
        else if v.isConstant then .Constant else .Unknown
    · simp [getOrAdd, h1, h2, h3, hfind, addNode]
  · left
    exact ⟨n, rfl, by simp [getOrAdd, h1, h2, h3, hfind]⟩

theorem classified_shape (i : Value)
    (h : (Run08.classifyOp i).1 ≠ DataflowOperatorType.Unknown) :
    i.isFunction = false ∧ (i.isBranch || i.isSelect) = false ∧
      (i.isGEP || i.isCast) = false := by
  cases i with
  | arg v n => exact absurd rfl h
  | constInt v l => exact absurd rfl h
  | funcSym v n => exact absurd rfl h
  | inst vid k ops =>
      cases k <;> first
        | exact ⟨rfl, rfl, rfl⟩
        | exact absurd rfl h

theorem inv_pass1Step (Q : Nat → Prop) (g : CustomDataflowGraph) (i : Value)
    (h : InvQ Q g) : InvQ Q (Run08.pass1Step g i) := by
  by_cases hs : Run08.pass1Skip i = true
  · simpa [Run08.pass1Step, hs] using h
  · have hs' : Run08.pass1Skip i = false := by simpa using hs
    have h1 := inv_getOrAdd Q g (some i) h
    rcases hr : (getOrAdd g (some i)).2 with _ | n
    · simpa [Run08.pass1Step, hs', hr] using h1
    · by_cases hc1 : ((Run08.classifyOp i).1 != DataflowOperatorType.Unknown) = true
      · have hne : (Run08.classifyOp i).1 ≠ DataflowOperatorType.Unknown := by
          simpa using hc1
        by_cases hc2 : ((Run08.classifyOp i).2.1 != "") = true
        · simpa [Run08.pass1Step, hs', hr, hc1, hc2] using
            inv_setNodeOpSym Q _ n _
              (inv_setNodeLabel Q _ n _ (inv_setNodeTy Q _ n _ hne h1))
        · simpa [Run08.pass1Step, hs', hr, hc1, hc2] using
            inv_setNodeOpSym Q _ n _ (inv_setNodeTy Q _ n _ hne h1)
      · by_cases hc2 : ((Run08.classifyOp i).2.1 != "") = true
        · simpa [Run08.pass1Step, hs', hr, hc1, hc2] using
            inv_setNodeOpSym Q _ n _ (inv_setNodeLabel Q _ n _ h1)
        · simpa [Run08.pass1Step, hs', hr, hc1, hc2] using
            inv_setNodeOpSym Q _ n _ h1

theorem pass1Step_est (g : CustomDataflowGraph) (i : Value) (hc : Coherent g)
    (hskip : Run08.pass1Skip i = false)
    (hcl : (Run08.classifyOp i).1 ≠ DataflowOperatorType.Unknown) :
    SecuredVid (Run08.pass1Step g i) i.vid := by
  obtain ⟨hf1, hf2, hf3⟩ := classified_shape i hcl
  have hc1 : ((Run08.classifyOp i).1 != DataflowOperatorType.Unknown) = true := by
    simpa using hcl
  rcases getOrAdd_found_or_created g i hf1 hf2 hf3 with ⟨n, hfind, heq⟩ | ⟨hfind, t, heq⟩
  · have hsec : SecuredVid (setNodeTy g n (Run08.classifyOp i).1) i.vid := by
      refine secured_after_setTy g n _ i.vid hfind ?_ hcl
      intro nd hnd ho
      have := hc nd hnd i.vid ho
      rw [hfind] at this
      exact (Option.some.injEq ..).mp this.symm
    by_cases hc2 : ((Run08.classifyOp i).2.1 != "") = true
    · simpa [Run08.pass1Step, hskip, heq, hc1, hc2] using
        secured_setNodeOpSym _ n _ _ (secured_setNodeLabel _ n _ _ hsec)
    · simpa [Run08.pass1Step, hskip, heq, hc1, hc2] using
        secured_setNodeOpSym _ n _ _ hsec
  · set g1 : CustomDataflowGraph :=
      { g with
        nodes := g.nodes ++ [⟨g.nextId, t, some i.vid, "", ""⟩],
        valueToNodeMap := mapInsert g.valueToNodeMap i.vid g.nextId,
        nextId := g.nextId + 1 } with hg1
    have hfind1 : findNodeForValue g1 i.vid = some g.nextId := by
      rw [hg1, find_after_create g i t hfind i.vid]
      simp
    have hsec : SecuredVid (setNodeTy g1 g.nextId (Run08.classifyOp i).1) i.vid := by
      refine secured_after_setTy g1 g.nextId _ i.vid hfind1 ?_ hcl
      intro nd hnd ho
      rw [hg1] at hnd
      rcases List.mem_append.mp hnd with hm' | hm'
      · have := hc nd hm' i.vid ho
        rw [hfind] at this
        cases this
      · rcases List.mem_singleton.mp hm' with rfl
        rfl
    by_cases hc2 : ((Run08.classifyOp i).2.1 != "") = true
    · simpa [Run08.pass1Step, hskip, heq, hc1, hc2, hg1] using
        secured_setNodeOpSym _ g.nextId _ _ (secured_setNodeLabel _ g.nextId _ _ hsec)
    · simpa [Run08.pass1Step, hskip, heq, hc1, hc2, hg1] using
        secured_setNodeOpSym _ g.nextId _ _ hsec

theorem inv_foldl {α : Type} (Q : Nat → Prop)
    (f : CustomDataflowGraph → α → CustomDataflowGraph)
    (hf : ∀ g a, InvQ Q g → InvQ Q (f g a)) :
    ∀ (l : List α) (g : CustomDataflowGraph), InvQ Q g → InvQ Q (l.foldl f g) := by
  intro l
  induction l with
  | nil => intro g h; exact h
  | cons a rest ih =>
      intro g h
      exact ih (f g a) (hf g a h)

theorem pass1_fold (insts : List Value) :
    ∀ (g : CustomDataflowGraph) (Q : Nat → Prop), Coherent g →
      (∀ w, Q w → SecuredVid g w) →
      Coherent (insts.foldl Run08.pass1Step g) ∧
      ∀ w, (Q w ∨ classifiedIn insts w = true) →
        SecuredVid (insts.foldl Run08.pass1Step g) w := by
  induction insts with
  | nil =>
      intro g Q hc hq
      refine ⟨hc, ?_⟩
      intro w hw
      rcases hw with hw | hw
      · exact hq w hw
      · cases hw
  | cons i rest ih =>
      intro g Q hc hq
      have hstep := inv_pass1Step Q g i ⟨hc, hq⟩
      have hstep2 :
          ∀ w, (Q w ∨ (i.vid == w && !Run08.pass1Skip i &&
              ((Run08.classifyOp i).1 != DataflowOperatorType.Unknown)) = true) →
            SecuredVid (Run08.pass1Step g i) w := by
        intro w hw
        rcases hw with hw | hw
        · exact hstep.2 w hw
        · simp only [Bool.and_eq_true, beq_iff_eq, Bool.not_eq_true', bne_iff_ne] at hw
          obtain ⟨⟨hvid, hskip⟩, hcl⟩ := hw
          rw [← hvid]
          exact pass1Step_est g i hc hskip hcl
      have := ih (Run08.pass1Step g i)
        (fun w => Q w ∨ (i.vid == w && !Run08.pass1Skip i &&
          ((Run08.classifyOp i).1 != DataflowOperatorType.Unknown)) = true)
        hstep.1 hstep2
      refine ⟨this.1, ?_⟩
      intro w hw
      apply this.2 w
      rcases hw with hw | hw
      · exact Or.inl (Or.inl hw)
      · rw [classifiedIn, List.any_cons] at hw
        rcases Bool.or_eq_true _ _ |>.mp hw with hw | hw
        · exact Or.inl (Or.inr hw)
        · exact Or.inr hw

theorem inv_addNode_none (Q : Nat → Prop) (g : CustomDataflowGraph)
    (ty : DataflowOperatorType) (lab : String) (h : InvQ Q g) :
    InvQ Q (addNode g ty none lab).1 := by
  obtain ⟨hc, hq⟩ := h
  have hm : (addNode g ty none lab).1.valueToNodeMap = g.valueToNodeMap := rfl
  have hnodes : (addNode g ty none lab).1.nodes = g.nodes ++ [⟨g.nextId, ty, none, lab, ""⟩] := rfl
  constructor
  · intro nd hnd w hw
    rw [find_congr hm]
    rw [hnodes] at hnd
    rcases List.mem_append.mp hnd with hm' | hm'
    · exact hc nd hm' w hw
    · rcases List.mem_singleton.mp hm' with rfl
      cases hw
  · intro w hw
    refine ⟨?_, ?_⟩
    · rw [find_congr hm]
      exact (hq w hw).1
    · intro nd hnd ho
      rw [hnodes] at hnd
      rcases List.mem_append.mp hnd with hm' | hm'
      · exact (hq w hw).2 nd hm' ho
      · rcases List.mem_singleton.mp hm' with rfl
        cases ho

theorem inv_foldl_proj {σ β : Type} (Q : Nat → Prop) (proj : σ → CustomDataflowGraph)
    (step : σ → β → σ) (hstep : ∀ s b, InvQ Q (proj s) → InvQ Q (proj (step s b))) :
    ∀ (l : List β) (s : σ), InvQ Q (proj s) → InvQ Q (proj (l.foldl step s)) := by
  intro l
  induction l with
  | nil => intro s h; exact h
  | cons b rest ih =>
      intro s h
      exact ih (step s b) (hstep s b h)

theorem inv_createSteers (Q : Nat → Prop) (g : CustomDataflowGraph) (cond : Value)
    (tv fv : Option Value) (h : InvQ Q g) : InvQ Q (Run08.createSteers g cond tv fv).1 := by
  have h1 := inv_getOrAdd Q g (some cond) h
  rcases hr : (getOrAdd g (some cond)).2 with _ | cn
  · cases tv <;> cases fv <;>
    · simp only [Run08.createSteers, hr]
      repeat
        first
        | exact h1
        | apply inv_wire
        | apply inv_addNode_none
  · have h2 := inv_setNodeTy Q (getOrAdd g (some cond)).1 cn .BasicBinaryOp (by decide) h1
    cases tv <;> cases fv <;>
    · simp only [Run08.createSteers, hr]
      repeat
        first
        | exact h2
        | apply inv_wire
        | apply inv_addNode_none

theorem inv_argStep (Q : Nat → Prop) (g : CustomDataflowGraph) (a : Value)
    (h : InvQ Q g) : InvQ Q (Run08.argStep g a) := by
  have h1 := inv_getOrAdd Q g (some a) h
  rcases hr : (getOrAdd g (some a)).2 with _ | n
  · simpa [Run08.argStep, hr] using h1
  · by_cases hl : (nodeLabelD (getOrAdd g (some a)).1 n == "") = true
    · simpa [Run08.argStep, hr, hl] using
        inv_setNodeLabel Q _ n _ (inv_setNodeTy Q _ n _ (by decide) h1)
    · simpa [Run08.argStep, hr, hl] using h1

theorem inv_argsPass (Q : Nat → Prop) (F : Func) (g : CustomDataflowGraph)
    (h : InvQ Q g) : InvQ Q (Run08.argsPass F g) :=
  inv_foldl Q Run08.argStep (fun g a => inv_argStep Q g a) F.fargs g h

theorem inv_constsPass (Q : Nat → Prop) (F : Func) (g : CustomDataflowGraph)
    (h : InvQ Q g) : InvQ Q (Run08.constsPass F g) := by
  unfold Run08.constsPass
  apply inv_foldl Q _ _ F.allInsts g h
  intro g' i hg'
  apply inv_foldl Q _ _ i.opsOf g' hg'
  intro g'' op hg''
  by_cases hco : op.isConstant = true
  · by_cases hao : op.isArgument = true
    · simpa [hco, hao] using inv_getOrAdd Q _ (some op) (inv_getOrAdd Q _ (some op) hg'')
    · simpa [hco, hao] using inv_getOrAdd Q _ (some op) hg''
  · by_cases hao : op.isArgument = true
    · simpa [hco, hao] using inv_getOrAdd Q _ (some op) hg''
    · simpa [hco, hao] using hg''

theorem inv_selectStep (Q : Nat → Prop) (F : Func) (g : CustomDataflowGraph) (i : Value)
    (h : InvQ Q g) : InvQ Q (Run08.selectStep F g i) := by
  unfold Run08.selectStep
  split
  · next vid c tv fv =>
      apply inv_foldl Q _ _ _ _ (inv_createSteers Q g c (some tv) (some fv) h)
      intro g' u hg'
      split
      · exact inv_addEdge _ _ _ _ (inv_addEdge _ _ _ _ hg')
      · exact hg'
  · exact h

theorem inv_selectsPass (Q : Nat → Prop) (F : Func) (g : CustomDataflowGraph)
    (h : InvQ Q g) : InvQ Q (Run08.selectsPass F g) :=
  inv_foldl Q (Run08.selectStep F) (fun g i => inv_selectStep Q F g i) F.allInsts g h

theorem inv_constDupScan (Q : Nat → Prop) (g : CustomDataflowGraph)
    (incomings : List Value) (lc : Value) (cd : Option Value) (phiNode : Nat)
    (h : InvQ Q g) : InvQ Q (Run08.constDupScan g incomings lc cd phiNode).1 := by
  induction incomings with
  | nil => exact h
  | cons iv rest ih =>
      by_cases hc : iv.isConstant = true
      · simpa [Run08.constDupScan, hc] using inv_addEdge Q g _ _ h
      · simpa [Run08.constDupScan, hc] using ih

theorem inv_pass2Step (Q : Nat → Prop) (F : Func) (g : CustomDataflowGraph) (i : Value)
    (h : InvQ Q g) : InvQ Q (Run08.pass2Step F g i) := by
  unfold Run08.pass2Step
  repeat'
    first
    | assumption
    | apply inv_wire
    | apply inv_addEdge
    | apply inv_addNode_none
    | apply inv_getOrAdd
    | apply inv_createSteers
    | apply inv_constDupScan
    | apply inv_foldl
    | intro _ _ _
    | dsimp only
    | split

theorem inv_pass2 (Q : Nat → Prop) (F : Func) (g : CustomDataflowGraph)
    (h : InvQ Q g) : InvQ Q (Run08.pass2 F g) :=
  inv_foldl Q (Run08.pass2Step F) (fun g i => inv_pass2Step Q F g i) F.allInsts g h

theorem inv_mergeIncomingStep (Q : Nat → Prop) (F : Func) (bid phiNode : Nat)
    (acc : CustomDataflowGraph × List (Nat × Nat × Nat)) (p : Value × Nat)
    (h : InvQ Q acc.1) : InvQ Q (Run08.mergeIncomingStep F bid phiNode acc p).1 := by
  unfold Run08.mergeIncomingStep
  repeat'
    first
    | assumption
    | apply inv_wire
    | apply inv_addEdge
    | apply inv_createSteers
    | apply inv_addNode_none
    | apply inv_getOrAdd
    | (apply inv_setNodeTy _ _ _ _ (by decide))
    | dsimp only
    | split

theorem inv_userWireStep (Q : Nat → Prop) (phiNode : Nat) (g : CustomDataflowGraph)
    (u : Value) (h : InvQ Q g) : InvQ Q (Run08.userWireStep phiNode g u) := by
  unfold Run08.userWireStep
  split
  · exact inv_addEdge _ _ _ _ h
  · exact h

theorem inv_processPhi (Q : Nat → Prop) (F : Func) (LI : LoopInfo)
    (st : Run08.Pass3State) (bid : Nat) (PN : Value) (h : InvQ Q st.g) :
    InvQ Q (Run08.processPhi F LI st bid PN).g := by
  unfold Run08.processPhi
  repeat'
    first
    | assumption
    | apply inv_wire
    | apply inv_addEdge
    | apply inv_addNode_none
    | apply inv_getOrAdd
    | apply inv_createSteers
    | apply inv_constDupScan
    | apply inv_setNodeOpSym
    | apply inv_setNodeLabel
    | (apply inv_setNodeTy _ _ _ _ (by decide))
    | (apply inv_mergeIncomingStep)
    | (apply inv_userWireStep)
    | apply inv_foldl
    | apply inv_foldl_proj Q Prod.fst
    | intro _ _ _
    | dsimp only
    | split

theorem inv_pass3 (Q : Nat → Prop) (F : Func) (LI : LoopInfo) (g : CustomDataflowGraph)
    (h : InvQ Q g) : InvQ Q (Run08.pass3 F LI g).g := by
  unfold Run08.pass3
  apply inv_foldl_proj Q Run08.Pass3State.g
  · intro st b hst
    apply inv_foldl_proj Q Run08.Pass3State.g
    · intro st' i hst'
      by_cases hp : i.isPhi = true
      · simpa [hp] using inv_processPhi Q F LI st' b.bid i hst'
      · simpa [hp] using hst'
    · exact hst
  · exact h

theorem inv_pass4 (Q : Nat → Prop) (F : Func) (g : CustomDataflowGraph)
    (h : InvQ Q g) : InvQ Q (Run08.pass4 F g) := by
  unfold Run08.pass4
  apply inv_foldl Q _ _ F.fargs g h
  intro g' a hg'
  split
  · exact hg'
  · apply inv_foldl Q _ _ _ _ hg'
    intro g'' u hg''
    exact inv_wire _ _ _ _ (inv_getOrAdd _ _ _ hg'')

theorem removeNode_nodes_subset (g : CustomDataflowGraph) (x : Option Nat)
    (nd : DataflowNode) (hnd : nd ∈ (removeNode g x).nodes) : nd ∈ g.nodes := by
  cases x with
  | none => exact hnd
  | some nid => exact (List.mem_filter.mp hnd).1

end CustomDataflowGraph

open CustomDataflowGraph in
/-- C7 amended: the final graph can retain `Unknown` nodes (see the
counterexample: calls to non-lso callees stay `Unknown`), but every node
whose originating instruction Pass 1 classifies — binary ops, integer and
float comparisons, phis, and `lso.load`/`lso.store` calls — carries a
concrete operator kind in the final graph: classification is never undone
by the later passes. -/
theorem c7_amended (F : Func) (LI : LoopInfo) :
    ∀ nd ∈ (Run08.run F LI).nodes, ∀ w, nd.originalValue = some w →
      classifiedVid F w = true → nd.ty ≠ DataflowOperatorType.Unknown := by
  have hcoh0 : Coherent CustomDataflowGraph.empty := by
    intro nd hnd
    cases hnd
  have hp1 := pass1_fold F.allInsts CustomDataflowGraph.empty (fun _ => False) hcoh0
    (fun w hw => absurd hw (by simp))
  have h1 : InvQ (fun w => classifiedVid F w = true) (Run08.pass1 F CustomDataflowGraph.empty) := by
    refine ⟨hp1.1, ?_⟩
    intro w hw
    exact hp1.2 w (Or.inr hw)
  have h2 := inv_argsPass _ F _ h1
  have h3 := inv_constsPass _ F _ h2
  have h4 := inv_selectsPass _ F _ h3
  have h5 := inv_pass2 _ F _ h4
  have h6 : InvQ (fun w => classifiedVid F w = true) (Run08.runPass3State F LI).g :=
    inv_pass3 _ F LI _ h5
  have h7 : InvQ (fun w => classifiedVid F w = true) (Run08.runBeforeRemoval F LI) :=
    inv_pass4 _ F _ h6
  intro nd hnd w horig hcl
  have hnd' : nd ∈ (Run08.runBeforeRemoval F LI).nodes := by
    unfold Run08.run at hnd
    rcases hcd : (Run08.runPass3State F LI).constDup with _ | v
    · rw [hcd] at hnd
      exact removeNode_nodes_subset _ _ nd hnd
    · rw [hcd] at hnd
      exact removeNode_nodes_subset _ _ nd hnd
  exact (h7.2 w hcl).2 nd hnd' horig

/-- Witness for C7's amended theorem: the comparison node of `Floop`'s
final graph is concrete. -/
theorem c7_witness : ndIcmpFloop.ty ≠ DataflowOperatorType.Unknown :=
  c7_amended Floop LIloop ndIcmpFloop (by decide) 22 rfl (by decide)

/-! ### Node-tracking lemmas for Pass 3 (claim C2). -/

namespace CustomDataflowGraph

theorem find_upd_map (l : List DataflowNode) (m : Nat) (f : DataflowNode → DataflowNode)
    (hnid : ∀ nd, (f nd).nid = nd.nid) :
    (l.map f).find? (fun nd => nd.nid == m) = (l.find? (fun nd => nd.nid == m)).map f := by
  induction l with
  | nil => rfl
  | cons nd l ih =>
      simp only [List.map_cons, List.find?_cons]
      rw [hnid nd]
      cases h : (nd.nid == m) with
      | true => rfl
      | false => exact ih

theorem exists_nid_upd_map (l : List DataflowNode) (m : Nat) (f : DataflowNode → DataflowNode)
    (hnid : ∀ nd, (f nd).nid = nd.nid) (h : ∃ nd ∈ l, nd.nid = m) :
    ∃ nd ∈ l.map f, nd.nid = m := by
  obtain ⟨nd, hm, he⟩ := h
  exact ⟨f nd, List.mem_map_of_mem f hm, by rw [hnid nd, he]⟩

theorem find_append_of_some {α : Type} (p : α → Bool) (l1 l2 : List α) (x : α)
    (h : l1.find? p = some x) : (l1 ++ l2).find? p = some x := by
  induction l1 with
  | nil => exact Option.noConfusion h
  | cons a l ih =>
      rw [List.cons_append]
      cases hp : p a with
      | true =>
          rw [List.find?_cons_of_pos _ hp] at h
          rw [List.find?_cons_of_pos _ hp]
          exact h
      | false =>
          rw [List.find?_cons_of_neg _ (by simp [hp])] at h
          rw [List.find?_cons_of_neg _ (by simp [hp])]
          exact ih h

theorem find_exists_some (l : List DataflowNode) (n : Nat)
    (h : ∃ nd ∈ l, nd.nid = n) :
    ∃ nd, l.find? (fun nd => nd.nid == n) = some nd ∧ nd.nid = n := by
  obtain ⟨nd0, hm, he⟩ := h
  have hs : (l.find? (fun nd => nd.nid == n)).isSome := by
    rw [List.find?_isSome]
    exact ⟨nd0, hm, by simp [he]⟩
  obtain ⟨nd, hnd⟩ := Option.isSome_iff_exists.mp hs
  exact ⟨nd, hnd, by simpa using List.find?_some hnd⟩

theorem updTy_nid (n : Nat) (t : DataflowOperatorType) (nd : DataflowNode) :
    ((fun nd => if nd.nid == n then { nd with ty := t } else nd) nd).nid = nd.nid := by
  dsimp only
  split <;> rfl

theorem updLabel_nid (n : Nat) (s : String) (nd : DataflowNode) :
    ((fun nd => if nd.nid == n then { nd with label := s } else nd) nd).nid = nd.nid := by
  dsimp only
  split <;> rfl

theorem updOpSym_nid (n : Nat) (s : String) (nd : DataflowNode) :
    ((fun nd => if nd.nid == n then { nd with opSymbol := s } else nd) nd).nid = nd.nid := by
  dsimp only
  split <;> rfl

theorem nodeTyD_setNodeLabel (g : CustomDataflowGraph) (n : Nat) (s : String) (m : Nat) :
    nodeTyD (setNodeLabel g n s) m = nodeTyD g m := by
  unfold nodeTyD setNodeLabel
  dsimp only
  rw [find_upd_map _ _ _ (updLabel_nid n s)]
  cases hfd : g.nodes.find? (fun nd => nd.nid == m) with
  | none => rfl
  | some nd =>
      simp only [Option.map_some', Option.getD_some]
      split <;> rfl

theorem nodeTyD_setNodeOpSym (g : CustomDataflowGraph) (n : Nat) (s : String) (m : Nat) :
    nodeTyD (setNodeOpSym g n s) m = nodeTyD g m := by
  unfold nodeTyD setNodeOpSym
  dsimp only
  rw [find_upd_map _ _ _ (updOpSym_nid n s)]
  cases hfd : g.nodes.find? (fun nd => nd.nid == m) with
  | none => rfl
  | some nd =>
      simp only [Option.map_some', Option.getD_some]
      split <;> rfl

theorem nodeLabelD_setNodeTy (g : CustomDataflowGraph) (n : Nat)
    (t : DataflowOperatorType) (m : Nat) :
    nodeLabelD (setNodeTy g n t) m = nodeLabelD g m := by
  unfold nodeLabelD setNodeTy
  dsimp only
  rw [find_upd_map _ _ _ (updTy_nid n t)]
  cases hfd : g.nodes.find? (fun nd => nd.nid == m) with
  | none => rfl
  | some nd =>
      simp only [Option.map_some', Option.getD_some]
      split <;> rfl

theorem nodeLabelD_setNodeOpSym (g : CustomDataflowGraph) (n : Nat) (s : String) (m : Nat) :
    nodeLabelD (setNodeOpSym g n s) m = nodeLabelD g m := by
  unfold nodeLabelD setNodeOpSym
  dsimp only
  rw [find_upd_map _ _ _ (updOpSym_nid n s)]
  cases hfd : g.nodes.find? (fun nd => nd.nid == m) with
  | none => rfl
  | some nd =>
      simp only [Option.map_some', Option.getD_some]
      split <;> rfl

theorem nodeTyD_setNodeTy_self (g : CustomDataflowGraph) (n : Nat)
    (t : DataflowOperatorType) (h : ∃ nd ∈ g.nodes, nd.nid = n) :
    nodeTyD (setNodeTy g n t) n = t := by
  obtain ⟨nd, hnd, he⟩ := find_exists_some g.nodes n h
  unfold nodeTyD setNodeTy
  dsimp only
  rw [find_upd_map _ _ _ (updTy_nid n t), hnd]
  simp [he]

theorem nodeTyD_setNodeTy_other (g : CustomDataflowGraph) (n : Nat)
    (t : DataflowOperatorType) (m : Nat) (h : m ≠ n) :
    nodeTyD (setNodeTy g n t) m = nodeTyD g m := by
  unfold nodeTyD setNodeTy
  dsimp only
  rw [find_upd_map _ _ _ (updTy_nid n t)]
  cases hfd : g.nodes.find? (fun nd => nd.nid == m) with
  | none => rfl
  | some nd =>
      have he : nd.nid = m := by simpa using List.find?_some hfd
      simp [he, h]

theorem nodeLabelD_setNodeLabel_self (g : CustomDataflowGraph) (n : Nat) (s : String)
    (h : ∃ nd ∈ g.nodes, nd.nid = n) :
    nodeLabelD (setNodeLabel g n s) n = s := by
  obtain ⟨nd, hnd, he⟩ := find_exists_some g.nodes n h
  unfold nodeLabelD setNodeLabel
  dsimp only
  rw [find_upd_map _ _ _ (updLabel_nid n s), hnd]
  simp [he]

theorem exists_nid_setNodeTy (g : CustomDataflowGraph) (k : Nat)
    (t : DataflowOperatorType) (n : Nat) (h : ∃ nd ∈ g.nodes, nd.nid = n) :
    ∃ nd ∈ (setNodeTy g k t).nodes, nd.nid = n :=
  exists_nid_upd_map g.nodes n _ (updTy_nid k t) h

theorem exists_nid_setNodeLabel (g : CustomDataflowGraph) (k : Nat) (s : String)
    (n : Nat) (h : ∃ nd ∈ g.nodes, nd.nid = n) :
    ∃ nd ∈ (setNodeLabel g k s).nodes, nd.nid = n :=
  exists_nid_upd_map g.nodes n _ (updLabel_nid k s) h

theorem exists_nid_setNodeOpSym (g : CustomDataflowGraph) (k : Nat) (s : String)
    (n : Nat) (h : ∃ nd ∈ g.nodes, nd.nid = n) :
    ∃ nd ∈ (setNodeOpSym g k s).nodes, nd.nid = n :=
  exists_nid_upd_map g.nodes n _ (updOpSym_nid k s) h

theorem addNode_nodes_eq (g : CustomDataflowGraph) (t : DataflowOperatorType)
    (orig : Option Nat) (lab : String) :
    (addNode g t orig lab).1.nodes = g.nodes ++ [⟨g.nextId, t, orig, lab, ""⟩] := by
  unfold addNode
  cases orig <;> rfl

theorem nodeTyD_addNode (g : CustomDataflowGraph) (t : DataflowOperatorType)
    (orig : Option Nat) (lab : String) (m : Nat) (h : ∃ nd ∈ g.nodes, nd.nid = m) :
    nodeTyD (addNode g t orig lab).1 m = nodeTyD g m := by
  obtain ⟨nd, hnd, _⟩ := find_exists_some g.nodes m h
  unfold nodeTyD
  rw [addNode_nodes_eq, find_append_of_some _ _ _ _ hnd, hnd]

theorem nodeLabelD_addNode (g : CustomDataflowGraph) (t : DataflowOperatorType)
    (orig : Option Nat) (lab : String) (m : Nat) (h : ∃ nd ∈ g.nodes, nd.nid = m) :
    nodeLabelD (addNode g t orig lab).1 m = nodeLabelD g m := by
  obtain ⟨nd, hnd, _⟩ := find_exists_some g.nodes m h
  unfold nodeLabelD
  rw [addNode_nodes_eq, find_append_of_some _ _ _ _ hnd, hnd]

theorem exists_nid_addNode (g : CustomDataflowGraph) (t : DataflowOperatorType)
    (orig : Option Nat) (lab : String) (n : Nat) (h : ∃ nd ∈ g.nodes, nd.nid = n) :
    ∃ nd ∈ (addNode g t orig lab).1.nodes, nd.nid = n := by
  rw [addNode_nodes_eq]
  obtain ⟨nd, hm, he⟩ := h
  exact ⟨nd, List.mem_append_left _ hm, he⟩

theorem wireVTN_nodes (g : CustomDataflowGraph) (V : Option Value) (d : Option Nat) :
    (wireValueToNode g V d).nodes = g.nodes := by
  unfold wireValueToNode
  cases V with
  | none => cases d <;> rfl
  | some v =>
      cases d with
      | none => rfl
      | some dd => exact (wireV_frame g v dd).1

theorem wireVTN_map (g : CustomDataflowGraph) (V : Option Value) (d : Option Nat) :
    (wireValueToNode g V d).valueToNodeMap = g.valueToNodeMap := by
  unfold wireValueToNode
  cases V with
  | none => cases d <;> rfl
  | some v =>
      cases d with
      | none => rfl
      | some dd => exact (wireV_frame g v dd).2.1

theorem wireVTN_edges_mono (g : CustomDataflowGraph) (V : Option Value) (d : Option Nat)
    (e : Nat × Nat) (he : e ∈ g.edges) : e ∈ (wireValueToNode g V d).edges := by
  unfold wireValueToNode
  cases V with
  | none => cases d <;> exact he
  | some v =>
      cases d with
      | none => exact he
      | some dd => exact wireV_edges_mono g v dd e he

theorem addEdge_edges_mono (g : CustomDataflowGraph) (s d : Option Nat) (e : Nat × Nat)
    (he : e ∈ g.edges) : e ∈ (addEdge g s d).edges := by
  unfold addEdge
  cases s with
  | none => cases d <;> exact he
  | some sv =>
      cases d with
      | none => exact he
      | some dv =>
          dsimp only
          split
          · exact he
          · exact List.mem_append_left _ he

theorem foldl_nodes_eq {α : Type} (f : CustomDataflowGraph → α → CustomDataflowGraph)
    (hf : ∀ g a, (f g a).nodes = g.nodes) (l : List α) :
    ∀ g : CustomDataflowGraph, (l.foldl f g).nodes = g.nodes := by
  induction l with
  | nil => intro g; rfl
  | cons a l ih => intro g; rw [List.foldl_cons, ih, hf]

theorem foldl_edges_mono {α : Type} (f : CustomDataflowGraph → α → CustomDataflowGraph)
    (e : Nat × Nat) (hf : ∀ g a, e ∈ g.edges → e ∈ (f g a).edges) (l : List α) :
    ∀ g : CustomDataflowGraph, e ∈ g.edges → e ∈ (l.foldl f g).edges := by
  induction l with
  | nil => intro g h; exact h
  | cons a l ih =>
      intro g h
      rw [List.foldl_cons]
      exact ih _ (hf _ _ h)

theorem nodeLabelD_congr {g1 g2 : CustomDataflowGraph} (h : g1.nodes = g2.nodes) :
    nodeLabelD g1 = nodeLabelD g2 := by
  funext n
  unfold nodeLabelD
  rw [h]

theorem tracksAt_refl {n : Nat} {g : CustomDataflowGraph}
    (hex : ∃ nd ∈ g.nodes, nd.nid = n) : TracksAt n g g :=
  ⟨rfl, rfl, rfl, hex⟩

theorem tracksAt_trans {n : Nat} {g1 g2 g3 : CustomDataflowGraph}
    (h12 : TracksAt n g1 g2) (h23 : TracksAt n g2 g3) : TracksAt n g1 g3 := by
  obtain ⟨a1, b1, c1, _⟩ := h12
  obtain ⟨a2, b2, c2, d2⟩ := h23
  exact ⟨a2.trans a1, b2.trans b1, c2.trans c1, d2⟩

theorem tracksAt_step {n : Nat} {g1 g2 g3 : CustomDataflowGraph}
    (h12 : TracksAt n g1 g2)
    (hstep : (∃ nd ∈ g2.nodes, nd.nid = n) → TracksAt n g2 g3) :
    TracksAt n g1 g3 :=
  tracksAt_trans h12 (hstep h12.2.2.2)

theorem tracksAt_of_frame {n : Nat} {g g' : CustomDataflowGraph}
    (hn : g'.nodes = g.nodes) (hm : g'.valueToNodeMap = g.valueToNodeMap)
    (hex : ∃ nd ∈ g.nodes, nd.nid = n) : TracksAt n g g' := by
  refine ⟨congrFun (nodeTyD_congr hn) n, congrFun (nodeLabelD_congr hn) n, hm, ?_⟩
  rw [hn]
  exact hex

theorem tracksAt_addEdge (n : Nat) (g : CustomDataflowGraph) (s d : Option Nat)
    (hex : ∃ nd ∈ g.nodes, nd.nid = n) : TracksAt n g (addEdge g s d) :=
  tracksAt_of_frame (addEdge_nodes g s d) (addEdge_map g s d) hex

theorem tracksAt_wireVTN (n : Nat) (g : CustomDataflowGraph) (V : Option Value)
    (d : Option Nat) (hex : ∃ nd ∈ g.nodes, nd.nid = n) :
    TracksAt n g (wireValueToNode g V d) :=
  tracksAt_of_frame (wireVTN_nodes g V d) (wireVTN_map g V d) hex

theorem tracksAt_addNode_none (n : Nat) (g : CustomDataflowGraph)
    (t : DataflowOperatorType) (lab : String) (hex : ∃ nd ∈ g.nodes, nd.nid = n) :
    TracksAt n g (addNode g t none lab).1 :=
  ⟨nodeTyD_addNode g t none lab n hex, nodeLabelD_addNode g t none lab n hex, rfl,
    exists_nid_addNode g t none lab n hex⟩

theorem tracksAt_setNodeTy_other (n : Nat) (g : CustomDataflowGraph) (k : Nat)
    (t : DataflowOperatorType) (hne : n ≠ k) (hex : ∃ nd ∈ g.nodes, nd.nid = n) :
    TracksAt n g (setNodeTy g k t) :=
  ⟨nodeTyD_setNodeTy_other g k t n hne, nodeLabelD_setNodeTy g k t n, rfl,
    exists_nid_setNodeTy g k t n hex⟩

theorem tracksAt_foldl {α : Type} (n : Nat)
    (f : CustomDataflowGraph → α → CustomDataflowGraph)
    (hf : ∀ g a, (∃ nd ∈ g.nodes, nd.nid = n) → TracksAt n g (f g a)) (l : List α) :
    ∀ g : CustomDataflowGraph, (∃ nd ∈ g.nodes, nd.nid = n) →
      TracksAt n g (l.foldl f g) := by
  induction l with
  | nil => intro g hx; exact tracksAt_refl hx
  | cons a l ih =>
      intro g hx
      rw [List.foldl_cons]
      exact tracksAt_trans (hf g a hx) (ih _ (hf g a hx).2.2.2)

theorem getOrAdd_found_graph (g : CustomDataflowGraph) (v : Value) (cn : Nat)
    (hf : findNodeForValue g v.vid = some cn) :
    (getOrAdd g (some v)).1 = g ∧
      ((getOrAdd g (some v)).2 = none ∨ (getOrAdd g (some v)).2 = some cn) := by
  unfold getOrAdd
  dsimp only
  split
  · exact ⟨rfl, Or.inl rfl⟩
  · split
    · exact ⟨rfl, Or.inl rfl⟩
    · split
      · exact ⟨rfl, Or.inl rfl⟩
      · rw [hf]
        exact ⟨rfl, Or.inr rfl⟩

theorem constDupScan_nodes_pres (g : CustomDataflowGraph) (incomings : List Value)
    (lc : Value) (cd : Option Value) (phiNode : Nat) :
    (Run08.constDupScan g incomings lc cd phiNode).1.nodes = g.nodes := by
  induction incomings with
  | nil => rfl
  | cons iv rest ih =>
      by_cases hc : iv.isConstant = true
      · simpa [Run08.constDupScan, hc] using
          addEdge_nodes g (some phiNode) (findNodeForValue g lc.vid)
      · simpa [Run08.constDupScan, hc] using ih

theorem constDupScan_map_pres (g : CustomDataflowGraph) (incomings : List Value)
    (lc : Value) (cd : Option Value) (phiNode : Nat) :
    (Run08.constDupScan g incomings lc cd phiNode).1.valueToNodeMap = g.valueToNodeMap := by
  induction incomings with
  | nil => rfl
  | cons iv rest ih =>
      by_cases hc : iv.isConstant = true
      · simpa [Run08.constDupScan, hc] using
          addEdge_map g (some phiNode) (findNodeForValue g lc.vid)
      · simpa [Run08.constDupScan, hc] using ih

theorem constDupScan_edges_mono (g : CustomDataflowGraph) (incomings : List Value)
    (lc : Value) (cd : Option Value) (phiNode : Nat) (e : Nat × Nat)
    (he : e ∈ g.edges) :
    e ∈ (Run08.constDupScan g incomings lc cd phiNode).1.edges := by
  induction incomings with
  | nil => exact he
  | cons iv rest ih =>
      by_cases hc : iv.isConstant = true
      · simpa [Run08.constDupScan, hc] using
          addEdge_edges_mono g (some phiNode) (findNodeForValue g lc.vid) e he
      · simpa [Run08.constDupScan, hc] using ih

theorem tracksAt_createSteers (n : Nat) (g : CustomDataflowGraph) (cond : Value)
    (tv fv : Option Value) (cn : Nat)
    (hf : findNodeForValue g cond.vid = some cn) (hne : cn ≠ n)
    (hex : ∃ nd ∈ g.nodes, nd.nid = n) :
    TracksAt n g (Run08.createSteers g cond tv fv).1 := by
  obtain ⟨hg1, hr2⟩ := getOrAdd_found_graph g cond cn hf
  unfold Run08.createSteers
  dsimp only
  rcases hr2 with h2 | h2 <;>
    rw [hg1, h2] <;>
    cases tv <;> cases fv <;>
    dsimp only <;>
    repeat
      first
      | exact tracksAt_refl hex
      | exact tracksAt_setNodeTy_other n g cn .BasicBinaryOp (Ne.symm hne) hex
      | refine tracksAt_step ?_ (fun hx => tracksAt_wireVTN _ _ _ _ hx)
      | refine tracksAt_step ?_ (fun hx => tracksAt_addNode_none _ _ _ _ hx)

theorem tracksAt_mergeStep (F : Func) (bid phiNode : Nat) (g0 : CustomDataflowGraph)
    (acc : CustomDataflowGraph × List (Nat × Nat × Nat)) (p : Value × Nat)
    (hcond : ∀ bvid t f c rest,
      (F.findBlock p.2).bind Block.terminator =
        some (.inst bvid (.condbr t f) (c :: rest)) →
      ∃ cn, findNodeForValue g0 c.vid = some cn ∧ cn ≠ phiNode)
    (ht : TracksAt phiNode g0 acc.1) :
    TracksAt phiNode g0 (Run08.mergeIncomingStep F bid phiNode acc p).1 := by
  unfold Run08.mergeIncomingStep
  cases hterm : (F.findBlock p.2).bind Block.terminator with
  | none =>
      dsimp only
      exact tracksAt_step ht (fun hx => tracksAt_wireVTN _ _ _ _ hx)
  | some tv =>
      cases tv with
      | inst bvid k ops =>
          cases k
          case condbr t fb =>
            cases ops with
            | nil =>
                dsimp only
                exact tracksAt_step ht (fun hx => tracksAt_wireVTN _ _ _ _ hx)
            | cons c rest =>
                obtain ⟨cn, hf0, hne⟩ := hcond bvid t fb c rest hterm
                have hfg : findNodeForValue acc.1 c.vid = some cn := by
                  rw [find_congr ht.2.2.1]
                  exact hf0
                dsimp only
                cases hbs : acc.2.find? (fun q => q.1 == bvid) with
                | some q =>
                    dsimp only
                    exact tracksAt_step
                      (tracksAt_step ht (fun hx => tracksAt_wireVTN _ _ _ _ hx))
                      (fun hx => tracksAt_addEdge _ _ _ _ hx)
                | none =>
                    dsimp only
                    exact tracksAt_step
                      (tracksAt_step
                        (tracksAt_step ht
                          (fun hx => tracksAt_createSteers _ _ _ _ _ cn hfg hne hx))
                        (fun hx => tracksAt_wireVTN _ _ _ _ hx))
                      (fun hx => tracksAt_addEdge _ _ _ _ hx)
          all_goals
            dsimp only
            exact tracksAt_step ht (fun hx => tracksAt_wireVTN _ _ _ _ hx)
      | arg vid nm =>
          dsimp only
          exact tracksAt_step ht (fun hx => tracksAt_wireVTN _ _ _ _ hx)
      | constInt vid l =>
          dsimp only
          exact tracksAt_step ht (fun hx => tracksAt_wireVTN _ _ _ _ hx)
      | funcSym vid nm =>
          dsimp only
          exact tracksAt_step ht (fun hx => tracksAt_wireVTN _ _ _ _ hx)

theorem tracksAt_mergeFold (F : Func) (bid phiNode : Nat) (g0 : CustomDataflowGraph)
    (ps : List (Value × Nat)) :
    (∀ p ∈ ps, ∀ bvid t f c rest,
      (F.findBlock p.2).bind Block.terminator =
        some (.inst bvid (.condbr t f) (c :: rest)) →
      ∃ cn, findNodeForValue g0 c.vid = some cn ∧ cn ≠ phiNode) →
    ∀ acc : CustomDataflowGraph × List (Nat × Nat × Nat),
      TracksAt phiNode g0 acc.1 →
      TracksAt phiNode g0
        (ps.foldl (Run08.mergeIncomingStep F bid phiNode) acc).1 := by
  induction ps with
  | nil =>
      intro _ acc ht
      exact ht
  | cons p ps ih =>
      intro hconds acc ht
      rw [List.foldl_cons]
      exact ih (fun q hq => hconds q (List.mem_cons_of_mem _ hq))
        (Run08.mergeIncomingStep F bid phiNode acc p)
        (tracksAt_mergeStep F bid phiNode g0 acc p
          (hconds p (List.mem_cons_self p ps)) ht)

theorem tracksAt_userWireStep (phiNode n : Nat) (g : CustomDataflowGraph) (u : Value)
    (hex : ∃ nd ∈ g.nodes, nd.nid = n) :
    TracksAt n g (Run08.userWireStep phiNode g u) := by
  unfold Run08.userWireStep
  split
  · exact tracksAt_addEdge _ _ _ _ hex
  · exact tracksAt_refl hex

theorem userFold_edges_mono (phiNode : Nat) (us : List Value) (e : Nat × Nat) :
    ∀ g : CustomDataflowGraph, e ∈ g.edges →
      e ∈ (us.foldl (Run08.userWireStep phiNode) g).edges :=
  foldl_edges_mono _ e
    (fun g u he => by
      unfold Run08.userWireStep
      split
      · exact addEdge_edges_mono _ _ _ _ he
      · exact he)
    us

end CustomDataflowGraph

/-- The claim's loop-carried test is exactly the success of the source's
`isLoopCarriedChk`. -/
theorem claimLoopCarried_iff (LI : LoopInfo) (bid : Nat) (PN : Value) :
    claimLoopCarried LI bid PN = true ↔
      ∃ L, Run08.isLoopCarriedChk LI bid PN = some L := by
  unfold claimLoopCarried Run08.isLoopCarriedChk
  cases getLoopFor LI bid with
  | none => simp
  | some L =>
      by_cases h :
          (L.header == bid && PN.phiIncoming.any fun p => L.blks.contains p.2) = true
      · simp [h]
      · simp [h]

/-- The source's decider search agrees with the claim's description. -/
theorem decider_eq (F : Func) (L : LoopData) :
    Run08.findLoopCondition F L = claimDecider F L := by
  unfold Run08.findLoopCondition claimDecider enteringCondOf exitingCondOf
  cases L.loopPred <;> rfl

/-- When the value is neither a GEP nor a cast and its node is mapped with
a concrete kind, the resolver names exactly that node. -/
theorem specWireSources_found (fnd : Nat → Option Nat)
    (tyOf : Nat → DataflowOperatorType) (v : Value) (cn : Nat)
    (hg : v.isGEP = false) (hc : v.isCast = false)
    (hf : fnd v.vid = some cn) (ht : tyOf cn ≠ .Unknown) :
    specWireSources fnd tyOf v = [cn] := by
  cases v with
  | inst vid k ops =>
      dsimp only [Value.vid] at hf
      cases k
      case gep => simp [Value.isGEP] at hg
      case cast ck => simp [Value.isCast] at hc
      all_goals
        simp only [specWireSources]
        rw [hf]
        simp [ht]
  | arg vid nm =>
      dsimp only [Value.vid] at hf
      simp only [specWireSources]
      rw [hf]
      simp [ht]
  | constInt vid l =>
      dsimp only [Value.vid] at hf
      simp only [specWireSources]
      rw [hf]
      simp [ht]
  | funcSym vid nm =>
      dsimp only [Value.vid] at hf
      simp only [specWireSources]
      rw [hf]
      simp [ht]

/-- The resolver adds the edge from a mapped, concretely-typed,
non-pass-through value's node to the destination. -/
theorem wireV_found_typed (g : CustomDataflowGraph) (v : Value) (d cn : Nat)
    (hg : v.isGEP = false) (hc : v.isCast = false)
    (hf : CustomDataflowGraph.findNodeForValue g v.vid = some cn)
    (ht : CustomDataflowGraph.nodeTyD g cn ≠ .Unknown) :
    (cn, d) ∈ (CustomDataflowGraph.wireV g v d).edges := by
  rw [CustomDataflowGraph.mem_wireV_edges]
  refine Or.inr ⟨cn, ?_, rfl⟩
  rw [specWireSources_found (CustomDataflowGraph.findNodeForValue g)
    (CustomDataflowGraph.nodeTyD g) v cn hg hc hf ht]
  exact List.mem_singleton.mpr rfl

/-- **C2.**  For a phi node `PN` of block `bid` whose value is mapped to a
live node (and whose conditional-incoming branch conditions are mapped to
nodes other than the phi's), Pass 3 re-tags the node `Carry` with label
`"C"` exactly when the claim's loop-carried test holds (the block's loop
exists, the block is its header, and some incoming edge originates inside
the loop), and otherwise the node gets kind `Merge` with label `"M"`; the
decider searched by the source pass is exactly the claim's rule (the
condition of the conditional branch entering the preheader when one
exists, else the exiting block's conditional branch), and in the Carry
case the decider condition's node is wired into the carry node. -/
theorem c2_carry_retag_and_decider (F : Func) (LI : LoopInfo) (st : Run08.Pass3State)
    (bid : Nat) (PN : Value) (phiNode : Nat)
    (hfind : CustomDataflowGraph.findNodeForValue st.g PN.vid = some phiNode)
    (hex : ∃ nd ∈ st.g.nodes, nd.nid = phiNode)
    (hconds : ∀ p ∈ PN.phiIncoming, condNodeOkay F st.g phiNode p.2 = true) :
    (CustomDataflowGraph.nodeTyD (Run08.processPhi F LI st bid PN).g phiNode =
        DataflowOperatorType.Carry ↔ claimLoopCarried LI bid PN = true) ∧
    (claimLoopCarried LI bid PN = true →
      CustomDataflowGraph.nodeLabelD (Run08.processPhi F LI st bid PN).g phiNode = "C") ∧
    (claimLoopCarried LI bid PN = false →
      CustomDataflowGraph.nodeTyD (Run08.processPhi F LI st bid PN).g phiNode =
          DataflowOperatorType.Merge ∧
        CustomDataflowGraph.nodeLabelD (Run08.processPhi F LI st bid PN).g phiNode = "M") ∧
    (∀ L : LoopData, Run08.findLoopCondition F L = claimDecider F L) ∧
    (∀ (L : LoopData) (c : Value) (cn : Nat),
      Run08.isLoopCarriedChk LI bid PN = some L →
      claimDecider F L = some c →
      c.isGEP = false → c.isCast = false →
      CustomDataflowGraph.findNodeForValue st.g c.vid = some cn →
      (cn = phiNode ∨
        CustomDataflowGraph.nodeTyD st.g cn ≠ DataflowOperatorType.Unknown) →
      (cn, phiNode) ∈ (Run08.processPhi F LI st bid PN).g.edges) := by
  have hdec : ∀ L : LoopData, Run08.findLoopCondition F L = claimDecider F L :=
    fun L => decider_eq F L
  cases hlcc : Run08.isLoopCarriedChk LI bid PN with
  | none =>
      have hclaim : claimLoopCarried LI bid PN = false := by
        cases hcl : claimLoopCarried LI bid PN
        · rfl
        · obtain ⟨L, hL⟩ := (claimLoopCarried_iff LI bid PN).mp hcl
          rw [hlcc] at hL
          exact Option.noConfusion hL
      have hexT : ∃ nd ∈ (CustomDataflowGraph.setNodeTy st.g phiNode
          DataflowOperatorType.Merge).nodes, nd.nid = phiNode :=
        CustomDataflowGraph.exists_nid_setNodeTy _ _ _ _ hex
      have hexM : ∃ nd ∈ (CustomDataflowGraph.setNodeLabel
          (CustomDataflowGraph.setNodeTy st.g phiNode DataflowOperatorType.Merge)
          phiNode "M").nodes, nd.nid = phiNode :=
        CustomDataflowGraph.exists_nid_setNodeLabel _ _ _ _ hexT
      have htyM : CustomDataflowGraph.nodeTyD (CustomDataflowGraph.setNodeLabel
          (CustomDataflowGraph.setNodeTy st.g phiNode DataflowOperatorType.Merge)
          phiNode "M") phiNode = DataflowOperatorType.Merge := by
        rw [CustomDataflowGraph.nodeTyD_setNodeLabel]
        exact CustomDataflowGraph.nodeTyD_setNodeTy_self _ _ _ hex
      have hlabM : CustomDataflowGraph.nodeLabelD (CustomDataflowGraph.setNodeLabel
          (CustomDataflowGraph.setNodeTy st.g phiNode DataflowOperatorType.Merge)
          phiNode "M") phiNode = "M" :=
        CustomDataflowGraph.nodeLabelD_setNodeLabel_self _ _ _ hexT
      have hcondsF : ∀ p ∈ PN.phiIncoming, ∀ bvid t f c rest,
          (F.findBlock p.2).bind Block.terminator =
            some (.inst bvid (.condbr t f) (c :: rest)) →
          ∃ cn, CustomDataflowGraph.findNodeForValue (CustomDataflowGraph.setNodeLabel
            (CustomDataflowGraph.setNodeTy st.g phiNode DataflowOperatorType.Merge)
            phiNode "M") c.vid = some cn ∧ cn ≠ phiNode := by
        intro p hp bvid t f c rest hterm
        have hd := hconds p hp
        unfold condNodeOkay at hd
        rw [hterm] at hd
        dsimp only at hd
        cases hfc : CustomDataflowGraph.findNodeForValue st.g c.vid with
        | none =>
            rw [hfc] at hd
            cases hd
        | some cn =>
            rw [hfc] at hd
            refine ⟨cn, ?_, by simpa using hd⟩
            rw [CustomDataflowGraph.find_congr (show
              (CustomDataflowGraph.setNodeLabel (CustomDataflowGraph.setNodeTy st.g
                phiNode DataflowOperatorType.Merge) phiNode "M").valueToNodeMap =
              st.g.valueToNodeMap from rfl)]
            exact hfc
      have htM : TracksAt phiNode (CustomDataflowGraph.setNodeLabel
          (CustomDataflowGraph.setNodeTy st.g phiNode DataflowOperatorType.Merge)
          phiNode "M") (Run08.processPhi F LI st bid PN).g := by
        unfold Run08.processPhi
        rw [hfind]
        dsimp only
        rw [hlcc]
        dsimp only
        refine CustomDataflowGraph.tracksAt_step
          (CustomDataflowGraph.tracksAt_mergeFold F bid phiNode _ PN.phiIncoming hcondsF
            _ (CustomDataflowGraph.tracksAt_refl hexM))
          (fun hx => CustomDataflowGraph.tracksAt_foldl phiNode _
            (fun g u hx2 =>
              CustomDataflowGraph.tracksAt_userWireStep phiNode phiNode g u hx2)
            _ _ hx)
      obtain ⟨htyF, hlabF, _, _⟩ := htM
      refine ⟨?_, ?_, ?_, hdec, ?_⟩
      · constructor
        · intro hca
          rw [htyF, htyM] at hca
          exact absurd hca (by decide)
        · intro h
          rw [h] at hclaim
          exact absurd hclaim (by decide)
      · intro h
        rw [h] at hclaim
        exact absurd hclaim (by decide)
      · intro _
        exact ⟨htyF.trans htyM, hlabF.trans hlabM⟩
      · intro L c cn hL
        exact Option.noConfusion hL
  | some L =>
      have hclaim : claimLoopCarried LI bid PN = true :=
        (claimLoopCarried_iff LI bid PN).mpr ⟨L, hlcc⟩
      have hexT : ∃ nd ∈ (CustomDataflowGraph.setNodeTy st.g phiNode
          DataflowOperatorType.Carry).nodes, nd.nid = phiNode :=
        CustomDataflowGraph.exists_nid_setNodeTy _ _ _ _ hex
      have hexL : ∃ nd ∈ (CustomDataflowGraph.setNodeLabel
          (CustomDataflowGraph.setNodeTy st.g phiNode DataflowOperatorType.Carry)
          phiNode "C").nodes, nd.nid = phiNode :=
        CustomDataflowGraph.exists_nid_setNodeLabel _ _ _ _ hexT
      have hexC : ∃ nd ∈ (CustomDataflowGraph.setNodeOpSym (CustomDataflowGraph.setNodeLabel
          (CustomDataflowGraph.setNodeTy st.g phiNode DataflowOperatorType.Carry)
          phiNode "C") phiNode "").nodes, nd.nid = phiNode :=
        CustomDataflowGraph.exists_nid_setNodeOpSym _ _ _ _ hexL
      have htyC : CustomDataflowGraph.nodeTyD (CustomDataflowGraph.setNodeOpSym
          (CustomDataflowGraph.setNodeLabel (CustomDataflowGraph.setNodeTy st.g phiNode
            DataflowOperatorType.Carry) phiNode "C") phiNode "") phiNode =
          DataflowOperatorType.Carry := by
        rw [CustomDataflowGraph.nodeTyD_setNodeOpSym, CustomDataflowGraph.nodeTyD_setNodeLabel]
        exact CustomDataflowGraph.nodeTyD_setNodeTy_self _ _ _ hex
      have hlabC : CustomDataflowGraph.nodeLabelD (CustomDataflowGraph.setNodeOpSym
          (CustomDataflowGraph.setNodeLabel (CustomDataflowGraph.setNodeTy st.g phiNode
            DataflowOperatorType.Carry) phiNode "C") phiNode "") phiNode = "C" := by
        rw [CustomDataflowGraph.nodeLabelD_setNodeOpSym]
        exact CustomDataflowGraph.nodeLabelD_setNodeLabel_self _ _ _ hexT
      have htC : TracksAt phiNode (CustomDataflowGraph.setNodeOpSym
          (CustomDataflowGraph.setNodeLabel (CustomDataflowGraph.setNodeTy st.g phiNode
            DataflowOperatorType.Carry) phiNode "C") phiNode "")
          (Run08.processPhi F LI st bid PN).g := by
        unfold Run08.processPhi
        rw [hfind]
        dsimp only
        rw [hlcc]
        dsimp only
        cases hlc : Run08.findLoopCondition F L with
        | some lc =>
            dsimp only
            refine CustomDataflowGraph.tracksAt_step (CustomDataflowGraph.tracksAt_step
              (CustomDataflowGraph.tracksAt_step
                (CustomDataflowGraph.tracksAt_wireVTN phiNode _ (some lc) (some phiNode) hexC)
                (fun hx => CustomDataflowGraph.tracksAt_of_frame
                  (CustomDataflowGraph.constDupScan_nodes_pres ..)
                  (CustomDataflowGraph.constDupScan_map_pres ..) hx))
              (fun hx => CustomDataflowGraph.tracksAt_foldl phiNode _
                (fun g iv hx2 => CustomDataflowGraph.tracksAt_wireVTN phiNode g
                  (some iv) (some phiNode) hx2) _ _ hx))
              (fun hx => CustomDataflowGraph.tracksAt_foldl phiNode _
                (fun g u hx2 =>
                  CustomDataflowGraph.tracksAt_userWireStep phiNode phiNode g u hx2)
                _ _ hx)
        | none =>
            dsimp only
            refine CustomDataflowGraph.tracksAt_step (CustomDataflowGraph.tracksAt_step
              (CustomDataflowGraph.tracksAt_refl hexC)
              (fun hx => CustomDataflowGraph.tracksAt_foldl phiNode _
                (fun g iv hx2 => CustomDataflowGraph.tracksAt_wireVTN phiNode g
                  (some iv) (some phiNode) hx2) _ _ hx))
              (fun hx => CustomDataflowGraph.tracksAt_foldl phiNode _
                (fun g u hx2 =>
                  CustomDataflowGraph.tracksAt_userWireStep phiNode phiNode g u hx2)
                _ _ hx)
      obtain ⟨htyF, hlabF, _, _⟩ := htC
      refine ⟨?_, ?_, ?_, hdec, ?_⟩
      · exact ⟨fun _ => hclaim, fun _ => htyF.trans htyC⟩
      · intro _
        exact hlabF.trans hlabC
      · intro h
        rw [h] at hclaim
        exact absurd hclaim (by decide)
      · intro L' c cn hL' hc hgep hcast hf hok
        have hLL : L = L' := Option.some.inj hL'
        subst hLL
        have hflc : Run08.findLoopCondition F L = some c := by
          rw [decider_eq]
          exact hc
        have hty2 : CustomDataflowGraph.nodeTyD (CustomDataflowGraph.setNodeOpSym
            (CustomDataflowGraph.setNodeLabel (CustomDataflowGraph.setNodeTy st.g phiNode
              DataflowOperatorType.Carry) phiNode "C") phiNode "") cn ≠
            DataflowOperatorType.Unknown := by
          by_cases hcnp : cn = phiNode
          · subst hcnp
            rw [CustomDataflowGraph.nodeTyD_setNodeOpSym,
              CustomDataflowGraph.nodeTyD_setNodeLabel,
              CustomDataflowGraph.nodeTyD_setNodeTy_self _ _ _ hex]
            decide
          · rcases hok with rfl | hok2
            · exact absurd rfl hcnp
            · rw [CustomDataflowGraph.nodeTyD_setNodeOpSym,
                CustomDataflowGraph.nodeTyD_setNodeLabel,
                CustomDataflowGraph.nodeTyD_setNodeTy_other _ _ _ _ hcnp]
              exact hok2
        have hf2 : CustomDataflowGraph.findNodeForValue (CustomDataflowGraph.setNodeOpSym
            (CustomDataflowGraph.setNodeLabel (CustomDataflowGraph.setNodeTy st.g phiNode
              DataflowOperatorType.Carry) phiNode "C") phiNode "") c.vid = some cn := by
          rw [CustomDataflowGraph.find_congr (show
            (CustomDataflowGraph.setNodeOpSym (CustomDataflowGraph.setNodeLabel
              (CustomDataflowGraph.setNodeTy st.g phiNode DataflowOperatorType.Carry)
              phiNode "C") phiNode "").valueToNodeMap = st.g.valueToNodeMap from rfl)]
          exact hf
        unfold Run08.processPhi
        rw [hfind]
        dsimp only
        rw [hlcc]
        dsimp only
        rw [hflc]
        dsimp only
        apply CustomDataflowGraph.userFold_edges_mono
        apply CustomDataflowGraph.foldl_edges_mono _ _
          (fun g iv he => CustomDataflowGraph.wireVTN_edges_mono g (some iv)
            (some phiNode) (cn, phiNode) he)
        apply CustomDataflowGraph.constDupScan_edges_mono
        exact wireV_found_typed _ c phiNode cn hgep hcast hf2 hty2

/-- Witness for C2: the claim theorem applied at `Floop`'s header phi
(value 20, node 0) in the pipeline state right before Pass 3; the phi's
node becomes a Carry. -/
theorem c2_witness :
    CustomDataflowGraph.nodeTyD
        (Run08.processPhi Floop LIloop FloopSt0 1 phiFull).g 0 =
      DataflowOperatorType.Carry :=
  (c2_carry_retag_and_decider Floop LIloop FloopSt0 1 phiFull 0 (by decide)
      (by decide) (by decide)).1.mpr (by decide)

/-! ### v0.7 branch-pass lemmas (claim C5). -/

namespace CustomDataflowGraph

theorem find_append_singleton_none {α : Type} (p : α → Bool) (l : List α) (x : α)
    (hl : l.find? p = none) (hx : p x = false) : (l ++ [x]).find? p = none := by
  induction l with
  | nil =>
      rw [List.nil_append, List.find?_cons_of_neg _ (by simp [hx])]
      rfl
  | cons a l ih =>
      cases hp : p a with
      | true =>
          rw [List.find?_cons_of_pos _ hp] at hl
          exact Option.noConfusion hl
      | false =>
          rw [List.find?_cons_of_neg _ (by simp [hp])] at hl
          rw [List.cons_append, List.find?_cons_of_neg _ (by simp [hp])]
          exact ih hl

theorem find_append_singleton_self {α : Type} (p : α → Bool) (l : List α) (x : α)
    (hl : l.find? p = none) (hx : p x = true) : (l ++ [x]).find? p = some x := by
  induction l with
  | nil =>
      rw [List.nil_append]
      exact List.find?_cons_of_pos _ hx
  | cons a l ih =>
      cases hp : p a with
      | true =>
          rw [List.find?_cons_of_pos _ hp] at hl
          exact Option.noConfusion hl
      | false =>
          rw [List.find?_cons_of_neg _ (by simp [hp])] at hl
          rw [List.cons_append, List.find?_cons_of_neg _ (by simp [hp])]
          exact ih hl

theorem findNodeForValue_after_insert (g : CustomDataflowGraph) (k val : Nat)
    (hk : g.valueToNodeMap.find? (fun p => p.1 == k) = none)
    (g' : CustomDataflowGraph) (hmap : g'.valueToNodeMap = mapInsert g.valueToNodeMap k val)
    (w : Nat) :
    findNodeForValue g' w = if w = k then some val else findNodeForValue g w := by
  unfold findNodeForValue
  rw [hmap, mapInsert_of_not_found _ _ _ hk]
  by_cases hw : w = k
  · subst hw
    rw [find_append_singleton_self _ _ _ hk (by simp)]
    simp
  · rcases hx : g.valueToNodeMap.find? (fun p => p.1 == w) with _ | p
    · rw [find_append_singleton_none _ _ _ hx (by simp [Ne.symm hw])]
      simp [hw, hx]
    · rw [find_append_of_some _ _ _ _ hx]
      simp [hw, hx]

theorem find_ty_append_fresh (l : List DataflowNode) (B : Nat) (nd0 : DataflowNode)
    (hb : ∀ nd ∈ l, nd.nid < B) (hnid : nd0.nid = B) :
    (l ++ [nd0]).find? (fun nd => nd.nid == B) = some nd0 := by
  have hl : l.find? (fun nd => nd.nid == B) = none := by
    rw [List.find?_eq_none]
    intro x hx
    simp [Nat.ne_of_lt (hb x hx)]
  exact find_append_singleton_self _ l nd0 hl (by simp [hnid])

theorem addNode_ret (g : CustomDataflowGraph) (t : DataflowOperatorType)
    (orig : Option Nat) (lab : String) : (addNode g t orig lab).2 = g.nextId := by
  unfold addNode
  cases orig <;> rfl

theorem addNode_nextId (g : CustomDataflowGraph) (t : DataflowOperatorType)
    (orig : Option Nat) (lab : String) :
    (addNode g t orig lab).1.nextId = g.nextId + 1 := by
  unfold addNode
  cases orig <;> rfl

theorem nodeTyD_addNode_fresh (g : CustomDataflowGraph) (t : DataflowOperatorType)
    (orig : Option Nat) (lab : String)
    (hb : ∀ nd ∈ g.nodes, nd.nid < g.nextId) :
    nodeTyD (addNode g t orig lab).1 g.nextId = t := by
  unfold nodeTyD
  rw [addNode_nodes_eq, find_ty_append_fresh g.nodes g.nextId _ hb rfl]
  rfl

theorem bound_addNode (g : CustomDataflowGraph) (t : DataflowOperatorType)
    (orig : Option Nat) (lab : String) (hb : ∀ nd ∈ g.nodes, nd.nid < g.nextId) :
    ∀ nd ∈ (addNode g t orig lab).1.nodes, nd.nid < (addNode g t orig lab).1.nextId := by
  rw [addNode_nodes_eq, addNode_nextId]
  intro nd hnd
  rcases List.mem_append.mp hnd with h | h
  · exact Nat.lt_succ_of_lt (hb nd h)
  · rcases List.mem_singleton.mp h with rfl
    exact Nat.lt_succ_self _

end CustomDataflowGraph

namespace V7

open CustomDataflowGraph

theorem assocInsert_find_self (m : List (Nat × Nat × Nat)) (k : Nat) (v : Nat × Nat) :
    (assocInsert m k v).find? (fun q => q.1 == k) = some (k, v.1, v.2) := by
  induction m with
  | nil =>
      rw [show assocInsert [] k v = [(k, v.1, v.2)] from rfl, List.find?_cons]
      simp
  | cons q rest ih =>
      by_cases hq : (q.1 == k) = true
      · rw [show assocInsert (q :: rest) k v = (k, v.1, v.2) :: rest from by
          simp [assocInsert, hq], List.find?_cons]
        simp
      · have hq' : (q.1 == k) = false := by simpa using hq
        rw [show assocInsert (q :: rest) k v = q :: assocInsert rest k v from by
          simp [assocInsert, hq], List.find?_cons, hq']
        exact ih

theorem assocInsert_find_ne (m : List (Nat × Nat × Nat)) (k : Nat) (v : Nat × Nat)
    (w : Nat) (hne : w ≠ k) :
    (assocInsert m k v).find? (fun q => q.1 == w) = m.find? (fun q => q.1 == w) := by
  induction m with
  | nil =>
      rw [show assocInsert [] k v = [(k, v.1, v.2)] from rfl, List.find?_cons,
        show (k == w) = false from by simp [Ne.symm hne]]
  | cons q rest ih =>
      by_cases hqk : (q.1 == k) = true
      · have hq1 : q.1 = k := by simpa using hqk
        rw [show assocInsert (q :: rest) k v = (k, v.1, v.2) :: rest from by
          simp [assocInsert, hqk], List.find?_cons, List.find?_cons,
          show (k == w) = false from by simp [Ne.symm hne],
          show (q.1 == w) = false from by simp [hq1, Ne.symm hne]]
      · rw [show assocInsert (q :: rest) k v = q :: assocInsert rest k v from by
          simp [assocInsert, hqk], List.find?_cons, List.find?_cons]
        cases hqw : (q.1 == w) with
        | true => rfl
        | false => exact ih

theorem mem_assocInsert (m : List (Nat × Nat × Nat)) (k : Nat) (v : Nat × Nat)
    (x : Nat × Nat × Nat) (hx : x ∈ assocInsert m k v) :
    x ∈ m ∨ x = (k, v.1, v.2) := by
  induction m with
  | nil =>
      rw [show assocInsert [] k v = [(k, v.1, v.2)] from rfl] at hx
      exact Or.inr (List.mem_singleton.mp hx)
  | cons q rest ih =>
      by_cases hqk : (q.1 == k) = true
      · rw [show assocInsert (q :: rest) k v = (k, v.1, v.2) :: rest from by
          simp [assocInsert, hqk]] at hx
        rcases List.mem_cons.mp hx with rfl | h
        · exact Or.inr rfl
        · exact Or.inl (List.mem_cons_of_mem _ h)
      · rw [show assocInsert (q :: rest) k v = q :: assocInsert rest k v from by
          simp [assocInsert, hqk]] at hx
        rcases List.mem_cons.mp hx with rfl | h
        · exact Or.inl (List.mem_cons_self ..)
        · rcases ih h with h1 | h2
          · exact Or.inl (List.mem_cons_of_mem _ h1)
          · exact Or.inr h2

mutual

theorem wireV7_frame (g : CustomDataflowGraph) (v : Value) (d : Nat) :
    (wireV7 g v d).nodes = g.nodes ∧
      (wireV7 g v d).valueToNodeMap = g.valueToNodeMap ∧
      (wireV7 g v d).nextId = g.nextId := by
  cases v with
  | inst vid k ops =>
      cases k
      case gep =>
        cases ops with
        | nil => simp [wireV7]
        | cons base idxs =>
            have h1 := wireV7_frame g base d
            have h2 := wireV7List_frame (wireV7 g base d) idxs d
            simp only [wireV7]
            exact ⟨h2.1.trans h1.1, h2.2.1.trans h1.2.1, h2.2.2.trans h1.2.2⟩
      case cast ck =>
        cases ck with
        | zext =>
            cases ops with
            | nil => simp [wireV7]
            | cons op0 rest => simpa [wireV7] using wireV7_frame g op0 d
        | sext =>
            cases ops with
            | nil => simp [wireV7]
            | cons op0 rest => simpa [wireV7] using wireV7_frame g op0 d
        | otherCast nm =>
            simp only [wireV7]
            cases hf : findNodeForValue g vid with
            | some srcN =>
                by_cases hty : (nodeTyD g srcN != DataflowOperatorType.Unknown) = true
                · simp [hty, addEdge_nodes, addEdge_map, addEdge_nextId]
                · simpa [hty] using wireV7List_frame g ops d
            | none => exact wireV7List_frame g ops d
      all_goals
        simp only [wireV7]
        cases hf : findNodeForValue g vid with
        | some srcN =>
            by_cases hty : (nodeTyD g srcN != DataflowOperatorType.Unknown) = true
            · simp [hty, addEdge_nodes, addEdge_map, addEdge_nextId]
            · simpa [hty] using wireV7List_frame g ops d
        | none => exact wireV7List_frame g ops d
  | arg vid nm =>
      simp only [wireV7]
      cases hf : findNodeForValue g vid with
      | some srcN =>
          by_cases hty : (nodeTyD g srcN != DataflowOperatorType.Unknown) = true
          · simp [hty, addEdge_nodes, addEdge_map, addEdge_nextId]
          · simp [hty]
      | none => simp
  | constInt vid l =>
      simp only [wireV7]
      cases hf : findNodeForValue g vid with
      | some srcN =>
          by_cases hty : (nodeTyD g srcN != DataflowOperatorType.Unknown) = true
          · simp [hty, addEdge_nodes, addEdge_map, addEdge_nextId]
          · simp [hty]
      | none => simp
  | funcSym vid nm =>
      simp only [wireV7]
      cases hf : findNodeForValue g vid with
      | some srcN =>
          by_cases hty : (nodeTyD g srcN != DataflowOperatorType.Unknown) = true
          · simp [hty, addEdge_nodes, addEdge_map, addEdge_nextId]
          · simp [hty]
      | none => simp

theorem wireV7List_frame (g : CustomDataflowGraph) (vs : List Value) (d : Nat) :
    (wireV7List g vs d).nodes = g.nodes ∧
      (wireV7List g vs d).valueToNodeMap = g.valueToNodeMap ∧
      (wireV7List g vs d).nextId = g.nextId := by
  cases vs with
  | nil => simp [wireV7List]
  | cons v rest =>
      have h1 := wireV7_frame g v d
      have h2 := wireV7List_frame (wireV7 g v d) rest d
      simp only [wireV7List]
      exact ⟨h2.1.trans h1.1, h2.2.1.trans h1.2.1, h2.2.2.trans h1.2.2⟩

end

mutual

theorem wireV7_edges_mono (g : CustomDataflowGraph) (v : Value) (d : Nat)
    (e : Nat × Nat) (he : e ∈ g.edges) : e ∈ (wireV7 g v d).edges := by
  cases v with
  | inst vid k ops =>
      cases k
      case gep =>
        cases ops with
        | nil => exact he
        | cons base idxs =>
            simp only [wireV7]
            exact wireV7List_edges_mono _ idxs d e (wireV7_edges_mono g base d e he)
      case cast ck =>
        cases ck with
        | zext =>
            cases ops with
            | nil => exact he
            | cons op0 rest => simpa [wireV7] using wireV7_edges_mono g op0 d e he
        | sext =>
            cases ops with
            | nil => exact he
            | cons op0 rest => simpa [wireV7] using wireV7_edges_mono g op0 d e he
        | otherCast nm =>
            simp only [wireV7]
            cases hf : findNodeForValue g vid with
            | some srcN =>
                by_cases hty : (nodeTyD g srcN != DataflowOperatorType.Unknown) = true
                · simp only [hty, if_true]
                  exact addEdge_edges_mono _ _ _ _ he
                · simp only [hty, if_false]
                  exact wireV7List_edges_mono g ops d e he
            | none => exact wireV7List_edges_mono g ops d e he
      all_goals
        simp only [wireV7]
        cases hf : findNodeForValue g vid with
        | some srcN =>
            by_cases hty : (nodeTyD g srcN != DataflowOperatorType.Unknown) = true
            · simp only [hty, if_true]
              exact addEdge_edges_mono _ _ _ _ he
            · simp only [hty, if_false]
              exact wireV7List_edges_mono g ops d e he
        | none => exact wireV7List_edges_mono g ops d e he
  | arg vid nm =>
      simp only [wireV7]
      cases hf : findNodeForValue g vid with
      | some srcN =>
          by_cases hty : (nodeTyD g srcN != DataflowOperatorType.Unknown) = true
          · simp only [hty, if_true]
            exact addEdge_edges_mono _ _ _ _ he
          · simp only [hty, if_false]
            exact he
      | none => exact he
  | constInt vid l =>
      simp only [wireV7]
      cases hf : findNodeForValue g vid with
      | some srcN =>
          by_cases hty : (nodeTyD g srcN != DataflowOperatorType.Unknown) = true
          · simp only [hty, if_true]
            exact addEdge_edges_mono _ _ _ _ he
          · simp only [hty, if_false]
            exact he
      | none => exact he
  | funcSym vid nm =>
      simp only [wireV7]
      cases hf : findNodeForValue g vid with
      | some srcN =>
          by_cases hty : (nodeTyD g srcN != DataflowOperatorType.Unknown) = true
          · simp only [hty, if_true]
            exact addEdge_edges_mono _ _ _ _ he
          · simp only [hty, if_false]
            exact he
      | none => exact he

theorem wireV7List_edges_mono (g : CustomDataflowGraph) (vs : List Value) (d : Nat)
    (e : Nat × Nat) (he : e ∈ g.edges) : e ∈ (wireV7List g vs d).edges := by
  cases vs with
  | nil => exact he
  | cons v rest =>
      simp only [wireV7List]
      exact wireV7List_edges_mono _ rest d e (wireV7_edges_mono g v d e he)

end

theorem wireV7_found_typed (g : CustomDataflowGraph) (v : Value) (d cn : Nat)
    (hg : v.isGEP = false) (hz : v.isZExtOrSExt = false)
    (hf : findNodeForValue g v.vid = some cn)
    (ht : nodeTyD g cn ≠ DataflowOperatorType.Unknown) :
    (cn, d) ∈ (wireV7 g v d).edges := by
  have hbne : (nodeTyD g cn != DataflowOperatorType.Unknown) = true := by
    simpa using ht
  cases v with
  | inst vid k ops =>
      dsimp only [Value.vid] at hf
      cases k
      case gep => simp [Value.isGEP] at hg
      case cast ck =>
        cases ck with
        | zext => simp [Value.isZExtOrSExt] at hz
        | sext => simp [Value.isZExtOrSExt] at hz
        | otherCast nm =>
            simp only [wireV7]
            rw [hf]
            simp only [hbne, if_true]
            exact (mem_addEdge_edges _ _ _ _).mpr (Or.inr rfl)
      all_goals
        simp only [wireV7]
        rw [hf]
        simp only [hbne, if_true]
        exact (mem_addEdge_edges _ _ _ _).mpr (Or.inr rfl)
  | arg vid nm =>
      dsimp only [Value.vid] at hf
      simp only [wireV7]
      rw [hf]
      simp only [hbne, if_true]
      exact (mem_addEdge_edges _ _ _ _).mpr (Or.inr rfl)
  | constInt vid l =>
      dsimp only [Value.vid] at hf
      simp only [wireV7]
      rw [hf]
      simp only [hbne, if_true]
      exact (mem_addEdge_edges _ _ _ _).mpr (Or.inr rfl)
  | funcSym vid nm =>
      dsimp only [Value.vid] at hf
      simp only [wireV7]
      rw [hf]
      simp only [hbne, if_true]
      exact (mem_addEdge_edges _ _ _ _).mpr (Or.inr rfl)

theorem wireVTN7_frame (g : CustomDataflowGraph) (V : Option Value) (destN : Option Nat) :
    (wireValueToNodeV7 g V destN).nodes = g.nodes ∧
      (wireValueToNodeV7 g V destN).valueToNodeMap = g.valueToNodeMap ∧
      (wireValueToNodeV7 g V destN).nextId = g.nextId := by
  unfold wireValueToNodeV7
  cases V with
  | none => cases destN <;> exact ⟨rfl, rfl, rfl⟩
  | some v =>
      cases destN with
      | none => exact ⟨rfl, rfl, rfl⟩
      | some d => exact wireV7_frame g v d

theorem wireVTN7_edges_mono (g : CustomDataflowGraph) (V : Option Value)
    (destN : Option Nat) (e : Nat × Nat) (he : e ∈ g.edges) :
    e ∈ (wireValueToNodeV7 g V destN).edges := by
  unfold wireValueToNodeV7
  cases V with
  | none => cases destN <;> exact he
  | some v =>
      cases destN with
      | none => exact he
      | some d => exact wireV7_edges_mono g v d e he

theorem getOrAddV7_found_or_created (g : CustomDataflowGraph) (v : Value)
    (h1 : v.isCondBr = false) (h2 : (v.isGEP || v.isZExtOrSExt) = false) :
    (∃ n, findNodeForValue g v.vid = some n ∧ getOrAddV7 g (some v) = (g, some n)) ∨
    (findNodeForValue g v.vid = none ∧
     ∃ t, getOrAddV7 g (some v) =
       ({ g with
          nodes := g.nodes ++ [⟨g.nextId, t, some v.vid, "", ""⟩],
          valueToNodeMap := mapInsert g.valueToNodeMap v.vid g.nextId,
          nextId := g.nextId + 1 }, some g.nextId)) := by
  rcases hfind : findNodeForValue g v.vid with _ | n
  · right
    refine ⟨rfl, ?_, ?_⟩
    · exact if v.isArgument then .FunctionInput
        else if v.isConstant then .Constant else .Unknown
    · simp [getOrAddV7, h1, h2, hfind, addNode]
  · left
    exact ⟨n, rfl, by simp [getOrAddV7, h1, h2, hfind]⟩

theorem getOrAddV7_cases (g : CustomDataflowGraph) (v : Value) :
    getOrAddV7 g (some v) = (g, none) ∨
    (∃ n, findNodeForValue g v.vid = some n ∧ getOrAddV7 g (some v) = (g, some n)) ∨
    (findNodeForValue g v.vid = none ∧
     ∃ t, getOrAddV7 g (some v) =
       ({ g with
          nodes := g.nodes ++ [⟨g.nextId, t, some v.vid, "", ""⟩],
          valueToNodeMap := mapInsert g.valueToNodeMap v.vid g.nextId,
          nextId := g.nextId + 1 }, some g.nextId)) := by
  by_cases h1 : v.isCondBr = true
  · left
    simp [getOrAddV7, h1]
  · by_cases h2 : (v.isGEP || v.isZExtOrSExt) = true
    · left
      simp [getOrAddV7, h1, h2]
    · rcases getOrAddV7_found_or_created g v (by simpa using h1) (by simpa using h2) with
        ⟨n, hf, he⟩ | ⟨hf, t, he⟩
      · exact Or.inr (Or.inl ⟨n, hf, he⟩)
      · exact Or.inr (Or.inr ⟨hf, t, he⟩)

theorem extends_refl (g : CustomDataflowGraph) : Extends g g :=
  ⟨Nat.le_refl _, fun _ he => he, fun _ _ h => h, fun _ _ _ => rfl,
    fun _ hp => Or.inl hp, fun h => h, fun h => h⟩

theorem extends_trans {g1 g2 g3 : CustomDataflowGraph}
    (h12 : Extends g1 g2) (h23 : Extends g2 g3) : Extends g1 g3 := by
  obtain ⟨n1, e1, f1, t1, m1, nb1, mb1⟩ := h12
  obtain ⟨n2, e2, f2, t2, m2, nb2, mb2⟩ := h23
  refine ⟨Nat.le_trans n1 n2, fun e he => e2 e (e1 e he),
    fun w n h => f2 w n (f1 w n h), ?_, ?_, fun h => nb2 (nb1 h), fun h => mb2 (mb1 h)⟩
  · intro m hm hp
    have hp2 : ProtectedId g2 m := by
      intro p hpm hps
      rcases m1 p hpm with hin | hge | hsent
      · exact hp p hin hps
      · exact Nat.ne_of_gt (Nat.lt_of_lt_of_le hm hge)
      · exact absurd hsent hps
    rw [t2 m (Nat.lt_of_lt_of_le hm n1) hp2]
    exact t1 m hm hp
  · intro p hp
    rcases m2 p hp with hin | hge | hsent
    · rcases m1 p hin with hin1 | hge1 | hsent1
      · exact Or.inl hin1
      · exact Or.inr (Or.inl hge1)
      · exact Or.inr (Or.inr hsent1)
    · exact Or.inr (Or.inl (Nat.le_trans n1 hge))
    · exact Or.inr (Or.inr hsent)

theorem protectedId_transfer {g g' : CustomDataflowGraph} (hx : Extends g g')
    {m : Nat} (hm : m < g.nextId) (hp : ProtectedId g m) : ProtectedId g' m := by
  intro p hpm hps
  rcases hx.2.2.2.2.1 p hpm with hin | hge | hsent
  · exact hp p hin hps
  · exact Nat.ne_of_gt (Nat.lt_of_lt_of_le hm hge)
  · exact absurd hsent hps

theorem protectedId_of_fresh (g : CustomDataflowGraph) (m : Nat)
    (hmb : ∀ p ∈ g.valueToNodeMap, p.2 < g.nextId) (hge : g.nextId ≤ m) :
    ProtectedId g m :=
  fun p hp _ => Nat.ne_of_lt (Nat.lt_of_lt_of_le (hmb p hp) hge)

theorem extends_of_frame {g g' : CustomDataflowGraph}
    (hn : g'.nodes = g.nodes) (hm : g'.valueToNodeMap = g.valueToNodeMap)
    (hi : g'.nextId = g.nextId) (he : ∀ e ∈ g.edges, e ∈ g'.edges) : Extends g g' := by
  refine ⟨Nat.le_of_eq hi.symm, he, ?_, ?_, ?_, ?_, ?_⟩
  · intro w n h
    rw [find_congr hm]
    exact h
  · intro m _ _
    exact congrFun (nodeTyD_congr hn) m
  · intro p hp
    rw [hm] at hp
    exact Or.inl hp
  · intro hb nd hnd
    rw [hn] at hnd
    rw [hi]
    exact hb nd hnd
  · intro hmb p hp
    rw [hm] at hp
    rw [hi, hn]
    exact hmb p hp

theorem extends_addEdge (g : CustomDataflowGraph) (s d : Option Nat) :
    Extends g (addEdge g s d) :=
  extends_of_frame (addEdge_nodes g s d) (addEdge_map g s d) (addEdge_nextId g s d)
    (fun e he => addEdge_edges_mono g s d e he)

theorem extends_wireVTN7 (g : CustomDataflowGraph) (V : Option Value) (destN : Option Nat) :
    Extends g (wireValueToNodeV7 g V destN) :=
  extends_of_frame (wireVTN7_frame g V destN).1 (wireVTN7_frame g V destN).2.1
    (wireVTN7_frame g V destN).2.2 (fun e he => wireVTN7_edges_mono g V destN e he)

theorem extends_create (g : CustomDataflowGraph) (v : Value) (t : DataflowOperatorType)
    (hfind : findNodeForValue g v.vid = none) :
    Extends g
      { g with
        nodes := g.nodes ++ [⟨g.nextId, t, some v.vid, "", ""⟩],
        valueToNodeMap := mapInsert g.valueToNodeMap v.vid g.nextId,
        nextId := g.nextId + 1 } := by
  have hkn : g.valueToNodeMap.find? (fun p => p.1 == v.vid) = none :=
    (findNodeForValue_eq_none_iff g v.vid).mp hfind
  have hfa := findNodeForValue_after_insert g v.vid g.nextId hkn
    { g with
      nodes := g.nodes ++ [⟨g.nextId, t, some v.vid, "", ""⟩],
      valueToNodeMap := mapInsert g.valueToNodeMap v.vid g.nextId,
      nextId := g.nextId + 1 } rfl
  refine ⟨Nat.le_succ _, fun e he => he, ?_, ?_, ?_, ?_, ?_⟩
  · intro w n h
    rw [hfa w]
    by_cases hw : w = v.vid
    · subst hw
      rw [hfind] at h
      exact Option.noConfusion h
    · simpa [hw] using h
  · intro m hm _
    unfold nodeTyD
    dsimp only
    rcases hfd : g.nodes.find? (fun nd => nd.nid == m) with _ | nd
    · rw [find_append_singleton_none _ _ _ hfd (by simp [Nat.ne_of_gt hm]), hfd]
    · rw [find_append_of_some _ _ _ _ hfd, hfd]
  · intro p hp
    dsimp only at hp
    rw [mapInsert_of_not_found _ _ _ hkn] at hp
    rcases List.mem_append.mp hp with h | h
    · exact Or.inl h
    · rcases List.mem_singleton.mp h with rfl
      exact Or.inr (Or.inl (Nat.le_refl _))
  · intro hb nd hnd
    dsimp only at hnd ⊢
    rcases List.mem_append.mp hnd with h | h
    · exact Nat.lt_succ_of_lt (hb nd h)
    · rcases List.mem_singleton.mp h with rfl
      exact Nat.lt_succ_self _
  · intro hmb p hp
    dsimp only at hp ⊢
    rw [mapInsert_of_not_found _ _ _ hkn] at hp
    rcases List.mem_append.mp hp with h | h
    · obtain ⟨hlt, nd, hnd, he⟩ := hmb p h
      exact ⟨Nat.lt_succ_of_lt hlt, nd, List.mem_append_left _ hnd, he⟩
    · rcases List.mem_singleton.mp h with rfl
      exact ⟨Nat.lt_succ_self _, ⟨g.nextId, t, some v.vid, "", ""⟩,
        List.mem_append_right _ (List.mem_singleton.mpr rfl), rfl⟩

theorem extends_getOrAddV7 (g : CustomDataflowGraph) (v : Value) :
    Extends g (getOrAddV7 g (some v)).1 := by
  rcases getOrAddV7_cases g v with he | ⟨n, _, he⟩ | ⟨hf, t, he⟩
  · rw [he]
    exact extends_refl g
  · rw [he]
    exact extends_refl g
  · rw [he]
    exact extends_create g v t hf

theorem extends_setNodeTy_mapped (g : CustomDataflowGraph) (key cn : Nat)
    (t : DataflowOperatorType) (hkey : key ≠ entryStreamKey)
    (hf : findNodeForValue g key = some cn) : Extends g (setNodeTy g cn t) := by
  have hbind : ∃ p ∈ g.valueToNodeMap, p.1 = key ∧ p.2 = cn := by
    unfold findNodeForValue at hf
    rcases hq : g.valueToNodeMap.find? (fun p => p.1 == key) with _ | p
    · rw [hq] at hf
      exact Option.noConfusion hf
    · rw [hq] at hf
      refine ⟨p, List.mem_of_find?_eq_some hq, ?_, ?_⟩
      · simpa using List.find?_some hq
      · simpa using hf
  refine ⟨Nat.le_refl _, fun e he => he, ?_, ?_, ?_, ?_, ?_⟩
  · intro w n h
    rw [find_congr (show (setNodeTy g cn t).valueToNodeMap = g.valueToNodeMap from rfl)]
    exact h
  · intro m _ hp
    obtain ⟨p, hpm, hp1, hp2⟩ := hbind
    have hcnm : cn ≠ m := hp2 ▸ hp p hpm (hp1 ▸ hkey)
    exact nodeTyD_setNodeTy_other g cn t m (fun h => hcnm h.symm)
  · intro p hp
    exact Or.inl hp
  · intro hb nd hnd
    rcases List.mem_map.mp hnd with ⟨x, hx, rfl⟩
    rw [updTy_nid cn t x]
    exact hb x hx
  · intro hmb p hp
    obtain ⟨hlt, hex⟩ := hmb p hp
    exact ⟨hlt, exists_nid_setNodeTy g cn t p.2 hex⟩

theorem condOkV7_parts (c : Value) (hc : condOkV7 c = true) :
    c.isCondBr = false ∧ c.isGEP = false ∧ c.isZExtOrSExt = false ∧
      c.vid ≠ entryStreamKey := by
  unfold condOkV7 at hc
  refine ⟨?_, ?_, ?_, ?_⟩
  · cases h : c.isCondBr
    · rfl
    · rw [h] at hc
      simp at hc
  · cases h : c.isGEP
    · rfl
    · rw [h] at hc
      simp at hc
  · cases h : c.isZExtOrSExt
    · rfl
    · rw [h] at hc
      simp at hc
  · intro h
    rw [h] at hc
    simp at hc

theorem extends_wireV7 (g : CustomDataflowGraph) (v : Value) (d : Nat) :
    Extends g (wireV7 g v d) :=
  extends_of_frame (wireV7_frame g v d).1 (wireV7_frame g v d).2.1
    (wireV7_frame g v d).2.2 (fun e he => wireV7_edges_mono g v d e he)

theorem extends_succWire (F : Func) (g : CustomDataflowGraph) (sb sN : Nat) :
    Extends g (succWire F g sb sN) := by
  unfold succWire
  cases F.findBlock sb with
  | none =>
      dsimp only
      exact extends_refl g
  | some b =>
      dsimp only
      cases skipPassThroughsV7 b with
      | none =>
          dsimp only
          exact extends_refl g
      | some realI =>
          dsimp only
          exact extends_trans (extends_getOrAddV7 g realI) (extends_addEdge _ _ _)

theorem extends_addNode_none (g : CustomDataflowGraph) (t : DataflowOperatorType)
    (lab : String) : Extends g (addNode g t none lab).1 := by
  refine ⟨by rw [addNode_nextId]; exact Nat.le_succ _, fun e he => ?_, ?_, ?_, ?_, ?_, ?_⟩
  · have : (addNode g t none lab).1.edges = g.edges := by
      unfold addNode
      rfl
    rw [this]
    exact he
  · intro w n h
    rw [find_congr (show (addNode g t none lab).1.valueToNodeMap = g.valueToNodeMap from rfl)]
    exact h
  · intro m hm _
    unfold nodeTyD
    rw [addNode_nodes_eq]
    rcases hfd : g.nodes.find? (fun nd => nd.nid == m) with _ | nd
    · rw [find_append_singleton_none _ _ _ hfd (by simp [Nat.ne_of_gt hm]), hfd]
    · rw [find_append_of_some _ _ _ _ hfd, hfd]
  · intro p hp
    exact Or.inl hp
  · intro hb
    exact bound_addNode g t none lab hb
  · intro hmb p hp
    obtain ⟨hlt, nd, hnd, he⟩ := hmb p hp
    refine ⟨by rw [addNode_nextId]; exact Nat.lt_succ_of_lt hlt, nd, ?_, he⟩
    rw [addNode_nodes_eq]
    exact List.mem_append_left _ hnd

theorem createSteersV7_tail (g0 gA : CustomDataflowGraph) (c : Value) (cn : Nat)
    (hga : getOrAddV7 g0 (some c) = (gA, some cn))
    (hkey : c.vid ≠ entryStreamKey)
    (hg : c.isGEP = false) (hz : c.isZExtOrSExt = false)
    (hfA : findNodeForValue gA c.vid = some cn)
    (hcnex : ∃ nd ∈ gA.nodes, nd.nid = cn)
    (hAA : ∀ nd ∈ gA.nodes, nd.nid < gA.nextId)
    (hBB : ∀ p ∈ gA.valueToNodeMap, p.2 < gA.nextId ∧ ∃ nd ∈ gA.nodes, nd.nid = p.2) :
    ∃ g1 tS fS, createSteersV7 g0 c none none = (g1, tS, fS) ∧
      Extends gA g1 ∧ gA.nextId ≤ tS ∧ fS = tS + 1 ∧ fS < g1.nextId ∧
      nodeTyD g1 tS = DataflowOperatorType.TrueSteer ∧
      nodeTyD g1 fS = DataflowOperatorType.FalseSteer ∧
      (∃ cn', findNodeForValue g1 c.vid = some cn' ∧
        (cn', tS) ∈ g1.edges ∧ (cn', fS) ∈ g1.edges) ∧
      ProtectedId g1 tS ∧ ProtectedId g1 fS ∧
      (∀ nd ∈ g1.nodes, nd.nid < g1.nextId) ∧
      (∀ p ∈ g1.valueToNodeMap, p.2 < g1.nextId ∧ ∃ nd ∈ g1.nodes, nd.nid = p.2) ∧
      g1.valueToNodeMap = gA.valueToNodeMap := by
  have hred : createSteersV7 g0 c none none =
      (wireV7 (wireV7 (addNode (addNode
          (setNodeTy gA cn DataflowOperatorType.BasicBinaryOp)
          DataflowOperatorType.TrueSteer none "T").1
          DataflowOperatorType.FalseSteer none "F").1 c gA.nextId) c (gA.nextId + 1),
        gA.nextId, gA.nextId + 1) := by
    unfold createSteersV7
    rw [hga]
    rfl
  set S1 := setNodeTy gA cn DataflowOperatorType.BasicBinaryOp with hS1def
  set A1 := (addNode S1 DataflowOperatorType.TrueSteer none "T").1 with hA1def
  set A2 := (addNode A1 DataflowOperatorType.FalseSteer none "F").1 with hA2def
  set W1 := wireV7 A2 c gA.nextId with hW1def
  set W2 := wireV7 W1 c (gA.nextId + 1) with hW2def
  have hextS1 : Extends gA S1 := extends_setNodeTy_mapped gA c.vid cn _ hkey hfA
  have hAS1 : ∀ nd ∈ S1.nodes, nd.nid < S1.nextId := hextS1.2.2.2.2.2.1 hAA
  have hcnexS1 : ∃ nd ∈ S1.nodes, nd.nid = cn := exists_nid_setNodeTy gA cn _ cn hcnex
  have htycnS1 : nodeTyD S1 cn = DataflowOperatorType.BasicBinaryOp :=
    nodeTyD_setNodeTy_self gA cn _ hcnex
  have hextA1 : Extends S1 A1 := by
    rw [hA1def]
    exact extends_addNode_none S1 _ "T"
  have hextA2 : Extends A1 A2 := by
    rw [hA2def]
    exact extends_addNode_none A1 _ "F"
  have hAA1 : ∀ nd ∈ A1.nodes, nd.nid < A1.nextId := hextA1.2.2.2.2.2.1 hAS1
  have htyT1 : nodeTyD A1 gA.nextId = DataflowOperatorType.TrueSteer :=
    nodeTyD_addNode_fresh S1 DataflowOperatorType.TrueSteer none "T" hAS1
  have hexT_A1 : ∃ nd ∈ A1.nodes, nd.nid = gA.nextId := by
    rw [hA1def, addNode_nodes_eq]
    exact ⟨⟨S1.nextId, DataflowOperatorType.TrueSteer, none, "T", ""⟩,
      List.mem_append_right _ (List.mem_singleton.mpr rfl), rfl⟩
  have htyT2 : nodeTyD A2 gA.nextId = DataflowOperatorType.TrueSteer := by
    rw [hA2def, nodeTyD_addNode A1 _ none "F" _ hexT_A1]
    exact htyT1
  have htyF2 : nodeTyD A2 (gA.nextId + 1) = DataflowOperatorType.FalseSteer :=
    nodeTyD_addNode_fresh A1 DataflowOperatorType.FalseSteer none "F" hAA1
  have hmapA2 : A2.valueToNodeMap = gA.valueToNodeMap := rfl
  have hfA2 : findNodeForValue A2 c.vid = some cn := by
    rw [find_congr hmapA2]
    exact hfA
  have hcnexA1 : ∃ nd ∈ A1.nodes, nd.nid = cn := by
    rw [hA1def, addNode_nodes_eq]
    obtain ⟨nd, hnd, he⟩ := hcnexS1
    exact ⟨nd, List.mem_append_left _ hnd, he⟩
  have hcnexA2 : ∃ nd ∈ A2.nodes, nd.nid = cn := by
    rw [hA2def, addNode_nodes_eq]
    obtain ⟨nd, hnd, he⟩ := hcnexA1
    exact ⟨nd, List.mem_append_left _ hnd, he⟩
  have htycnA2 : nodeTyD A2 cn = DataflowOperatorType.BasicBinaryOp := by
    rw [hA2def, nodeTyD_addNode A1 _ none "F" cn hcnexA1,
      hA1def, nodeTyD_addNode S1 _ none "T" cn hcnexS1]
    exact htycnS1
  have hfrW1 := wireV7_frame A2 c gA.nextId
  have hfrW2 := wireV7_frame W1 c (gA.nextId + 1)
  have hedge1 : (cn, gA.nextId) ∈ W1.edges := by
    rw [hW1def]
    exact wireV7_found_typed A2 c gA.nextId cn hg hz hfA2 (by rw [htycnA2]; decide)
  have hfW1 : findNodeForValue W1 c.vid = some cn := by
    rw [hW1def, find_congr hfrW1.2.1]
    exact hfA2
  have htycnW1 : nodeTyD W1 cn = DataflowOperatorType.BasicBinaryOp := by
    rw [hW1def, congrFun (nodeTyD_congr hfrW1.1) cn]
    exact htycnA2
  have hedge2 : (cn, gA.nextId + 1) ∈ W2.edges := by
    rw [hW2def]
    exact wireV7_found_typed W1 c (gA.nextId + 1) cn hg hz hfW1 (by rw [htycnW1]; decide)
  have hedge1f : (cn, gA.nextId) ∈ W2.edges := by
    rw [hW2def]
    exact wireV7_edges_mono W1 c _ _ hedge1
  have hmapW2 : W2.valueToNodeMap = gA.valueToNodeMap := by
    rw [hW2def, hfrW2.2.1, hW1def, hfrW1.2.1, hmapA2]
  have hnodesW2 : W2.nodes = A2.nodes := by
    rw [hW2def, hfrW2.1, hW1def, hfrW1.1]
  have hnextW2 : W2.nextId = A2.nextId := by
    rw [hW2def, hfrW2.2.2, hW1def, hfrW1.2.2]
  have hnextA2 : A2.nextId = gA.nextId + 2 := rfl
  have htyT : nodeTyD W2 gA.nextId = DataflowOperatorType.TrueSteer := by
    rw [congrFun (nodeTyD_congr hnodesW2) _]
    exact htyT2
  have htyF : nodeTyD W2 (gA.nextId + 1) = DataflowOperatorType.FalseSteer := by
    rw [congrFun (nodeTyD_congr hnodesW2) _]
    exact htyF2
  have hprotT : ProtectedId W2 gA.nextId := by
    intro p hp _
    rw [hmapW2] at hp
    exact Nat.ne_of_lt (hBB p hp).1
  have hprotF : ProtectedId W2 (gA.nextId + 1) := by
    intro p hp _
    rw [hmapW2] at hp
    exact Nat.ne_of_lt (Nat.lt_succ_of_lt (hBB p hp).1)
  have hAW2 : ∀ nd ∈ W2.nodes, nd.nid < W2.nextId := by
    rw [hnodesW2, hnextW2]
    exact hextA2.2.2.2.2.2.1 hAA1
  have hBW2 : ∀ p ∈ W2.valueToNodeMap, p.2 < W2.nextId ∧ ∃ nd ∈ W2.nodes, nd.nid = p.2 := by
    intro p hp
    rw [hmapW2] at hp
    obtain ⟨hlt, nd, hnd, he⟩ := hBB p hp
    refine ⟨by rw [hnextW2, hnextA2]; omega, ?_⟩
    rw [hnodesW2, hA2def, addNode_nodes_eq, hA1def, addNode_nodes_eq]
    obtain ⟨nd', hnd', he'⟩ :=
      exists_nid_setNodeTy gA cn DataflowOperatorType.BasicBinaryOp p.2 ⟨nd, hnd, he⟩
    exact ⟨nd', List.mem_append_left _ (List.mem_append_left _ hnd'), he'⟩
  have hfW2 : findNodeForValue W2 c.vid = some cn := by
    rw [find_congr hmapW2]
    exact hfA
  have hextW1 : Extends A2 W1 := by
    rw [hW1def]
    exact extends_wireV7 A2 c gA.nextId
  have hextW2 : Extends W1 W2 := by
    rw [hW2def]
    exact extends_wireV7 W1 c (gA.nextId + 1)
  have hlt : gA.nextId + 1 < W2.nextId := by
    rw [hnextW2, hnextA2]
    omega
  exact ⟨W2, gA.nextId, gA.nextId + 1, hred,
    extends_trans hextS1 (extends_trans hextA1 (extends_trans hextA2
      (extends_trans hextW1 hextW2))),
    Nat.le_refl _, rfl, hlt, htyT, htyF, ⟨cn, hfW2, hedge1f, hedge2⟩,
    hprotT, hprotF, hAW2, hBW2, hmapW2⟩

theorem createSteersV7_facts (g0 : CustomDataflowGraph) (c : Value)
    (hc : condOkV7 c = true)
    (hA : ∀ nd ∈ g0.nodes, nd.nid < g0.nextId)
    (hB : ∀ p ∈ g0.valueToNodeMap, p.2 < g0.nextId ∧ ∃ nd ∈ g0.nodes, nd.nid = p.2) :
    ∃ g1 tS fS, createSteersV7 g0 c none none = (g1, tS, fS) ∧
      Extends g0 g1 ∧ g0.nextId ≤ tS ∧ fS = tS + 1 ∧ fS < g1.nextId ∧
      nodeTyD g1 tS = DataflowOperatorType.TrueSteer ∧
      nodeTyD g1 fS = DataflowOperatorType.FalseSteer ∧
      (∃ cn, findNodeForValue g1 c.vid = some cn ∧
        (cn, tS) ∈ g1.edges ∧ (cn, fS) ∈ g1.edges) ∧
      ProtectedId g1 tS ∧ ProtectedId g1 fS ∧
      (∀ nd ∈ g1.nodes, nd.nid < g1.nextId) ∧
      (∀ p ∈ g1.valueToNodeMap, p.2 < g1.nextId ∧ ∃ nd ∈ g1.nodes, nd.nid = p.2) ∧
      findNodeForValue g1 entryStreamKey = findNodeForValue g0 entryStreamKey := by
  obtain ⟨hcb, hcg, hcz, hcs⟩ := condOkV7_parts c hc
  rcases getOrAddV7_found_or_created g0 c hcb (by simp [hcg, hcz]) with
    ⟨cn, hf0, hga⟩ | ⟨hf0, t, hga⟩
  · have hf0' := hf0
    have hbind : ∃ p ∈ g0.valueToNodeMap, p.1 = c.vid ∧ p.2 = cn := by
      unfold findNodeForValue at hf0'
      rcases hq : g0.valueToNodeMap.find? (fun p => p.1 == c.vid) with _ | p
      · rw [hq] at hf0'
        exact Option.noConfusion hf0'
      · rw [hq] at hf0'
        refine ⟨p, List.mem_of_find?_eq_some hq, ?_, ?_⟩
        · simpa using List.find?_some hq
        · simpa using hf0'
    obtain ⟨p0, hp0, hp01, hp02⟩ := hbind
    obtain ⟨g1, tS, fS, hcr, hext, hle, hfs, hltn, h6, h7, h8, h9, h10, h11, h12, hmapeq⟩ :=
      createSteersV7_tail g0 g0 c cn hga hcs hcg hcz hf0
        (hp02 ▸ (hB p0 hp0).2) hA hB
    exact ⟨g1, tS, fS, hcr, hext, hle, hfs, hltn, h6, h7, h8, h9, h10, h11, h12,
      congrFun (find_congr hmapeq) entryStreamKey⟩
  · have hextC := extends_create g0 c t hf0
    have hkn : g0.valueToNodeMap.find? (fun p => p.1 == c.vid) = none :=
      (findNodeForValue_eq_none_iff g0 c.vid).mp hf0
    have hfa := findNodeForValue_after_insert g0 c.vid g0.nextId hkn
      { g0 with
        nodes := g0.nodes ++ [⟨g0.nextId, t, some c.vid, "", ""⟩],
        valueToNodeMap := mapInsert g0.valueToNodeMap c.vid g0.nextId,
        nextId := g0.nextId + 1 } rfl
    have hfA : findNodeForValue
        { g0 with
          nodes := g0.nodes ++ [⟨g0.nextId, t, some c.vid, "", ""⟩],
          valueToNodeMap := mapInsert g0.valueToNodeMap c.vid g0.nextId,
          nextId := g0.nextId + 1 } c.vid = some g0.nextId := by
      rw [hfa c.vid]
      simp
    have hcnex : ∃ nd ∈ ({ g0 with
        nodes := g0.nodes ++ [⟨g0.nextId, t, some c.vid, "", ""⟩],
        valueToNodeMap := mapInsert g0.valueToNodeMap c.vid g0.nextId,
        nextId := g0.nextId + 1 } : CustomDataflowGraph).nodes, nd.nid = g0.nextId :=
      ⟨⟨g0.nextId, t, some c.vid, "", ""⟩,
        List.mem_append_right _ (List.mem_singleton.mpr rfl), rfl⟩
    obtain ⟨g1, tS, fS, hcr, hext, hle, hfs, hltn, h6, h7, h8, h9, h10, h11, h12, hmapeq⟩ :=
      createSteersV7_tail g0 _ c g0.nextId hga hcs hcg hcz hfA hcnex
        (hextC.2.2.2.2.2.1 hA) (hextC.2.2.2.2.2.2 hB)
    refine ⟨g1, tS, fS, hcr, extends_trans hextC hext,
      Nat.le_trans (Nat.le_succ _) hle, hfs, hltn, h6, h7, h8, h9, h10, h11, h12, ?_⟩
    rw [congrFun (find_congr hmapeq) entryStreamKey, hfa entryStreamKey]
    rw [if_neg (fun h => hcs h.symm)]

theorem extends_stream_create (g : CustomDataflowGraph)
    (hf : findNodeForValue g entryStreamKey = none) :
    Extends g
      { (addNode g DataflowOperatorType.Stream none "STR").1 with
        valueToNodeMap := mapInsert
          (addNode g DataflowOperatorType.Stream none "STR").1.valueToNodeMap
          entryStreamKey (addNode g DataflowOperatorType.Stream none "STR").2 } := by
  have hkn : g.valueToNodeMap.find? (fun p => p.1 == entryStreamKey) = none :=
    (findNodeForValue_eq_none_iff g entryStreamKey).mp hf
  have hfa := findNodeForValue_after_insert g entryStreamKey g.nextId hkn
    { (addNode g DataflowOperatorType.Stream none "STR").1 with
      valueToNodeMap := mapInsert
        (addNode g DataflowOperatorType.Stream none "STR").1.valueToNodeMap
        entryStreamKey (addNode g DataflowOperatorType.Stream none "STR").2 } rfl
  refine ⟨Nat.le_succ _, fun e he => he, ?_, ?_, ?_, ?_, ?_⟩
  · intro w n h
    rw [hfa w]
    by_cases hw : w = entryStreamKey
    · subst hw
      rw [hf] at h
      exact Option.noConfusion h
    · simpa [hw] using h
  · intro m hm _
    unfold nodeTyD
    rw [show ({ (addNode g DataflowOperatorType.Stream none "STR").1 with
        valueToNodeMap := mapInsert
          (addNode g DataflowOperatorType.Stream none "STR").1.valueToNodeMap
          entryStreamKey (addNode g DataflowOperatorType.Stream none "STR").2 }
        : CustomDataflowGraph).nodes =
      g.nodes ++ [⟨g.nextId, DataflowOperatorType.Stream, none, "STR", ""⟩] from rfl]
    rcases hfd : g.nodes.find? (fun nd => nd.nid == m) with _ | nd
    · rw [find_append_singleton_none _ _ _ hfd (by simp [Nat.ne_of_gt hm]), hfd]
    · rw [find_append_of_some _ _ _ _ hfd, hfd]
  · intro p hp
    rw [show ({ (addNode g DataflowOperatorType.Stream none "STR").1 with
        valueToNodeMap := mapInsert
          (addNode g DataflowOperatorType.Stream none "STR").1.valueToNodeMap
          entryStreamKey (addNode g DataflowOperatorType.Stream none "STR").2 }
        : CustomDataflowGraph).valueToNodeMap =
      mapInsert g.valueToNodeMap entryStreamKey g.nextId from rfl,
      mapInsert_of_not_found _ _ _ hkn] at hp
    rcases List.mem_append.mp hp with h | h
    · exact Or.inl h
    · rcases List.mem_singleton.mp h with rfl
      exact Or.inr (Or.inr rfl)
  · intro hb nd hnd
    rw [show ({ (addNode g DataflowOperatorType.Stream none "STR").1 with
        valueToNodeMap := mapInsert
          (addNode g DataflowOperatorType.Stream none "STR").1.valueToNodeMap
          entryStreamKey (addNode g DataflowOperatorType.Stream none "STR").2 }
        : CustomDataflowGraph).nodes =
      g.nodes ++ [⟨g.nextId, DataflowOperatorType.Stream, none, "STR", ""⟩] from rfl] at hnd
    rcases List.mem_append.mp hnd with h | h
    · exact Nat.lt_succ_of_lt (hb nd h)
    · rcases List.mem_singleton.mp h with rfl
      exact Nat.lt_succ_self _
  · intro hmb p hp
    rw [show ({ (addNode g DataflowOperatorType.Stream none "STR").1 with
        valueToNodeMap := mapInsert
          (addNode g DataflowOperatorType.Stream none "STR").1.valueToNodeMap
          entryStreamKey (addNode g DataflowOperatorType.Stream none "STR").2 }
        : CustomDataflowGraph).valueToNodeMap =
      mapInsert g.valueToNodeMap entryStreamKey g.nextId from rfl,
      mapInsert_of_not_found _ _ _ hkn] at hp
    rcases List.mem_append.mp hp with h | h
    · obtain ⟨hlt, nd, hnd, he⟩ := hmb p h
      exact ⟨Nat.lt_succ_of_lt hlt, nd, List.mem_append_left _ hnd, he⟩
    · rcases List.mem_singleton.mp h with rfl
      exact ⟨Nat.lt_succ_self _,
        ⟨g.nextId, DataflowOperatorType.Stream, none, "STR", ""⟩,
        List.mem_append_right _ (List.mem_singleton.mpr rfl), rfl⟩

theorem streamGet_facts (g : CustomDataflowGraph)
    (hA : ∀ nd ∈ g.nodes, nd.nid < g.nextId)
    (hB : ∀ p ∈ g.valueToNodeMap, p.2 < g.nextId ∧ ∃ nd ∈ g.nodes, nd.nid = p.2)
    (hD : ∀ strm, findNodeForValue g entryStreamKey = some strm →
      strm < g.nextId ∧ nodeTyD g strm = DataflowOperatorType.Stream ∧
        ProtectedId g strm) :
    ∃ gS strm, getOrCreateFuncEntryStream g = (gS, strm) ∧
      Extends g gS ∧
      findNodeForValue gS entryStreamKey = some strm ∧
      strm < gS.nextId ∧
      nodeTyD gS strm = DataflowOperatorType.Stream ∧
      ProtectedId gS strm ∧
      (∀ nd ∈ gS.nodes, nd.nid < gS.nextId) ∧
      (∀ p ∈ gS.valueToNodeMap, p.2 < gS.nextId ∧ ∃ nd ∈ gS.nodes, nd.nid = p.2) := by
  cases hf : findNodeForValue g entryStreamKey with
  | some n =>
      obtain ⟨h1, h2, h3⟩ := hD n hf
      refine ⟨g, n, ?_, extends_refl g, hf, h1, h2, h3, hA, hB⟩
      unfold getOrCreateFuncEntryStream
      rw [hf]
  | none =>
      have hext := extends_stream_create g hf
      have hkn : g.valueToNodeMap.find? (fun p => p.1 == entryStreamKey) = none :=
        (findNodeForValue_eq_none_iff g entryStreamKey).mp hf
      have hfa := findNodeForValue_after_insert g entryStreamKey g.nextId hkn
        { (addNode g DataflowOperatorType.Stream none "STR").1 with
          valueToNodeMap := mapInsert
            (addNode g DataflowOperatorType.Stream none "STR").1.valueToNodeMap
            entryStreamKey (addNode g DataflowOperatorType.Stream none "STR").2 } rfl
      refine ⟨_, g.nextId, ?_, hext, ?_, Nat.lt_succ_self _, ?_, ?_,
        hext.2.2.2.2.2.1 hA, hext.2.2.2.2.2.2 hB⟩
      · unfold getOrCreateFuncEntryStream
        rw [hf]
        rfl
      · rw [hfa entryStreamKey]
        simp
      · unfold nodeTyD
        rw [show ({ (addNode g DataflowOperatorType.Stream none "STR").1 with
            valueToNodeMap := mapInsert
              (addNode g DataflowOperatorType.Stream none "STR").1.valueToNodeMap
              entryStreamKey (addNode g DataflowOperatorType.Stream none "STR").2 }
            : CustomDataflowGraph).nodes =
          g.nodes ++ [⟨g.nextId, DataflowOperatorType.Stream, none, "STR", ""⟩] from rfl,
          find_ty_append_fresh g.nodes g.nextId _ hA rfl]
        rfl
      · intro p hp hps
        rw [show ({ (addNode g DataflowOperatorType.Stream none "STR").1 with
            valueToNodeMap := mapInsert
              (addNode g DataflowOperatorType.Stream none "STR").1.valueToNodeMap
              entryStreamKey (addNode g DataflowOperatorType.Stream none "STR").2 }
            : CustomDataflowGraph).valueToNodeMap =
          mapInsert g.valueToNodeMap entryStreamKey g.nextId from rfl,
          mapInsert_of_not_found _ _ _ hkn] at hp
        rcases List.mem_append.mp hp with h | h
        · exact Nat.ne_of_lt (hB p h).1
        · rcases List.mem_singleton.mp h with rfl
          exact absurd rfl hps

theorem branchStep_facts (F : Func) (acc : CustomDataflowGraph × List (Nat × Nat × Nat))
    (bvid t f : Nat) (c : Value) (rest : List Value)
    (hc : condOkV7 c = true) (hinv : PassInv acc) :
    Extends acc.1 (branchStep F acc (.inst bvid (.condbr t f) (c :: rest))).1 ∧
    PassInv (branchStep F acc (.inst bvid (.condbr t f) (c :: rest))) ∧
    (∃ tS fS,
      (branchStep F acc (.inst bvid (.condbr t f) (c :: rest))).2 =
        assocInsert acc.2 bvid (tS, fS) ∧
      acc.1.nextId ≤ tS ∧ acc.1.nextId ≤ fS ∧
      BranchDone (branchStep F acc (.inst bvid (.condbr t f) (c :: rest))).1
        (branchStep F acc (.inst bvid (.condbr t f) (c :: rest))).2 bvid c) := by
  obtain ⟨hA0, hB0, hC0, hD0, hE0⟩ := hinv
  obtain ⟨g1, tS, fS, hcr, hext1, hle, hfseq, hflt, htyT1, htyF1,
    ⟨cn, hfcn1, hce1, hce2⟩, hprT1, hprF1, hA1, hB1, hsent1⟩ :=
    createSteersV7_facts acc.1 c hc hA0 hB0
  have hD1 : ∀ strm, findNodeForValue g1 entryStreamKey = some strm →
      strm < g1.nextId ∧ nodeTyD g1 strm = DataflowOperatorType.Stream ∧
        ProtectedId g1 strm := by
    intro strm h
    rw [hsent1] at h
    obtain ⟨hd1, hd2, hd3⟩ := hD0 strm h
    refine ⟨Nat.lt_of_lt_of_le hd1 hext1.1, ?_, protectedId_transfer hext1 hd1 hd3⟩
    rw [hext1.2.2.2.1 strm hd1 hd3]
    exact hd2
  obtain ⟨gS, strm, hsg, hext2, hsf, hslt, hsty, hsprot, hAS, hBS⟩ :=
    streamGet_facts g1 hA1 hB1 hD1
  have hstep : branchStep F acc (Value.inst bvid (.condbr t f) (c :: rest)) =
      (succWire F (succWire F
          (addEdge (addEdge gS (some strm) (some tS)) (some strm) (some fS)) t tS) f fS,
        assocInsert acc.2 bvid (tS, fS)) := by
    unfold branchStep
    dsimp only
    rw [hcr]
    dsimp only
    rw [hsg]
  rw [hstep]
  set E2 := addEdge (addEdge gS (some strm) (some tS)) (some strm) (some fS) with hE2def
  set U2 := succWire F (succWire F E2 t tS) f fS with hU2def
  have hextE2 : Extends gS E2 := by
    rw [hE2def]
    exact extends_trans (extends_addEdge gS _ _) (extends_addEdge _ _ _)
  have hextU2 : Extends E2 U2 := by
    rw [hU2def]
    exact extends_trans (extends_succWire F E2 t tS) (extends_succWire F _ f fS)
  have hextg1U : Extends g1 U2 := extends_trans hext2 (extends_trans hextE2 hextU2)
  have hextSU : Extends gS U2 := extends_trans hextE2 hextU2
  have hextFull : Extends acc.1 U2 := extends_trans hext1 hextg1U
  have hse1 : (strm, tS) ∈ E2.edges := by
    rw [hE2def]
    exact addEdge_edges_mono _ _ _ _ ((mem_addEdge_edges gS strm tS _).mpr (Or.inr rfl))
  have hse2 : (strm, fS) ∈ E2.edges := by
    rw [hE2def]
    exact (mem_addEdge_edges _ strm fS _).mpr (Or.inr rfl)
  have hseU1 : (strm, tS) ∈ U2.edges := hextU2.2.1 _ hse1
  have hseU2 : (strm, fS) ∈ U2.edges := hextU2.2.1 _ hse2
  have hceU1 : (cn, tS) ∈ U2.edges := hextg1U.2.1 _ hce1
  have hceU2 : (cn, fS) ∈ U2.edges := hextg1U.2.1 _ hce2
  have hfcnU : findNodeForValue U2 c.vid = some cn := hextg1U.2.2.1 _ _ hfcn1
  have htSlt1 : tS < g1.nextId := by omega
  have htyTU : nodeTyD U2 tS = DataflowOperatorType.TrueSteer := by
    rw [hextg1U.2.2.2.1 tS htSlt1 hprT1]
    exact htyT1
  have htyFU : nodeTyD U2 fS = DataflowOperatorType.FalseSteer := by
    rw [hextg1U.2.2.2.1 fS hflt hprF1]
    exact htyF1
  have hstyU : nodeTyD U2 strm = DataflowOperatorType.Stream := by
    rw [hextSU.2.2.2.1 strm hslt hsprot]
    exact hsty
  have hsfU : findNodeForValue U2 entryStreamKey = some strm := hextSU.2.2.1 _ _ hsf
  have hAU : ∀ nd ∈ U2.nodes, nd.nid < U2.nextId := hextSU.2.2.2.2.2.1 hAS
  have hBU : ∀ p ∈ U2.valueToNodeMap, p.2 < U2.nextId ∧ ∃ nd ∈ U2.nodes, nd.nid = p.2 :=
    hextSU.2.2.2.2.2.2 hBS
  have hprTU : ProtectedId U2 tS := protectedId_transfer hextg1U htSlt1 hprT1
  have hprFU : ProtectedId U2 fS := protectedId_transfer hextg1U hflt hprF1
  have hprSU : ProtectedId U2 strm := protectedId_transfer hextSU hslt hsprot
  have hbsfind : (assocInsert acc.2 bvid (tS, fS)).find? (fun q => q.1 == bvid) =
      some (bvid, tS, fS) := assocInsert_find_self acc.2 bvid (tS, fS)
  refine ⟨hextFull, ⟨hAU, hBU, ?_, ?_, ?_⟩, tS, fS, rfl, hle, by omega, ?_⟩
  · intro q hq
    rcases mem_assocInsert acc.2 bvid (tS, fS) q hq with hold | rfl
    · obtain ⟨hq1, hq2, hq3, hq4⟩ := hC0 q hold
      exact ⟨Nat.lt_of_lt_of_le hq1 hextFull.1, Nat.lt_of_lt_of_le hq2 hextFull.1,
        protectedId_transfer hextFull hq1 hq3, protectedId_transfer hextFull hq2 hq4⟩
    · exact ⟨Nat.lt_of_lt_of_le htSlt1 hextg1U.1, Nat.lt_of_lt_of_le hflt hextg1U.1,
        hprTU, hprFU⟩
  · intro strm' h
    rw [hsfU] at h
    obtain rfl := Option.some.inj h
    exact ⟨Nat.lt_of_lt_of_le hslt hextSU.1, hstyU, hprSU⟩
  · intro q hq q' hq'
    rcases mem_assocInsert acc.2 bvid (tS, fS) q hq with hqo | rfl <;>
      rcases mem_assocInsert acc.2 bvid (tS, fS) q' hq' with hq'o | rfl
    · exact hE0 q hqo q' hq'o
    · intro _
      obtain ⟨hb1, hb2, _, _⟩ := hC0 q hqo
      refine ⟨?_, ?_, ?_, ?_⟩ <;> dsimp only <;> omega
    · intro _
      obtain ⟨hb1, hb2, _, _⟩ := hC0 q' hq'o
      refine ⟨?_, ?_, ?_, ?_⟩ <;> dsimp only <;> omega
    · intro hne
      exact absurd rfl hne
  · exact ⟨tS, fS, hbsfind, by omega, htyTU, htyFU, ⟨cn, hfcnU, hceU1, hceU2⟩,
      ⟨strm, hsfU, hstyU, hseU1, hseU2⟩⟩

theorem branchStep_skip (F : Func) (acc : CustomDataflowGraph × List (Nat × Nat × Nat))
    (i : Value)
    (hni : ∀ bvid t f c rest, i ≠ .inst bvid (.condbr t f) (c :: rest)) :
    branchStep F acc i = acc := by
  unfold branchStep
  cases i with
  | inst vid k ops =>
      cases k
      case condbr t f =>
        cases ops with
        | nil => rfl
        | cons c rest => exact absurd rfl (hni vid t f c rest)
      all_goals rfl
  | arg v n => rfl
  | constInt v l => rfl
  | funcSym v n => rfl

theorem branchDone_transfer {g g' : CustomDataflowGraph}
    {bs bs' : List (Nat × Nat × Nat)} {bvid0 : Nat} {c0 : Value}
    (hinv : PassInv (g, bs)) (hx : Extends g g')
    (hbs : bs'.find? (fun q => q.1 == bvid0) = bs.find? (fun q => q.1 == bvid0))
    (hd : BranchDone g bs bvid0 c0) : BranchDone g' bs' bvid0 c0 := by
  obtain ⟨tS, fS, hfq, hne, htT, htF, ⟨cn, hcn, he1, he2⟩,
    strm, hstrm, hstrmty, he3, he4⟩ := hd
  obtain ⟨_, _, hC, hD, _⟩ := hinv
  have hmem := List.mem_of_find?_eq_some hfq
  have hq := hC _ hmem
  have hDs := hD strm hstrm
  refine ⟨tS, fS, by rw [hbs]; exact hfq, hne, ?_, ?_,
    ⟨cn, hx.2.2.1 _ _ hcn, hx.2.1 _ he1, hx.2.1 _ he2⟩,
    ⟨strm, hx.2.2.1 _ _ hstrm, ?_, hx.2.1 _ he3, hx.2.1 _ he4⟩⟩
  · rw [hx.2.2.2.1 tS hq.1 hq.2.2.1]
    exact htT
  · rw [hx.2.2.2.1 fS hq.2.1 hq.2.2.2]
    exact htF
  · rw [hx.2.2.2.1 strm hDs.1 hDs.2.2]
    exact hstrmty

theorem branchFold_facts (F : Func) (l : List Value) :
    ∀ acc : CustomDataflowGraph × List (Nat × Nat × Nat),
      PassInv acc →
      (∀ i ∈ l, ∀ bvid t f c rest,
        i = Value.inst bvid (.condbr t f) (c :: rest) → condOkV7 c = true) →
      (∀ i ∈ l, ∀ bvid t f c rest, i = Value.inst bvid (.condbr t f) (c :: rest) →
        ∀ q ∈ acc.2, bvid ≠ q.1) →
      ((l.filter Value.isCondBr).map Value.vid).Nodup →
      PassInv (l.foldl (branchStep F) acc) ∧
      (∀ bvid0 c0, BranchDone acc.1 acc.2 bvid0 c0 →
        BranchDone (l.foldl (branchStep F) acc).1
          (l.foldl (branchStep F) acc).2 bvid0 c0) ∧
      (∀ i ∈ l, ∀ bvid t f c rest, i = Value.inst bvid (.condbr t f) (c :: rest) →
        BranchDone (l.foldl (branchStep F) acc).1
          (l.foldl (branchStep F) acc).2 bvid c) := by
  induction l with
  | nil =>
      intro acc hinv _ _ _
      exact ⟨hinv, fun _ _ hd => hd, fun i hi => absurd hi (List.not_mem_nil i)⟩
  | cons i l ih =>
      intro acc hinv hok hkeys hnd
      rw [List.foldl_cons]
      by_cases hib : ∃ bvid t f c rest, i = Value.inst bvid (.condbr t f) (c :: rest)
      · obtain ⟨bvid, t, f, c, rest, rfl⟩ := hib
        have hc : condOkV7 c = true :=
          hok _ (List.mem_cons_self ..) bvid t f c rest rfl
        obtain ⟨hext, hinv', tS, fS, hbs, hletS, hlefS, hdone⟩ :=
          branchStep_facts F acc bvid t f c rest hc hinv
        have hhead : (((Value.inst bvid (.condbr t f) (c :: rest)) :: l).filter
            Value.isCondBr).map Value.vid =
            bvid :: (l.filter Value.isCondBr).map Value.vid := by
          rw [List.filter_cons_of_pos (by rfl)]
          rfl
        rw [hhead] at hnd
        have hvidnotin : ∀ j ∈ l, ∀ bvid' t' f' c' rest',
            j = Value.inst bvid' (.condbr t' f') (c' :: rest') → bvid' ≠ bvid := by
          intro j hj bvid' t' f' c' rest' hje he
          have hjc : j.isCondBr = true := by
            rw [hje]
            rfl
          have hjv : bvid' ∈ (l.filter Value.isCondBr).map Value.vid := by
            refine List.mem_map.mpr ⟨j, List.mem_filter.mpr ⟨hj, hjc⟩, ?_⟩
            rw [hje]
            rfl
          rw [he] at hjv
          exact (List.nodup_cons.mp hnd).1 hjv
        have hkeys' : ∀ j ∈ l, ∀ bvid' t' f' c' rest',
            j = Value.inst bvid' (.condbr t' f') (c' :: rest') →
            ∀ q ∈ (branchStep F acc (Value.inst bvid (.condbr t f) (c :: rest))).2,
              bvid' ≠ q.1 := by
          intro j hj bvid' t' f' c' rest' hje q hq
          rw [hbs] at hq
          rcases mem_assocInsert _ _ _ q hq with hold | rfl
          · exact hkeys j (List.mem_cons_of_mem _ hj) bvid' t' f' c' rest' hje q hold
          · exact hvidnotin j hj bvid' t' f' c' rest' hje
        obtain ⟨hP, hpersist, hestab⟩ :=
          ih (branchStep F acc (Value.inst bvid (.condbr t f) (c :: rest))) hinv'
            (fun j hj => hok j (List.mem_cons_of_mem _ hj)) hkeys'
            (List.nodup_cons.mp hnd).2
        refine ⟨hP, ?_, ?_⟩
        · intro bvid0 c0 hd0
          refine hpersist bvid0 c0 (branchDone_transfer hinv hext ?_ hd0)
          rw [hbs]
          apply assocInsert_find_ne
          obtain ⟨tS0, fS0, hf0, _⟩ := hd0
          have hmem0 := List.mem_of_find?_eq_some hf0
          exact Ne.symm (hkeys _ (List.mem_cons_self ..) bvid t f c rest rfl _ hmem0)
        · intro j hj bvid' t' f' c' rest' hje
          rcases List.mem_cons.mp hj with rfl | hjl
          · injection hje with h1 hk hops
            injection hk with ht2 hf2
            injection hops with hc2 hrest2
            subst h1
            subst hc2
            exact hpersist bvid c hdone
          · exact hestab j hjl bvid' t' f' c' rest' hje
      · have hskip : branchStep F acc i = acc := branchStep_skip F acc i (by
          intro bvid t f c rest he
          exact hib ⟨bvid, t, f, c, rest, he⟩)
        rw [hskip]
        have hnd' : ((l.filter Value.isCondBr).map Value.vid).Nodup := by
          cases hic : i.isCondBr
          · rw [List.filter_cons_of_neg (by simp [hic])] at hnd
            exact hnd
          · rw [List.filter_cons_of_pos (by simp [hic]), List.map_cons] at hnd
            exact (List.nodup_cons.mp hnd).2
        obtain ⟨hP, hpersist, hestab⟩ := ih acc hinv
          (fun j hj => hok j (List.mem_cons_of_mem _ hj))
          (fun j hj => hkeys j (List.mem_cons_of_mem _ hj)) hnd'
        refine ⟨hP, hpersist, ?_⟩
        intro j hj bvid' t' f' c' rest' hje
        rcases List.mem_cons.mp hj with rfl | hjl
        · exact absurd ⟨bvid', t', f', c', rest', hje⟩ hib
        · exact hestab j hjl bvid' t' f' c' rest' hje

end V7

/-- **C5.** For every conditional branch of the function, the graph built
by the branch pass of `src/compiler/DataflowGraph.cpp` (the version that
implements the claimed `Stream` wiring) associates with that branch a
`TrueSteer`/`FalseSteer` pair of distinct nodes — and the pairs of two
distinct branches are componentwise disjoint, so each branch has exactly
one such pair — where each steer has an incoming edge from the branch
condition's node and an incoming edge from the lazily created
function-entry `Stream` node.  The hypotheses say the starting graph has
its ids in bounds, its map bindings live, no binding yet for the stream
sentinel, every conditional branch carries a usable condition operand,
and branch identities are not duplicated. -/
theorem c5_branch_steers (F : Func) (g0 : CustomDataflowGraph)
    (hb : ∀ nd ∈ g0.nodes, nd.nid < g0.nextId)
    (hm : ∀ p ∈ g0.valueToNodeMap, p.2 < g0.nextId ∧
      ∃ nd ∈ g0.nodes, nd.nid = p.2)
    (hs : CustomDataflowGraph.findNodeForValue g0 V7.entryStreamKey = none)
    (hok : branchCondsOk F = true)
    (hnd : (condBrVids F).Nodup) :
    (∀ i ∈ F.allInsts, ∀ bvid t f c rest,
      i = Value.inst bvid (.condbr t f) (c :: rest) →
      V7.BranchDone (V7.branchPass F g0).1 (V7.branchPass F g0).2 bvid c) ∧
    (∀ q ∈ (V7.branchPass F g0).2, ∀ q' ∈ (V7.branchPass F g0).2,
      q.1 ≠ q'.1 →
      q.2.1 ≠ q'.2.1 ∧ q.2.1 ≠ q'.2.2 ∧ q.2.2 ≠ q'.2.1 ∧
      q.2.2 ≠ q'.2.2) := by
  unfold V7.branchPass
  unfold condBrVids at hnd
  have hinv0 : V7.PassInv (g0, ([] : List (Nat × Nat × Nat))) := by
    refine ⟨hb, hm, ?_, ?_, ?_⟩
    · intro q hq
      exact absurd hq (List.not_mem_nil q)
    · intro strm hstrm
      rw [hs] at hstrm
      exact Option.noConfusion hstrm
    · intro q hq
      exact absurd hq (List.not_mem_nil q)
  have hok' : ∀ i ∈ F.allInsts, ∀ bvid t f c rest,
      i = Value.inst bvid (.condbr t f) (c :: rest) → condOkV7 c = true := by
    intro i hi bvid t f c rest he
    unfold branchCondsOk at hok
    have hall := List.all_eq_true.mp hok i hi
    rw [he] at hall
    exact hall
  obtain ⟨hP, _, hestab⟩ := V7.branchFold_facts F F.allInsts (g0, []) hinv0
    hok'
    (fun i _ bvid t f c rest _ q hq => absurd hq (List.not_mem_nil q))
    hnd
  exact ⟨fun i hi bvid t f c rest he => hestab i hi bvid t f c rest he,
    hP.2.2.2.2⟩

/-- Witness for C5: in `FbrA` (a comparison followed by a two-armed
conditional branch), the branch with identity 42 ends up with its steer
pair, condition edges and `Stream` edges. -/
theorem c5_witness :
    V7.BranchDone (V7.branchPass FbrA CustomDataflowGraph.empty).1
      (V7.branchPass FbrA CustomDataflowGraph.empty).2 42 icmpB :=
  (c5_branch_steers FbrA CustomDataflowGraph.empty (by decide) (by decide)
      rfl (by decide) (by decide)).1 condbrB
    (by exact List.mem_cons_of_mem _ (List.mem_cons_self ..)) 42 1 2 icmpB
    [] rfl

end RipTide
